import Mathlib

/-!
# Key store of the Key Broker Service

A shallow embedding of `pkg/kbs/directory/key_store.go` (the directory backed
`KeyStore`) and of `pkg/kbs/domain/mocks/key_store.go` (the in-memory
`MockKeyStore`), followed by the properties of the store operations
`Create`, `Retrieve`, `Delete` and `Search`, and of `FilterHostReports` of
`pkg/ihub/k8splugin/k8s_plugin.go`. The components whose code is not among the sources
(the transfer policy evaluator, the assertion verifier, the envelope key wrapper, the
session manager, and the key, transfer and session controllers) are modelled from the
specification and from the controller tests.

Conventions of the embedding:
* a Go `map[K]V` is a finite map with at most one entry per key (`AList`);
* a Go slice is a `List` (a nil slice and an empty slice are both `[]`);
* a Go pointer to a record is the record itself, and a nil pointer is `none`;
* a Go `(value, error)` result is an `Except GoError value`;
* a method that updates its receiver returns the new receiver state.
-/

namespace KBS

/-! ## Data model -/

/-- Value of `uuid.UUID` (a 16 byte array), read as one number. -/
structure UUID where
  val : Nat
  deriving DecidableEq, Repr

/-- The zero UUID, `uuid.Nil`. -/
def UUID.Nil : UUID := ⟨0⟩

/-- A `time.Time` instant, as an opaque number. -/
abbrev Time := Nat

/-- Modelled from the spec: the declaration of `models.KeyAttributes` is not among the
sources; the fields are the ones the key stores and `NewFakeKeyStore` read and write
(the KeyRecord of the data model: identity, algorithm, size parameter, curve, backend
reference handle, transfer-policy reference, transfer link, creation timestamp). -/
structure KeyAttributes where
  ID : UUID
  Algorithm : String
  KeyLength : Int
  CurveType : String
  KmipKeyID : String
  TransferPolicyId : UUID
  TransferLink : String
  CreatedAt : Time
  deriving DecidableEq, Repr

/-- Modelled from the spec: the declaration of `models.KeyFilterCriteria` is not among
the sources; the fields are the four that `filterKeys` reads (equality filters on
algorithm, size parameter, curve, policy id). -/
structure KeyFilterCriteria where
  Algorithm : String
  KeyLength : Int
  CurveType : String
  TransferPolicyId : UUID
  deriving DecidableEq, Repr

/-- The zero value `models.KeyFilterCriteria{}`. -/
def KeyFilterCriteria.zero : KeyFilterCriteria :=
  { Algorithm := "", KeyLength := 0, CurveType := "", TransferPolicyId := UUID.Nil }

/-- Modelled from the spec: the constant `commErr.RecordNotFound` is declared in
`pkg/lib/common/err`, which is not among the sources; it is the text of the
record-not-found error. -/
def commErr.RecordNotFound : String := "record not found"

/-- A Go `error` value as the key stores build it. -/
inductive GoError where
  /-- Result of `errors.New(msg)`. -/
  | new (msg : String)
  /-- An error handed back by a library call (`json`, `uuid`). -/
  | lib (msg : String)
  /-- Result of `errors.Wrap(cause, msg)` and `errors.Wrapf`. -/
  | wrap (cause : GoError) (msg : String)
  deriving DecidableEq, Repr

/-! ## `directory.filterKeys` -/

/-- One filter loop of `filterKeys`: a fresh slice receiving, in order, the keys that
pass the test. -/
def filterLoop (test : KeyAttributes → Bool) : List KeyAttributes → List KeyAttributes
  | [] => []
  | key :: rest => if test key then key :: filterLoop test rest else filterLoop test rest

/-- Embedding of `filterKeys` (key_store.go, lines 113-166). -/
def filterKeys (keys : List KeyAttributes) (criteria : Option KeyFilterCriteria) :
    List KeyAttributes :=
  match criteria with
  | none => keys
  | some c =>
    if c = KeyFilterCriteria.zero then keys
    else
      -- Algorithm filter
      let keys := if c.Algorithm ≠ "" then
        filterLoop (fun key => decide (key.Algorithm = c.Algorithm)) keys else keys
      -- KeyLength filter
      let keys := if c.KeyLength ≠ 0 then
        filterLoop (fun key => decide (key.KeyLength = c.KeyLength)) keys else keys
      -- CurveType filter
      let keys := if c.CurveType ≠ "" then
        filterLoop (fun key => decide (key.CurveType = c.CurveType)) keys else keys
      -- TransferPolicyId filter
      let keys := if c.TransferPolicyId ≠ UUID.Nil then
        filterLoop (fun key => decide (key.TransferPolicyId = c.TransferPolicyId)) keys else keys
      keys

/-- The conjunction of the equality filters that `criteria` sets, as a test on one
record (the reading of the Search contract, not of the code). -/
def matchesCriteria (c : KeyFilterCriteria) (key : KeyAttributes) : Bool :=
  (c.Algorithm = "" || key.Algorithm = c.Algorithm) &&
  (c.KeyLength = 0 || key.KeyLength = c.KeyLength) &&
  (c.CurveType = "" || key.CurveType = c.CurveType) &&
  (c.TransferPolicyId = UUID.Nil || key.TransferPolicyId = c.TransferPolicyId)

/-! ## `mocks.MockKeyStore` -/

/-- Embedding of the struct `MockKeyStore`: the map from key id to key record, and the
`ThrowError` flag. -/
structure MockKeyStore where
  KeyStore : AList (fun _ : UUID => KeyAttributes)
  ThrowError : Bool

/-- Embedding of `MockKeyStore.Create`: `store.KeyStore[k.ID] = k; return k, nil`. -/
def MockKeyStore.Create (store : MockKeyStore) (k : KeyAttributes) :
    MockKeyStore × Except GoError KeyAttributes :=
  ({ store with KeyStore := store.KeyStore.insert k.ID k }, .ok k)

/-- Embedding of `MockKeyStore.Retrieve`. -/
def MockKeyStore.Retrieve (store : MockKeyStore) (id : UUID) : Except GoError KeyAttributes :=
  match store.KeyStore.lookup id with
  | some k => .ok k
  | none =>
    if store.ThrowError then .error (.new "Internal Server Error")
    else .error (.new commErr.RecordNotFound)

/-- Embedding of `MockKeyStore.Delete`; `none` is the nil error. -/
def MockKeyStore.Delete (store : MockKeyStore) (id : UUID) : MockKeyStore × Option GoError :=
  match store.KeyStore.lookup id with
  | some _ => ({ store with KeyStore := store.KeyStore.erase id }, none)
  | none => (store, some (.new commErr.RecordNotFound))

/-- The records held by the map, in the order of its entries. -/
def MockKeyStore.records (store : MockKeyStore) : List KeyAttributes :=
  store.KeyStore.entries.map Sigma.snd

/-- The orders in which `for _, k := range store.KeyStore` may visit the records: Go
leaves the iteration order of a map unspecified, so every arrangement of the records
is possible. -/
def MockKeyStore.rangeOrder (store : MockKeyStore) (keys : List KeyAttributes) : Prop :=
  keys.Perm store.records

/-- Embedding of `MockKeyStore.Search` from line 62 on, `keys` being the slice that the
`range` loop of lines 56-60 has collected. -/
def MockKeyStore.SearchFrom (keys : List KeyAttributes) (criteria : Option KeyFilterCriteria) :
    Except GoError (List KeyAttributes) :=
  match criteria with
  | none => .ok keys
  | some c =>
    if c = KeyFilterCriteria.zero then .ok keys
    else
      -- Algorithm filter
      let keys := if c.Algorithm ≠ "" then
        filterLoop (fun k => decide (k.Algorithm = c.Algorithm)) keys else keys
      -- KeyLength filter
      let keys := if c.KeyLength ≠ 0 then
        filterLoop (fun k => decide (k.KeyLength = c.KeyLength)) keys else keys
      -- CurveType filter
      let keys := if c.CurveType ≠ "" then
        filterLoop (fun k => decide (k.CurveType = c.CurveType)) keys else keys
      -- TransferPolicyId filter
      let keys := if c.TransferPolicyId ≠ UUID.Nil then
        filterLoop (fun k => decide (k.TransferPolicyId = c.TransferPolicyId)) keys else keys
      .ok keys

/-- Embedding of `MockKeyStore.Search` for the iteration order of the entries. -/
def MockKeyStore.Search (store : MockKeyStore) (criteria : Option KeyFilterCriteria) :
    Except GoError (List KeyAttributes) :=
  MockKeyStore.SearchFrom store.records criteria

/-- Embedding of `NewFakeKeyStore`; `t1 .. t4` are the four readings of
`time.Now().UTC()`. -/
def NewFakeKeyStore (t1 t2 t3 t4 : Time) : MockKeyStore :=
  let store : MockKeyStore := { KeyStore := ∅, ThrowError := false }
  let store := (store.Create
    { ID := ⟨0xee37c3607eae4250a6776ee12adce8e2⟩
      Algorithm := "AES"
      KeyLength := 256
      CurveType := ""
      KmipKeyID := "1"
      TransferPolicyId := ⟨0xee37c3607eae4250a6776ee12adce8e2⟩
      TransferLink :=
        "https://localhost:9443/kbs/v1/keys/ee37c360-7eae-4250-a677-6ee12adce8e2/transfer"
      CreatedAt := t1 }).1
  let store := (store.Create
    { ID := ⟨0xed37c3607eae4250a6776ee12adce8e3⟩
      Algorithm := "AES"
      KeyLength := 256
      CurveType := ""
      KmipKeyID := "1"
      TransferPolicyId := ⟨0xed37c3607eae4250a6776ee12adce8e3⟩
      TransferLink :=
        "https://localhost:9443/kbs/v1/keys/ed37c360-7eae-4250-a677-6ee12adce8e3/transfer"
      CreatedAt := t2 }).1
  let store := (store.Create
    { ID := ⟨0xe57e5ea0d465461e882d1600090caa0d⟩
      Algorithm := "EC"
      KeyLength := 0
      CurveType := "prime256v1"
      KmipKeyID := "2"
      TransferPolicyId := ⟨0xee37c3607eae4250a6776ee12adce8e2⟩
      TransferLink :=
        "https://localhost:9443/kbs/v1/keys/e57e5ea0-d465-461e-882d-1600090caa0d/transfer"
      CreatedAt := t3 }).1
  let store := (store.Create
    { ID := ⟨0x87d59b8233b747e78fcb6f7f12c82719⟩
      Algorithm := "RSA"
      KeyLength := 2048
      CurveType := ""
      KmipKeyID := "3"
      TransferPolicyId := ⟨0xee37c3607eae4250a6776ee12adce8e2⟩
      TransferLink :=
        "https://localhost:9443/kbs/v1/keys/87d59b82-33b7-47e7-8fcb-6f7f12c82719/transfer"
      CreatedAt := t4 }).1
  store

/-! ## `directory.KeyStore` -/

/-- Contents of a file. -/
abbrev Bytes := List Nat

/-- The library functions the directory store calls, taken as parameters:
`json.Marshal` and `json.Unmarshal` at type `models.KeyAttributes`, `uuid.UUID.String`
and `uuid.Parse`. -/
structure Codec where
  jsonMarshal : KeyAttributes → Except String Bytes
  jsonUnmarshal : Bytes → Except String KeyAttributes
  uuidString : UUID → String
  uuidParse : String → Except String UUID

/-- The files of the directory `ks.dir`, by file name. The file system is a finite map
from name to contents: reading or removing a name succeeds exactly when the name is
present, and writing always succeeds, so the branches of the source for other I/O
faults have no counterpart here. -/
abbrev Dir := AList (fun _ : String => Bytes)

/-- Embedding of `KeyStore.Create`: marshal the record and write it to the file named
by the id. Returns the directory afterwards and the result. -/
def KeyStore.Create (lib : Codec) (dir : Dir) (key : KeyAttributes) :
    Dir × Except GoError KeyAttributes :=
  match lib.jsonMarshal key with
  | .error e =>
    (dir, .error (.wrap (.lib e) "directory/key_store:Create() Failed to marshal key attributes"))
  | .ok bytes => (dir.insert (lib.uuidString key.ID) bytes, .ok key)

/-- Embedding of `KeyStore.Retrieve`. -/
def KeyStore.Retrieve (lib : Codec) (dir : Dir) (id : UUID) : Except GoError KeyAttributes :=
  match dir.lookup (lib.uuidString id) with
  | none => .error (.new commErr.RecordNotFound)
  | some bytes =>
    match lib.jsonUnmarshal bytes with
    | .error e =>
      .error (.wrap (.lib e)
        "directory/key_store:Retrieve() Failed to unmarshal key attributes")
    | .ok key => .ok key

/-- Embedding of `KeyStore.Delete`; `none` is the nil error. -/
def KeyStore.Delete (lib : Codec) (dir : Dir) (id : UUID) : Dir × Option GoError :=
  match dir.lookup (lib.uuidString id) with
  | none => (dir, some (.new commErr.RecordNotFound))
  | some _ => (dir.erase (lib.uuidString id), none)

/-- The loop of `KeyStore.Search` over the listed file names, `keys` being the slice
built so far. -/
def KeyStore.searchLoop (lib : Codec) (dir : Dir) :
    List String → List KeyAttributes → Except GoError (List KeyAttributes)
  | [], keys => .ok keys
  | name :: rest, keys =>
    match lib.uuidParse name with
    | .error e =>
      .error (.wrap (.lib e)
        ("directory/key_store:Search() Error in parsing key file name : " ++ name))
    | .ok filename =>
      match KeyStore.Retrieve lib dir filename with
      | .error e =>
        .error (.wrap e
          ("directory/key_store:Search() Error in retrieving key from file : " ++ name))
      | .ok key => KeyStore.searchLoop lib dir rest (keys ++ [key])

/-- Order of two file names as Go compares strings: lexicographic on the characters. -/
def nameLe : List Char → List Char → Bool
  | [], _ => true
  | _ :: _, [] => false
  | a :: as, b :: bs =>
    if a.toNat < b.toNat then true else if b.toNat < a.toNat then false else nameLe as bs

/-- What `ioutil.ReadDir(ks.dir)` lists: the names of the files of the directory, sorted
by file name. -/
def KeyStore.readDir (dir : Dir) : List String :=
  dir.keys.insertionSort fun a b => nameLe a.data b.data = true

/-- Embedding of `KeyStore.Search`. -/
def KeyStore.Search (lib : Codec) (dir : Dir) (criteria : Option KeyFilterCriteria) :
    Except GoError (List KeyAttributes) :=
  match KeyStore.searchLoop lib dir (KeyStore.readDir dir) [] with
  | .error e => .error e
  | .ok keys => .ok (if keys.length > 0 then filterKeys keys criteria else keys)

/-- A directory as the store itself leaves it: every file decodes to a key record and
is named by the id of that record. -/
def KeyStore.wellFormed (lib : Codec) (dir : Dir) : Bool :=
  dir.entries.all fun entry =>
    match lib.jsonUnmarshal entry.2 with
    | .ok key => decide (lib.uuidString key.ID = entry.1)
    | .error _ => false

/-- The records held by the files of the directory, in the order of its entries. -/
def KeyStore.records (lib : Codec) (dir : Dir) : List KeyAttributes :=
  dir.entries.filterMap fun entry =>
    match lib.jsonUnmarshal entry.2 with
    | .ok key => some key
    | .error _ => none

/-- The record that the file called `name` decodes to, if there is such a file and it
decodes. -/
def KeyStore.recordAt (lib : Codec) (dir : Dir) (name : String) : Option KeyAttributes :=
  match dir.lookup name with
  | none => none
  | some bytes =>
    match lib.jsonUnmarshal bytes with
    | .ok key => some key
    | .error _ => none

/-! ## Store operations as steps -/

/-- The four operations of the `domain.KeyStore` interface, with their arguments. -/
inductive KeyStoreOp where
  | create (key : KeyAttributes)
  | retrieve (id : UUID)
  | delete (id : UUID)
  | search (criteria : Option KeyFilterCriteria)

/-- The mock store after one operation. `Retrieve` and `Search` contain no assignment to
the map, so they leave the store as it is. -/
def MockKeyStore.after (store : MockKeyStore) : KeyStoreOp → MockKeyStore
  | .create key => (store.Create key).1
  | .retrieve _ => store
  | .delete id => (store.Delete id).1
  | .search _ => store

/-- The directory after one operation of the directory store. `Retrieve` and `Search`
only read (`ReadFile`, `ReadDir`), so they leave the directory as it is. -/
def KeyStore.after (lib : Codec) (dir : Dir) : KeyStoreOp → Dir
  | .create key => (KeyStore.Create lib dir key).1
  | .retrieve _ => dir
  | .delete id => (KeyStore.Delete lib dir id).1
  | .search _ => dir

/-- Every record of the map is stored under its own id, as `Create` stores it. -/
def MockKeyStore.wellKeyed (store : MockKeyStore) : Bool :=
  store.KeyStore.entries.all fun entry => decide (entry.2.ID = entry.1)

/-- Modelled from the spec: the REST layer (the key controller and the error handler of
the router) is not among the sources. Section 6 gives `GET /keys/{id}` and
`DELETE /keys/{id}` the status `404` if the key is absent and section 7 maps `NotFound`
to 404; the spec fixes no status for another error of the store (`none`). -/
def notFoundStatus (e : GoError) : Option Nat :=
  if e = .new commErr.RecordNotFound then some 404 else none

/-! ## Transfer policy evaluation and the assertion-based transfer -/

/-- Modelled from the spec: the transfer policy model is not among the sources. Section 3:
the applicable attestation kind of a policy is a platform-trust report or a
hardware-quote report. -/
inductive AttestationKind where
  | platformTrust
  | hardwareQuote
  deriving DecidableEq, Repr

/-- Modelled from the spec: the transfer policy model is not among the sources. Section 3:
each rule has an attribute name, an expected value or value set, and a
required/optional flag. -/
structure PolicyRule where
  name : String
  expected : List String
  required : Bool
  deriving DecidableEq, Repr

/-- Modelled from the spec: the transfer policy model is not among the sources. Section 3:
a policy has an identity, an applicable attestation kind and an ordered set of predicate
rules. -/
structure TransferPolicy where
  ID : UUID
  kind : AttestationKind
  rules : List PolicyRule
  deriving DecidableEq, Repr

/-- Modelled from the spec: the attestation facts are not among the sources. Section 3: a
flat mapping from attribute name to string value, a validity window, and an
overall-trust boolean (`none` when the proof carries none). -/
structure AttestationFacts where
  attributes : List (String × String)
  notBefore : Time
  notOnOrAfter : Time
  overallTrust : Option Bool
  deriving DecidableEq, Repr

/-- The value that the facts give to an attribute name, if they give one. -/
def AttestationFacts.value (facts : AttestationFacts) (name : String) : Option String :=
  facts.attributes.lookup name

/-- Modelled from the spec: the policy evaluator is not among the sources. Section 4.3: a
required rule must have its attribute present in the facts and equal to (or a member of)
the expected value(s); an optional rule, if the attribute is present, must also match,
but its absence does not cause denial. -/
def ruleSatisfied (facts : AttestationFacts) (rule : PolicyRule) : Bool :=
  match facts.value rule.name with
  | some v => rule.expected.contains v
  | none => !rule.required

/-- Modelled from the spec: the policy evaluator is not among the sources. Section 4.3,
`Evaluate(policy, facts) → (allow, reason)` for a policy that is present: every rule is
evaluated, a rule that is not satisfied gives `allow = false` with the first failing
rule's name as reason, and `facts.overallTrust` must equal true for a policy whose
attestation kind is platform-trust. The spec fixes the reason only for a failing rule;
elsewhere it is the empty string. -/
def Evaluate (policy : TransferPolicy) (facts : AttestationFacts) : Bool × String :=
  match policy.rules.find? (fun rule => !ruleSatisfied facts rule) with
  | some rule => (false, rule.name)
  | none =>
    match policy.kind with
    | .platformTrust => if facts.overallTrust = some true then (true, "") else (false, "")
    | .hardwareQuote => (true, "")

/-- Modelled from the spec: the policy evaluator is not among the sources. Section 4.3:
if the policy is absent the evaluator denies by default, unless the key record carries
no policy reference, in which case transfer is unconditionally allowed. -/
def EvaluateFor (policyRef : Option UUID) (policy : Option TransferPolicy)
    (facts : AttestationFacts) : Bool × String :=
  match policy with
  | some p => Evaluate p facts
  | none =>
    match policyRef with
    | none => (true, "")
    | some _ => (false, "")

/-- Modelled from the spec: the assertion verifier is not among the sources. Section 4.1:
the failures of `Verify`. -/
inductive VerifyError where
  | Malformed
  | UntrustedSigner
  | Expired
  deriving DecidableEq, Repr

/-- Modelled from the spec: the transfer controller `TransferWithSaml` is not among the
sources (the router registers it and the tests call it). Sections 2, 6 and 7: the
assertion path runs the verifier, then the evaluator; on approval the key is fetched and
wrapped. `verified` is the result of `Verify` on the request body and `release` the
result of fetching and wrapping the key (the wrapped bytes, or the status of the
failure). A malformed assertion gives 400, an untrusted signer or an expired assertion
401, a policy denial 401 with no key material, a success 200 with the wrapped key. -/
def TransferWithAssertion (policyRef : Option UUID) (policy : Option TransferPolicy)
    (verified : Except VerifyError AttestationFacts) (release : Except Nat Bytes) :
    Nat × Option Bytes :=
  match verified with
  | .error .Malformed => (400, none)
  | .error .UntrustedSigner => (401, none)
  | .error .Expired => (401, none)
  | .ok facts =>
    if (EvaluateFor policyRef policy facts).1 then
      match release with
      | .ok wrapped => (200, some wrapped)
      | .error status => (status, none)
    else (401, none)

/-! ## `k8splugin.FilterHostReports` -/

/-- A Go `map[string]string`. -/
abbrev StringMap := AList (fun _ : String => String)

/-- The value of the index expression `m[key]`: the stored value, or the empty string
when the key is absent. -/
def StringMap.index (m : StringMap) (key : String) : String :=
  (m.lookup key).getD ""

/-- Modelled from the spec: the declaration of the SAML attribute type is not among the
sources; the fields are the two that `FilterHostReports` reads. -/
structure SamlAttribute where
  Name : String
  AttributeValue : String
  deriving DecidableEq, Repr

/-- Modelled from the spec: the declaration of the SAML report type is not among the
sources; the fields are the ones that `FilterHostReports` reads, the attributes and
`Subject.NotOnOrAfter`. -/
structure SamlAssertion where
  Attribute : List SamlAttribute
  NotOnOrAfter : Time
  deriving DecidableEq, Repr

/-- Modelled from the spec: the declaration of `types.HostDetails` is not among the
sources; the fields are the ones that `k8s_plugin.go` reads and writes. -/
structure HostDetails where
  HostID : UUID
  HostIP : String
  HostName : String
  AssetTags : StringMap
  Trust : StringMap
  HardwareFeatures : StringMap
  Trusted : Bool
  ValidTo : Time
  AgentType : String
  EpcSize : String
  FlcEnabled : Bool
  SgxEnabled : Bool
  SgxSupported : Bool
  TcbUpToDate : String

/-- Embedding of `strings.HasPrefix(s, pre)`. -/
def HasPrefix (s pre : String) : Bool :=
  pre.data.isPrefixOf s.data

/-- Embedding of `strconv.ParseBool`: the six spellings of true, the six spellings of
false, and a syntax error for any other string. -/
def ParseBool (str : String) : Except String Bool :=
  if str = "1" ∨ str = "t" ∨ str = "T" ∨ str = "true" ∨ str = "TRUE" ∨ str = "True" then
    .ok true
  else if str = "0" ∨ str = "f" ∨ str = "F" ∨ str = "false" ∨ str = "FALSE"
      ∨ str = "False" then
    .ok false
  else .error "invalid syntax"

/-- The three maps that the loop of `FilterHostReports` fills. -/
structure ReportMaps where
  trustMap : StringMap
  hardwareFeaturesMap : StringMap
  assetTagsMap : StringMap

/-- One iteration of the loop of `FilterHostReports` over the attributes of the report
(k8s_plugin.go, lines 146-158). -/
def FilterHostReports.visit (maps : ReportMaps) (as : SamlAttribute) : ReportMaps :=
  let maps := if HasPrefix as.Name "TAG" then
    { maps with assetTagsMap := maps.assetTagsMap.insert as.Name as.AttributeValue } else maps
  let maps := if HasPrefix as.Name "TRUST" then
    { maps with trustMap := maps.trustMap.insert as.Name as.AttributeValue } else maps
  let maps := if HasPrefix as.Name "FEATURE" then
    { maps with hardwareFeaturesMap :=
        maps.hardwareFeaturesMap.insert as.Name as.AttributeValue } else maps
  maps

/-- Embedding of `FilterHostReports`. `fetched` is the result of
`vsPlugin.GetHostReports`; the function returns the host details afterwards and the
error (`none` is nil). -/
def FilterHostReports (fetched : Except GoError SamlAssertion) (hostDetails : HostDetails) :
    HostDetails × Option GoError :=
  match fetched with
  | .error err =>
    (hostDetails, some (.wrap err
      "k8splugin/k8s_plugin:FilterHostReports() : Error in getting the host report"))
  | .ok samlReport =>
    let maps := samlReport.Attribute.foldl FilterHostReports.visit
      { trustMap := ∅, hardwareFeaturesMap := ∅, assetTagsMap := ∅ }
    let overAllTrust := match ParseBool (maps.trustMap.index "TRUST_OVERALL") with
      | .ok b => b
      | .error _ => false
    ({ hostDetails with
        AssetTags := maps.assetTagsMap
        Trust := maps.trustMap
        HardwareFeatures := maps.hardwareFeaturesMap
        Trusted := overAllTrust
        ValidTo := samlReport.NotOnOrAfter }, none)

/-- The value of the last attribute of the list that bears the name, if there is one. -/
def lastValue (attrs : List SamlAttribute) (name : String) : Option String :=
  (attrs.reverse.find? fun a => decide (a.Name = name)).map fun a => a.AttributeValue

/-- The loop of `FilterHostReports` restricted to one map: every attribute whose name
has the prefix is assigned to the map under its name. -/
def collectPrefixed (pre : String) (attrs : List SamlAttribute) (m : StringMap) : StringMap :=
  attrs.foldl (fun m as => if HasPrefix as.Name pre then m.insert as.Name as.AttributeValue
    else m) m

/-! ## Envelope wrapping and the public-key transfer -/

/-- Embedding of `strings.Contains` on the characters of two strings: whether `sub`
occurs in `s`. -/
def containsChars : List Char → List Char → Bool
  | [], sub => sub.isEmpty
  | c :: rest, sub => sub.isPrefixOf (c :: rest) || containsChars rest sub

/-- Modelled from the spec: the envelope key wrapper is not among the sources. Section 4.5
and scenario C: whether a wrapping-key body carries the PEM markers BEGIN PUBLIC KEY and
END PUBLIC KEY. -/
def hasPublicKeyMarkers (body : String) : Bool :=
  containsChars body.data "-----BEGIN PUBLIC KEY-----".data &&
    containsChars body.data "-----END PUBLIC KEY-----".data

/-- Modelled from the spec: the envelope key wrapper is not among the sources. Section 4.5:
the failures of `Wrap`. -/
inductive WrapError where
  | MalformedWrappingKey
  | UnsupportedKeyType
  deriving DecidableEq, Repr

/-- The cryptographic library behind the wrapper, taken as parameters: the decoding of
the DER data between the PEM markers to a public key (`none` when there is no DER data
that decodes to one), the supported wrapping schemes, and the two encryptions. -/
structure WrapLib where
  decodePublicKey : String → Option Bytes
  supported : Bytes → Bool
  encrypt : Bytes → Bytes → Bytes
  sessionWrap : Bytes → Bytes → Bytes

/-- Modelled from the spec: the envelope key wrapper is not among the sources. Section 4.5:
the wrapping key is either a PEM-encoded public key or a symmetric session-derived
key. -/
inductive WrappingKey where
  | publicKeyPem (body : String)
  | sessionKey (key : Bytes)

/-- Modelled from the spec: the envelope key wrapper is not among the sources. Section 4.5:
a PEM public key must contain proper PEM headers and decode to a supported public-key
structure; `MalformedWrappingKey` if the PEM markers are missing or the decoded bytes are
not a valid public key, `UnsupportedKeyType` if the key is not of a supported wrapping
scheme. -/
def parseWrappingKey (lib : WrapLib) (body : String) : Except WrapError Bytes :=
  if hasPublicKeyMarkers body then
    match lib.decodePublicKey body with
    | none => .error .MalformedWrappingKey
    | some publicKey =>
      if lib.supported publicKey then .ok publicKey else .error .UnsupportedKeyType
  else .error .MalformedWrappingKey

/-- Modelled from the spec: the envelope key wrapper is not among the sources. Section 4.5,
`Wrap(rawKeyBytes, wrappingKey) → wrappedBytes, error`. -/
def Wrap (lib : WrapLib) (rawKeyBytes : Bytes) : WrappingKey → Except WrapError Bytes
  | .publicKeyPem body =>
    match parseWrappingKey lib body with
    | .error e => .error e
    | .ok publicKey => .ok (lib.encrypt publicKey rawKeyBytes)
  | .sessionKey key => .ok (lib.sessionWrap key rawKeyBytes)

/-- Modelled from the spec: the key controller `Transfer` is not among the sources (the
tests call it). Sections 6 and 7, `POST /keys/{id}/transfer` with a PEM public key as
body: the wrapping key is decoded first, a malformed or unsupported wrapping key gives
400; an unknown key id gives 404; `material` is the result of `FetchMaterial` (the raw
key, or the status of the failure); a success gives 200 with the wrapped key. -/
def TransferWithPublicKey (lib : WrapLib) (key : Option KeyAttributes)
    (material : Except Nat Bytes) (body : String) : Nat × Option Bytes :=
  match parseWrappingKey lib body with
  | .error _ => (400, none)
  | .ok publicKey =>
    match key with
    | none => (404, none)
    | some _ =>
      match material with
      | .error status => (status, none)
      | .ok rawKeyBytes => (200, some (lib.encrypt publicKey rawKeyBytes))

/-! ## Assertion verification -/

/-- Modelled from the spec: the assertion verifier is not among the sources. Section 4.1:
what the verifier reads in a parsed assertion, the signature block (`none` when the
assertion lacks one), the validity window, the attributes and the overall trust. -/
structure Assertion where
  signature : Option Bytes
  notBefore : Time
  notOnOrAfter : Time
  attributes : List (String × String)
  overallTrust : Option Bool
  deriving DecidableEq, Repr

/-- The library behind the verifier, taken as parameters: the parser of the assertion
format and the check of the signature of an assertion against one certificate. -/
structure VerifyLib where
  parse : Bytes → Option Assertion
  verifies : Bytes → Assertion → Bool

/-- Modelled from the spec: the assertion verifier is not among the sources. Section 4.1,
`Verify(assertionBytes, trustedIssuerCertificates) → (AttestationFacts, error)`:
`Malformed` if the assertion cannot be parsed or lacks a signature block,
`UntrustedSigner` if no certificate of the trusted set validates the signature,
`Expired` if the current time is past `NotOnOrAfter` (clock-skew allowance 0); the
attributes are passed through verbatim. -/
def Verify (lib : VerifyLib) (now : Time) (assertionBytes : Bytes) (trusted : List Bytes) :
    Except VerifyError AttestationFacts :=
  match lib.parse assertionBytes with
  | none => .error .Malformed
  | some assertion =>
    match assertion.signature with
    | none => .error .Malformed
    | some _ =>
      if trusted.any (fun certificate => lib.verifies certificate assertion) then
        if assertion.notOnOrAfter ≤ now then .error .Expired
        else .ok
          { attributes := assertion.attributes
            notBefore := assertion.notBefore
            notOnOrAfter := assertion.notOnOrAfter
            overallTrust := assertion.overallTrust }
      else .error .UntrustedSigner

/-! ## The session-based transfer -/

/-- Modelled from the spec: the controller `TransferApplicationKey` is not among the
sources. Section 6: the two headers of a request to `GET /keys/{id}/dhsm2-transfer` that
decide its status; `none` is a header that the request does not carry. -/
structure Dhsm2Request where
  acceptChallenge : Option String
  sessionId : Option String
  deriving DecidableEq, Repr

/-- Modelled from the spec: the controller `TransferApplicationKey` is not among the
sources (its tests are). Section 6: 400 when the header `Accept-Challenge` is missing,
401 when the header `Session-Id` is missing or invalid; section 8, scenario E: 401 for
an unknown `Session-Id`. `established` tells whether a session id names an established
session and `sessionPath` is the answer of the transfer bound to an established session
(challenge type, session id). -/
def TransferApplicationKey (established : String → Bool)
    (sessionPath : String → String → Nat × Option Bytes) (req : Dhsm2Request) :
    Nat × Option Bytes :=
  match req.acceptChallenge with
  | none => (400, none)
  | some challengeType =>
    match req.sessionId with
    | none => (401, none)
    | some sessionID =>
      if established sessionID then sessionPath challengeType sessionID
      else (401, none)

/-- One case of `skc_controller_test.go`: the headers of the request, whether the session
that `Session-Id` names was established before the request, and the status that the test
expects. -/
structure SkcTransferCase where
  request : Dhsm2Request
  sessionEstablished : Bool
  expected : Nat
  deriving DecidableEq, Repr

/-- Embedding of the three transfer cases of `skc_controller_test.go`: the request with
both headers after a session request that was answered 400 (lines 75-108), the request
without `Accept-Challenge` (lines 110-122) and the request without `Session-Id`
(lines 123-135). -/
def skcTransferCases : List SkcTransferCase :=
  [ { request := { acceptChallenge := some "SGX"
                   sessionId := some "SGX:14cfced1-03ee-4a68-8b50-6d456423b078" }
      sessionEstablished := false
      expected := 500 },
    { request := { acceptChallenge := none
                   sessionId := some "SGX:14cfced1-03ee-4a68-8b50-6d456423b078" }
      sessionEstablished := false
      expected := 400 },
    { request := { acceptChallenge := some "SGX", sessionId := none }
      sessionEstablished := false
      expected := 401 } ]

/-! ## The session manager -/

/-- Modelled from the spec: the session manager is not among the sources. Sections 4.2
and 7: the failures of `Establish` and `Consume`. -/
inductive SessionError where
  | ProofRejected
  | UnsupportedChallengeType
  | SessionNotFound
  | SessionExpired
  | ChallengeTypeMismatch
  deriving DecidableEq, Repr

/-- Modelled from the spec: the session manager is not among the sources. Section 3: a
session has an identity (opaque token), the expected proof kind, the challenge nonce, the
bound derived key, the creation time, the time-to-live and the one-shot-use flag; `facts`
are the facts synthesized from the original proof (section 4.2). -/
structure Session where
  ID : String
  challengeType : String
  nonce : Bytes
  key : Bytes
  facts : AttestationFacts
  createdAt : Time
  ttl : Time
  consumed : Bool
  deriving DecidableEq, Repr

/-- The session table, keyed by session id (section 5). -/
abbrev SessionTable := AList (fun _ : String => Session)

/-- Modelled from the spec: the session manager is not among the sources. Section 4.2:
whether the time-to-live of a session has elapsed. -/
def Session.expired (s : Session) (now : Time) : Bool :=
  decide (s.createdAt + s.ttl ≤ now)

/-- Modelled from the spec: the session manager is not among the sources. Section 4.2,
`Consume(sessionID, challengeType) → (AttestationFacts, derivedKey, error)`: the session
is looked up; `SessionNotFound` if absent, `SessionExpired` if the TTL elapsed,
`SessionExpired` for a session already consumed (section 5, SessionExpired/
AlreadyConsumed), `ChallengeTypeMismatch` if the type differs from the one used at
establishment; on success the session is marked consumed and its facts and derived key
are returned. Section 8: a session whose TTL has elapsed always yields `SessionExpired`,
so the lookup leaves an expired session in the table; its removal is the work of the
sweep, which is no part of `Consume`. Returns the table afterwards and the result. -/
def Consume (table : SessionTable) (now : Time) (sessionID challengeType : String) :
    SessionTable × Except SessionError (AttestationFacts × Bytes) :=
  match table.lookup sessionID with
  | none => (table, .error .SessionNotFound)
  | some s =>
    if s.expired now then (table, .error .SessionExpired)
    else if s.consumed then (table, .error .SessionExpired)
    else if s.challengeType ≠ challengeType then (table, .error .ChallengeTypeMismatch)
    else (table.insert sessionID { s with consumed := true }, .ok (s.facts, s.key))

/-- Modelled from the spec: the session manager is not among the sources. Section 4.2,
`Establish(challengeProof, challengeType) → (SessionID, error)`: `UnsupportedChallengeType`
if the type is not recognized, `ProofRejected` if the quote verification fails; on success
a session is stored in the state Created with a fixed TTL. `verified` is the answer of
the quote-verification collaborator (the facts and the key material, or `none`),
`sessionID` the fresh token and `nonce` the challenge nonce. -/
def Establish (table : SessionTable) (now ttl : Time) (recognized : String → Bool)
    (verified : Option (AttestationFacts × Bytes)) (sessionID : String) (nonce : Bytes)
    (challengeType : String) : SessionTable × Except SessionError String :=
  if recognized challengeType then
    match verified with
    | none => (table, .error .ProofRejected)
    | some (facts, key) =>
      (table.insert sessionID
        { ID := sessionID, challengeType := challengeType, nonce := nonce, key := key,
          facts := facts, createdAt := now, ttl := ttl, consumed := false },
        .ok sessionID)
  else (table, .error .UnsupportedChallengeType)

/-- One call of `Consume`: the time of the call and its two arguments. -/
structure ConsumeCall where
  now : Time
  sessionID : String
  challengeType : String
  deriving DecidableEq, Repr

/-- A sequence of `Consume` calls, run in order: the table afterwards and the result of
each call. -/
def ConsumeAll (table : SessionTable) :
    List ConsumeCall → SessionTable × List (Except SessionError (AttestationFacts × Bytes))
  | [] => (table, [])
  | call :: rest =>
    let step := Consume table call.now call.sessionID call.challengeType
    let tail := ConsumeAll step.1 rest
    (tail.1, step.2 :: tail.2)

/-- Whether a call of `Consume` for the session id succeeded. -/
def consumedOk (id : String)
    (entry : ConsumeCall × Except SessionError (AttestationFacts × Bytes)) : Bool :=
  decide (entry.1.sessionID = id) &&
    match entry.2 with
    | .ok _ => true
    | .error _ => false

/-- The state of a session id after a successful `Consume`: the table holds the session
and the session is marked consumed. -/
def spent (table : SessionTable) (id : String) : Prop :=
  ∃ s, table.lookup id = some s ∧ s.consumed = true

/-! ## Key creation and registration -/

/-- Modelled from the spec: the key manager is not among the sources. Section 3: the
algorithm of a key is of a symmetric or of an asymmetric family (RSA, elliptic curve);
the size parameter is a bit length for the first two and a named curve for the third. -/
inductive AlgorithmFamily where
  | symmetric
  | rsa
  | ec
  deriving DecidableEq, Repr

/-- The key specifications that the service supports, taken as parameters (the spec does
not list them): the family of an algorithm name (`none` for an unsupported name), the
supported key lengths of an algorithm and the supported curves. -/
structure KeySpecSupport where
  family : String → Option AlgorithmFamily
  lengthSupported : String → Int → Bool
  curveSupported : String → Bool

/-- Modelled from the spec: the request model is not among the sources; the fields are
those of `key_information` in the requests of `key_controller_test.go`. An empty string
and a zero length are a missing field. -/
structure KeyInformation where
  Algorithm : String
  KeyLength : Int
  CurveType : String
  KeyString : String
  KmipKeyID : String
  deriving DecidableEq, Repr

/-- Modelled from the spec: the request model is not among the sources; a create or
register request carries the key information and an optional transfer policy id. -/
structure KeyRequest where
  KeyInformation : KeyInformation
  TransferPolicyID : Option UUID
  deriving DecidableEq, Repr

/-- Modelled from the spec: the key manager is not among the sources. Sections 4.4 and 7:
the failures of `CreateOrRegister`. -/
inductive CreateError where
  | PolicyNotFound
  | InvalidKeySpec
  | BackendUnavailable
  deriving DecidableEq, Repr

/-- Modelled from the spec: the key manager is not among the sources. Section 4.4,
`InvalidKeySpec` for unsupported algorithm/length/curve combinations: the algorithm is
missing or unsupported, or the key length of a symmetric or RSA algorithm is missing or
unsupported, or the curve type of an elliptic-curve algorithm is missing or
unsupported. -/
def invalidKeySpec (sup : KeySpecSupport) (info : KeyInformation) : Bool :=
  decide (info.Algorithm = "") ||
    match sup.family info.Algorithm with
    | none => true
    | some .ec => decide (info.CurveType = "") || !sup.curveSupported info.CurveType
    | some _ => decide (info.KeyLength = 0) || !sup.lengthSupported info.Algorithm info.KeyLength

/-- Modelled from the spec: the key manager and the key controller `Create` are not among
the sources (the tests call the controller). Section 4.4, `CreateOrRegister(spec) →
(KeyRecord, error)`: `InvalidKeySpec` for an unsupported key specification,
`PolicyNotFound` if a referenced transfer policy id does not resolve; the key
specification is checked first. A request with an existing backend handle is a
registration and needs no backend call; `backend` is the result of the backend call
otherwise (the handle of the new key). The record is persisted only after the backend
call succeeded. `newId`, `now` and `link` are the id, the creation time and the transfer
link of the new record. Returns the key store afterwards and the result. -/
def CreateOrRegister (sup : KeySpecSupport) (policies : AList (fun _ : UUID => TransferPolicy))
    (backend : Except CreateError String) (newId : UUID) (now : Time) (link : String)
    (store : MockKeyStore) (req : KeyRequest) :
    MockKeyStore × Except CreateError KeyAttributes :=
  if invalidKeySpec sup req.KeyInformation then (store, .error .InvalidKeySpec)
  else
    let resolved : Bool :=
      match req.TransferPolicyID with
      | none => true
      | some policyId => (policies.lookup policyId).isSome
    if resolved then
      let handle : Except CreateError String :=
        if req.KeyInformation.KmipKeyID ≠ "" then .ok req.KeyInformation.KmipKeyID
        else backend
      match handle with
      | .error e => (store, .error e)
      | .ok kmipKeyID =>
        let record : KeyAttributes :=
          { ID := newId
            Algorithm := req.KeyInformation.Algorithm
            KeyLength := req.KeyInformation.KeyLength
            CurveType := req.KeyInformation.CurveType
            KmipKeyID := kmipKeyID
            TransferPolicyId := req.TransferPolicyID.getD UUID.Nil
            TransferLink := link
            CreatedAt := now }
        ((store.Create record).1, .ok record)
    else (store, .error .PolicyNotFound)

/-- Modelled from the spec: the router's error handler is not among the sources.
Section 7 maps `InvalidKeySpec` to 400 and `PolicyNotFound` to 404; the spec gives
`BackendUnavailable` two statuses (`none` here). The controller test `Provide a Create
request with invalid transfer policy id` (key_controller_test.go, lines 145-177) expects
400 for a policy id that the policy store does not hold, where section 7 says 404. -/
def createErrorStatus : CreateError → Option Nat
  | .InvalidKeySpec => some 400
  | .PolicyNotFound => some 404
  | .BackendUnavailable => none

/-! ## The key search request -/

/-- The validation functions behind the key search, taken as parameters: `strconv.Atoi`,
`uuid.Parse`, and the test of the characters allowed in an algorithm or a curve type (the
spec does not list them). -/
structure QueryValidators where
  parseInt : String → Option Int
  parseUUID : String → Option UUID
  allowedString : String → Bool

/-- Modelled from the spec: the key controller `Search` is not among the sources (the
tests call it). Section 6: the filters are `algorithm`, `keyLength`, `curveType` and
`transferPolicyId`; an unknown parameter or a malformed value is an error. One query
parameter is read into the criteria. -/
def applyQueryParam (v : QueryValidators) (criteria : KeyFilterCriteria) (name value : String) :
    Except String KeyFilterCriteria :=
  if name = "algorithm" then
    if v.allowedString value then .ok { criteria with Algorithm := value }
    else .error "Valid contents for algorithm must be specified"
  else if name = "keyLength" then
    match v.parseInt value with
    | some length => .ok { criteria with KeyLength := length }
    | none => .error "Invalid keyLength query param value, must be Integer"
  else if name = "curveType" then
    if v.allowedString value then .ok { criteria with CurveType := value }
    else .error "Valid contents for curveType must be specified"
  else if name = "transferPolicyId" then
    match v.parseUUID value with
    | some id => .ok { criteria with TransferPolicyId := id }
    | none => .error "Invalid transferPolicyId query param value, must be UUID"
  else .error "Invalid query parameter provided"

/-- Modelled from the spec: the key controller `Search` is not among the sources.
Section 6: the query parameters of a search request read in turn, from the criteria built
so far; the first error ends the reading. -/
def getKeyFilterCriteria (v : QueryValidators) :
    List (String × String) → KeyFilterCriteria → Except String KeyFilterCriteria
  | [], criteria => .ok criteria
  | (name, value) :: rest, criteria =>
    match applyQueryParam v criteria name value with
    | .error e => .error e
    | .ok criteria => getKeyFilterCriteria v rest criteria

/-- Modelled from the spec: the key controller `Search` is not among the sources (the
tests call it). Section 6, `GET /keys?...`: 200 with the filtered list, 400 on an unknown
or malformed filter; `records` are the stored key records. -/
def SearchKeys (v : QueryValidators) (records : List KeyAttributes)
    (params : List (String × String)) : Nat × Option (List KeyAttributes) :=
  match getKeyFilterCriteria v params KeyFilterCriteria.zero with
  | .error _ => (400, none)
  | .ok criteria => (200, some (filterKeys records (some criteria)))

/-! ## `k8splugin.GetHosts` -/

/-- A Go `map[string]types.HostDetails`, the type of `KubernetesDetails.HostDetailsMap`. -/
abbrev HostDetailsMap := AList (fun _ : String => HostDetails)

/-- The zero value of `types.HostDetails`, the value of `var hostDetails types.HostDetails`. -/
def HostDetails.zero : HostDetails :=
  { HostID := UUID.Nil
    HostIP := ""
    HostName := ""
    AssetTags := ∅
    Trust := ∅
    HardwareFeatures := ∅
    Trusted := false
    ValidTo := 0
    AgentType := ""
    EpcSize := ""
    FlcEnabled := false
    SgxEnabled := false
    SgxSupported := false
    TcbUpToDate := "" }

/-- Modelled from the spec: the declaration of `model.HostResponse` is not among the
sources; this is one entry of `items.Spec.Taints`, with the field that `GetHosts`
reads. -/
structure Taint where
  Key : String
  deriving DecidableEq, Repr

/-- Modelled from the spec: one entry of `items.Status.Addresses`, with the two fields
that `GetHosts` reads; `AddrType` is the field `Type` of the source. -/
structure NodeAddress where
  AddrType : String
  Address : String
  deriving DecidableEq, Repr

/-- Modelled from the spec: one entry of `hostResponse.Items`, with the parts that
`GetHosts` reads: `Spec.Taints`, `Status.NodeInfo.SystemID` and `Status.Addresses`. -/
structure NodeItem where
  Taints : List Taint
  SystemID : String
  Addresses : List NodeAddress
  deriving DecidableEq, Repr

/-- The loop of `GetHosts` over the taints of a node (k8s_plugin.go, lines 99-106):
`isMaster` becomes true at the first taint with the master key, where the loop breaks. -/
def GetHosts.isMaster : List Taint → Bool
  | [] => false
  | taints :: rest =>
    if taints.Key = "node-role.kubernetes.io/master" then true else GetHosts.isMaster rest

/-- One iteration of the loop of `GetHosts` over the addresses of a node (lines 112-121). -/
def GetHosts.visitAddress (hostDetails : HostDetails) (addr : NodeAddress) : HostDetails :=
  let hostDetails :=
    if addr.AddrType = "InternalIP" then { hostDetails with HostIP := addr.Address }
    else hostDetails
  let hostDetails :=
    if addr.AddrType = "Hostname" then { hostDetails with HostName := addr.Address }
    else hostDetails
  hostDetails

/-- The host details that `GetHosts` builds for a node that is not a master (lines
108-121). `uuidParse` is `uuid.Parse` with its two results; the error is dropped by the
source (`hostDetails.HostID, _ = uuid.Parse(sysID)`). -/
def GetHosts.hostDetails (uuidParse : String → UUID × Option GoError) (items : NodeItem) :
    HostDetails :=
  items.Addresses.foldl GetHosts.visitAddress
    { HostDetails.zero with HostID := (uuidParse items.SystemID).1 }

/-- One iteration of the loop of `GetHosts` over the nodes (lines 97-125). -/
def GetHosts.visitItem (uuidParse : String → UUID × Option GoError)
    (hostDetailMap : HostDetailsMap) (items : NodeItem) : HostDetailsMap :=
  if GetHosts.isMaster items.Taints then hostDetailMap
  else
    let hostDetails := GetHosts.hostDetails uuidParse items
    hostDetailMap.insert hostDetails.HostIP hostDetails

/-- Embedding of `GetHosts`. `fetched` is the outcome of the steps before the loop (the
request to Kubernetes, reading the body and unmarshalling it): the items of the node
list, or the error that the source returns for the step that failed. The function
returns `k8sDetails.HostDetailsMap` afterwards and the error (`none` is nil). -/
def GetHosts (uuidParse : String → UUID × Option GoError)
    (fetched : Except GoError (List NodeItem)) (HostDetailsMap0 : HostDetailsMap) :
    HostDetailsMap × Option GoError :=
  match fetched with
  | .error err => (HostDetailsMap0, some err)
  | .ok items => (items.foldl (GetHosts.visitItem uuidParse) ∅, none)

/-- Whether a node carries a taint with the key `node-role.kubernetes.io/master`. -/
def NodeItem.hasMasterTaint (n : NodeItem) : Prop :=
  ∃ t ∈ n.Taints, t.Key = "node-role.kubernetes.io/master"

/-- The InternalIP address of a node: the address of its last entry of type
`InternalIP`, the empty string when it has none. -/
def NodeItem.InternalIP (n : NodeItem) : String :=
  (((n.Addresses.filter fun a => decide (a.AddrType = "InternalIP")).getLast?).map
    fun a => a.Address).getD ""

/-- The host name of a node: the address of its last entry of type `Hostname`, the empty
string when it has none. -/
def NodeItem.Hostname (n : NodeItem) : String :=
  (((n.Addresses.filter fun a => decide (a.AddrType = "Hostname")).getLast?).map
    fun a => a.Address).getD ""

instance NodeItem.decidableHasMasterTaint (n : NodeItem) : Decidable n.hasMasterTaint :=
  inferInstanceAs (Decidable (∃ t ∈ n.Taints, t.Key = "node-role.kubernetes.io/master"))

/-- The last node of the list, in list order, that does not carry the master taint and
has the given InternalIP address. -/
def lastWorkerAt (items : List NodeItem) (ip : String) : Option NodeItem :=
  (items.filter fun n => decide (¬ n.hasMasterTaint) && decide (n.InternalIP = ip)).getLast?

/-! ## `k8splugin.SendDataToEndPoint` -/

/-- Modelled from the spec: the declaration of `types.PlatformDataSGX` (a slice) is not
among the sources; this is one element of it, with the fields that `SendDataToEndPoint`
reads. -/
structure PlatformDataSGX where
  EpcSize : String
  FlcEnabled : Bool
  SgxEnabled : Bool
  SgxSupported : Bool
  TcbUpToDate : Bool
  ValidTo : Time
  deriving DecidableEq, Repr

/-- The configuration and the calls out of the package that `SendDataToEndPoint` makes
for a host: the two base URLs of `kubernetes.Config.AttestationService`,
`vsPlugin.GetHostReports` (called by `FilterHostReports` with the host id),
`vsPlugin.GetHostPlatformDataSGX` (called with the host name), `json.Unmarshal` into
`sgxData`, and `osRegexEpcSize.MatchString`. The variable `sgxData` is declared once,
before the loop, and `json.Unmarshal` decodes into the value it finds there: it is given
the platform data and the `sgxData` before the call and yields the `sgxData` after the
call and the error (`none` is nil). -/
structure VerificationServices where
  HVSBaseURL : String
  SHVSBaseURL : String
  GetHostReports : UUID → Except GoError SamlAssertion
  GetHostPlatformDataSGX : String → Except GoError Bytes
  jsonUnmarshal : Bytes → List PlatformDataSGX → List PlatformDataSGX × Option GoError
  osRegexEpcSize : String → Bool

/-- Embedding of `strconv.FormatBool`. -/
def strconv.FormatBool (b : Bool) : String :=
  if b then "true" else "false"

/-- How one iteration of the loop of `SendDataToEndPoint` over the hosts ends. -/
inductive HostStep where
  /-- The iteration ended at a `continue` (lines 454 and 460): the map entry of the host
  is not touched. -/
  | skipped
  /-- The iteration reached `delete(kubernetes.HostDetailsMap, key)`. -/
  | removed
  /-- The iteration reached `kubernetes.HostDetailsMap[key] = hostDetails`. -/
  | stored (hostDetails : HostDetails)
  /-- The index expression `sgxData[0]` was evaluated on an empty slice. -/
  | panicked

/-- The end of an iteration of the loop of `SendDataToEndPoint` (lines 471-480). -/
def SendDataToEndPoint.finish (hostDetails : HostDetails) (hvsFail shvsFail : Bool) :
    HostStep :=
  let hostDetails :=
    if !hvsFail && !shvsFail then { hostDetails with AgentType := "both" } else hostDetails
  if hvsFail && shvsFail then .removed else .stored hostDetails

/-- The part of an iteration that asks HVS (lines 430-440): the host details afterwards
and `hvsFail`. -/
def SendDataToEndPoint.askHVS (vs : VerificationServices) (hostDetails : HostDetails) :
    HostDetails × Bool :=
  if vs.HVSBaseURL ≠ "" then
    match FilterHostReports (vs.GetHostReports hostDetails.HostID) hostDetails with
    | (hostDetails, some _) => (hostDetails, true)
    | (hostDetails, none) => ({ hostDetails with AgentType := "ta" }, false)
  else (hostDetails, true)

/-- One iteration of the loop of `SendDataToEndPoint` over the hosts (lines 425-481), for
the host details read from the map and the value of `sgxData` that the earlier
iterations left: how the iteration ends, and `sgxData` afterwards. -/
def SendDataToEndPoint.visitHost (vs : VerificationServices) (hostDetails : HostDetails)
    (sgxData : List PlatformDataSGX) : HostStep × List PlatformDataSGX :=
  match SendDataToEndPoint.askHVS vs hostDetails with
  | (hostDetails, hvsFail) =>
    if vs.SHVSBaseURL ≠ "" then
      match vs.GetHostPlatformDataSGX hostDetails.HostName with
      | .error _ => (SendDataToEndPoint.finish hostDetails hvsFail true, sgxData)
      | .ok platformData =>
        let hostDetails := { hostDetails with AgentType := "sgx" }
        match vs.jsonUnmarshal platformData sgxData with
        | (sgxData, some _) => (.skipped, sgxData)
        | ([], none) => (.panicked, [])
        | (sgxData0 :: rest, none) =>
          if !vs.osRegexEpcSize sgxData0.EpcSize then (.skipped, sgxData0 :: rest)
          else
            (SendDataToEndPoint.finish
              { hostDetails with
                  EpcSize := sgxData0.EpcSize
                  FlcEnabled := sgxData0.FlcEnabled
                  SgxEnabled := sgxData0.SgxEnabled
                  SgxSupported := sgxData0.SgxSupported
                  TcbUpToDate := strconv.FormatBool sgxData0.TcbUpToDate
                  ValidTo := sgxData0.ValidTo }
              hvsFail false, sgxData0 :: rest)
    else (SendDataToEndPoint.finish hostDetails hvsFail true, sgxData)

/-- The loop of `SendDataToEndPoint` over the hosts of the map (lines 424-481). `order`
is the order in which `range` yields the keys and `sgxData` the value of the variable
before the iteration; `none` is a panic. -/
def SendDataToEndPoint.visitHosts (vs : VerificationServices) :
    List String → List PlatformDataSGX → HostDetailsMap → Option HostDetailsMap
  | [], _, HostDetailsMap0 => some HostDetailsMap0
  | key :: order, sgxData, HostDetailsMap0 =>
    match SendDataToEndPoint.visitHost vs
        ((HostDetailsMap0.lookup key).getD HostDetails.zero) sgxData with
    | (.skipped, sgxData) => SendDataToEndPoint.visitHosts vs order sgxData HostDetailsMap0
    | (.removed, sgxData) =>
      SendDataToEndPoint.visitHosts vs order sgxData (HostDetailsMap0.erase key)
    | (.stored hostDetails, sgxData) =>
      SendDataToEndPoint.visitHosts vs order sgxData (HostDetailsMap0.insert key hostDetails)
    | (.panicked, _) => none

/-- Embedding of `SendDataToEndPoint` up to the end of the loop over the hosts: the host
map that is pushed to the CRD when it is not empty. `fetched` is the node list that
`GetHosts` obtains; the result is the error of `GetHosts`, or the map after the loop
(`none` when the loop panicked). The keys are visited in the order of the key list of
the map (Go leaves the order open); an iteration reads and writes the map entry of its
own key only, and depends on the earlier ones through `sgxData` alone, which is nil
before the loop. -/
def SendDataToEndPoint (uuidParse : String → UUID × Option GoError)
    (vs : VerificationServices) (fetched : Except GoError (List NodeItem)) :
    Except GoError (Option HostDetailsMap) :=
  match GetHosts uuidParse fetched ∅ with
  | (_, some err) =>
    .error (.wrap err
      "k8splugin/k8s_plugin:SendDataToEndPoint() Error in getting the Hosts from kubernetes")
  | (HostDetailsMap0, none) =>
    .ok (SendDataToEndPoint.visitHosts vs HostDetailsMap0.keys [] HostDetailsMap0)

/-! ## The `update-service-config` setup task -/

/-- Modelled from the spec: the declaration of `commConfig.ServerConfig` is not among the
sources; the fields are the port that `Run` and `Validate` read and the other server
settings that the help text of the task lists. -/
structure ServerConfig where
  Port : Int
  ReadTimeout : Int
  ReadHeaderTimeout : Int
  WriteTimeout : Int
  IdleTimeout : Int
  MaxHeaderBytes : Int
  deriving DecidableEq, Repr

/-- Modelled from the spec: the declaration of `commConfig.LogConfig` is not among the
sources; the fields are the ones that `Run` writes. -/
structure LogConfig where
  MaxLength : Int
  EnableStdout : Bool
  Level : String
  deriving DecidableEq, Repr

/-- Modelled from the spec: the declaration of `config.KmipConfig` is not among the
sources; the fields are the ones that `Run` writes. -/
structure KmipConfig where
  Version : String
  ServerIP : String
  ServerPort : String
  Hostname : String
  Username : String
  Password : String
  ClientKeyFilePath : String
  ClientCertificateFilePath : String
  RootCertificateFilePath : String
  deriving DecidableEq, Repr

/-- Modelled from the spec: the declaration of the `config.Configuration` of the key
broker is not among the sources; the fields are the ones that `Run` writes and
`Validate` reads. -/
structure Configuration where
  Server : ServerConfig
  AASBaseUrl : String
  APSBaseUrl : String
  CustomToken : String
  Log : LogConfig
  EndpointURL : String
  Kmip : KmipConfig
  KeyManager : String
  deriving DecidableEq, Repr

/-- The values that `Run` reads from `viper`, one field for each key it asks for. -/
structure ViperValues where
  LogMaxLength : Int
  LogEnableStdout : Bool
  LogLevel : String
  EndpointUrl : String
  KmipVersion : String
  KmipServerIP : String
  KmipServerPort : String
  KmipHostname : String
  KmipUsername : String
  KmipPassword : String
  KmipClientKeyPath : String
  KmipClientCertPath : String
  KmipRootCertPath : String
  KeyManager : String
  deriving DecidableEq, Repr

/-- The task `UpdateServiceConfig`, without the pointer `AppConfig` (the configuration
it points to is passed to `Run` and `Validate` and handed back by them) and without the
console writer. -/
structure UpdateServiceConfig where
  ServerConfig : ServerConfig
  DefaultPort : Int
  AASBaseUrl : String
  APSBaseUrl : String
  CustomToken : String
  deriving DecidableEq, Repr

/-- Embedding of `strings.HasSuffix(s, suffix)`. -/
def HasSuffix (s suffix : String) : Bool :=
  suffix.data.isSuffixOf s.data

/-- Embedding of `strconv.Itoa`. -/
def strconv.Itoa (n : Int) : String :=
  toString n

/-- The table `allowedKeyManagers` of the source. -/
def allowedKeyManagers : AList (fun _ : String => Bool) :=
  (∅ : AList (fun _ : String => Bool)).insert "kmip" true

/-- Embedding of `UpdateServiceConfig.Run`: the configuration `*uc.AppConfig` afterwards
and the error (`none` is nil). -/
def UpdateServiceConfig.Run (viper : ViperValues) (uc : UpdateServiceConfig)
    (AppConfig : Configuration) : Configuration × Option GoError :=
  if uc.AASBaseUrl = "" then
    (AppConfig, some (.new "KBS configuration not provided: AAS_BASE_URL is not set"))
  else
    let uc :=
      if uc.ServerConfig.Port < 1024 ∨ uc.ServerConfig.Port > 65535 then
        { uc with ServerConfig := { uc.ServerConfig with Port := uc.DefaultPort } }
      else uc
    let AppConfig := { AppConfig with Server := uc.ServerConfig }
    let AppConfig := { AppConfig with AASBaseUrl := uc.AASBaseUrl }
    let uc :=
      if !HasSuffix uc.APSBaseUrl "/" then { uc with APSBaseUrl := uc.APSBaseUrl ++ "/" }
      else uc
    let AppConfig := { AppConfig with APSBaseUrl := uc.APSBaseUrl }
    let AppConfig := { AppConfig with CustomToken := uc.CustomToken }
    let AppConfig := { AppConfig with
      Log := { MaxLength := viper.LogMaxLength
               EnableStdout := viper.LogEnableStdout
               Level := viper.LogLevel } }
    let AppConfig := { AppConfig with EndpointURL := viper.EndpointUrl }
    let AppConfig := { AppConfig with
      Kmip := { Version := viper.KmipVersion
                ServerIP := viper.KmipServerIP
                ServerPort := viper.KmipServerPort
                Hostname := viper.KmipHostname
                Username := viper.KmipUsername
                Password := viper.KmipPassword
                ClientKeyFilePath := viper.KmipClientKeyPath
                ClientCertificateFilePath := viper.KmipClientCertPath
                RootCertificateFilePath := viper.KmipRootCertPath } }
    let AppConfig := { AppConfig with KeyManager := viper.KeyManager }
    (AppConfig, none)

/-- What `Validate` takes from outside the file: the two constants
`constants.MinLogLengthLimit` and `constants.MaxLogLengthLimit`, whose declarations are
not among the sources, and `strings.ToLower`. -/
structure ValidateParams where
  MinLogLengthLimit : Int
  MaxLogLengthLimit : Int
  ToLower : String → String

/-- Embedding of `UpdateServiceConfig.Validate`: the configuration `*uc.AppConfig`
afterwards and the error (`none` is nil). -/
def UpdateServiceConfig.Validate (constants : ValidateParams) (uc : UpdateServiceConfig)
    (AppConfig : Configuration) : Configuration × Option GoError :=
  if uc.AASBaseUrl = "" then
    (AppConfig, some (.new "KBS configuration not provided: AAS_BASE_URL is not set"))
  else if AppConfig.Server.Port < 1024 ∨ AppConfig.Server.Port > 65535 then
    (AppConfig, some (.new "Configured port is not valid"))
  else if AppConfig.Log.MaxLength < constants.MinLogLengthLimit ∨
      AppConfig.Log.MaxLength > constants.MaxLogLengthLimit then
    (AppConfig, some (.new
      ("tasks/update_service_config:Validate() Configured Log Length not valid. Please specify value within "
        ++ strconv.Itoa constants.MinLogLengthLimit ++ " and "
        ++ strconv.Itoa constants.MaxLogLengthLimit)))
  else
    match allowedKeyManagers.lookup (constants.ToLower AppConfig.KeyManager) with
    | none =>
      (AppConfig, some (.new "Invalid value provided for KEY_MANAGER. Value should be kmip"))
    | some _ => (AppConfig, none)

/-! ## `postgres.ReportStore`: the report search -/

/-- How a call ends that may panic: with a panic, with the error it returns, or with
its result. -/
inductive Outcome (α : Type) where
  | panic (msg : String)
  | error (err : GoError)
  | ok (a : α)

/-- Sequencing of calls: a panic or an error of the first ends the whole. -/
def Outcome.bind {α β : Type} (x : Outcome α) (f : α → Outcome β) : Outcome β :=
  match x with
  | .panic msg => .panic msg
  | .error err => .error err
  | .ok a => f a

instance : Monad Outcome where
  pure := Outcome.ok
  bind := Outcome.bind

/-- Modelled from the spec: the declaration of `models.ReportFilterCriteria` is not among
the sources; the fields are the ones that `Search` and `Update` read and write. -/
structure ReportFilterCriteria where
  ID : UUID
  HostID : UUID
  HostHardwareID : UUID
  HostName : String
  HostStatus : String
  NumberOfDays : Int
  FromDate : Time
  ToDate : Time
  LatestPerHost : Bool
  Limit : Int
  deriving DecidableEq, Repr

/-- The zero value `models.ReportFilterCriteria{}`. -/
def ReportFilterCriteria.zero : ReportFilterCriteria :=
  { ID := UUID.Nil, HostID := UUID.Nil, HostHardwareID := UUID.Nil, HostName := "",
    HostStatus := "", NumberOfDays := 0, FromDate := 0, ToDate := 0, LatestPerHost := false,
    Limit := 0 }

mutual
/-- A value bound to a `?` of a clause. -/
inductive SqlArg where
  | str (s : String)
  | time (t : Time)
  /-- The result of `SubQuery()` on a query under construction. -/
  | sub (tx : List QueryOp)
/-- One call on a `*gorm.DB` that adds to the query under construction. -/
inductive QueryOp where
  | Model (table : String)
  | Table (name : String)
  | Select (query : String)
  | Joins (query : String) (args : List SqlArg)
  | Where (query : String) (args : List SqlArg)
  | Group (query : String)
  | Limit (limit : Int)
end

/-- A `*gorm.DB` that is not nil: the calls made on it so far, in order. -/
abbrev Query := List QueryOp

/-- The limit of a query: the argument of the last call of `Limit`, if there is one. -/
def Query.appliedLimit (tx : Query) : Option Int :=
  tx.foldl (fun acc op =>
    match op with
    | .Limit limit => some limit
    | _ => acc) none

/-- The library calls of the report store: `uuid.UUID.String`, `strings.ToUpper`,
`time.Now`, `Time.AddDate(0, 0, days)`, and for the conversion of audit log entries
`fmt.Sprintf("%v", v)` (of a value that may be nil), `uuid.MustParse` (`none` is its
panic), `json.Marshal` of a column value, `json.Unmarshal` into the trust report, and
`time.Parse` with the layout of the source. -/
structure ReportLib where
  uuidString : UUID → String
  ToUpper : String → String
  Now : Time
  AddDate : Time → Int → Time
  Sprint : Option String → String
  MustParse : String → Option UUID
  jsonMarshal : String → Except GoError Bytes
  jsonUnmarshal : Bytes → Except GoError String
  timeParse : String → Except GoError Time

/-- Embedding of `buildReportSearchQueryWithCriteria`, with the parameter names of the
source. -/
def buildReportSearchQueryWithCriteria (lib : ReportLib) (tx : Query)
    (hostHardwareID hostID : UUID) (entity hostName hostState : String)
    (fromDate toDate : Time) : Query :=
  let tx :=
    if hostState ≠ "" then
      tx ++ [.Joins ("INNER JOIN host_status hs on CAST(hs.host_id AS VARCHAR) = " ++ entity
        ++ ".data -> 'columns' -> 1 ->> 'value'") []]
    else tx
  let tx :=
    if hostName ≠ "" ∨ hostHardwareID ≠ UUID.Nil then
      tx ++ [.Joins ("INNER JOIN host h on CAST(h.id AS VARCHAR) = " ++ entity
        ++ ".data -> 'columns' -> 1 ->> 'value'") []]
    else tx
  let tx := tx ++ [.Where (entity ++ ".entity_type = 'Report'") []]
  let tx := if hostName ≠ "" then tx ++ [.Where "h.name = ?" [.str hostName]] else tx
  let tx :=
    if hostHardwareID ≠ UUID.Nil then
      tx ++ [.Where "h.hardware_uuid = ?" [.str (lib.uuidString hostHardwareID)]]
    else tx
  let tx :=
    if hostID ≠ UUID.Nil then
      tx ++ [.Where (entity ++ ".data -> 'columns' -> 1 ->> 'value' = ?")
        [.str (lib.uuidString hostID)]]
    else tx
  let tx :=
    if hostState ≠ "" then
      tx ++ [.Where "hs.status ->> 'host_state' = ?" [.str (lib.ToUpper hostState)]]
    else tx
  let tx :=
    if fromDate ≠ 0 then
      tx ++ [.Where ("CAST(" ++ entity ++ ".created AS TIMESTAMP) >= CAST(? AS TIMESTAMP)")
        [.time fromDate]]
    else tx
  let tx :=
    if toDate ≠ 0 then
      tx ++ [.Where ("CAST(" ++ entity ++ ".created AS TIMESTAMP) < CAST(? AS TIMESTAMP)")
        [.time toDate]]
    else tx
  tx

/-- Embedding of `buildReportSearchQuery`, with the parameter names and their order of
the source; `none` is a nil `*gorm.DB`. -/
def buildReportSearchQuery (lib : ReportLib) (tx : Option Query)
    (hostHardwareID hostID : UUID) (hostName hostState : String) (fromDate toDate : Time)
    (latestPerHost : Bool) (limit : Int) : Option Query :=
  match tx with
  | none => none
  | some tx =>
    let tx :=
      if latestPerHost then
        let entity := "auj"
        let txSubQuery :=
          tx ++ [.Table "audit_log_entry auj", .Select "entity_id, max(auj.created) AS max_date"]
        let txSubQuery := buildReportSearchQueryWithCriteria lib txSubQuery hostHardwareID
          hostID entity hostName hostState fromDate toDate
        let txSubQuery := txSubQuery ++ [.Group "entity_id"]
        let subQuery := SqlArg.sub txSubQuery
        tx ++ [.Table "audit_log_entry au", .Select "au.*",
          .Joins "INNER JOIN ? a ON a.entity_id = au.entity_id AND a.max_date = au.created"
            [subQuery]]
      else
        let entity := "au"
        let tx := tx ++ [.Table "audit_log_entry au", .Select "au.*"]
        buildReportSearchQueryWithCriteria lib tx hostHardwareID hostID entity hostName
          hostState fromDate toDate
    some (tx ++ [.Limit limit])

/-- Embedding of `buildLatestReportSearchQuery`, with the parameter names and their order
of the source. -/
def buildLatestReportSearchQuery (lib : ReportLib) (tx : Option Query)
    (reportID hostID hostHardwareID : UUID) (hostName hostState : String) (limit : Int) :
    Option Query :=
  match tx with
  | none => none
  | some tx =>
    let tx := tx ++ [.Model "report"]
    if reportID ≠ UUID.Nil then
      some (tx ++ [.Where "id = '%s'" [.str (lib.uuidString reportID)]])
    else
      let tx :=
        if hostID ≠ UUID.Nil ∨ hostName ≠ "" ∨ hostHardwareID ≠ UUID.Nil then
          tx ++ [.Joins "INNER JOIN host h on h.id = host_id" []]
        else tx
      let tx :=
        if hostState ≠ "" then
          tx ++ [.Joins "INNER JOIN host_status hs on hs.host_id = report.host_id" [],
            .Where "hs.status ->> 'host_state'=?" [.str (lib.ToUpper hostState)]]
        else tx
      let tx := if hostName ≠ "" then tx ++ [.Where "h.name = ?" [.str hostName]] else tx
      let tx :=
        if hostHardwareID ≠ UUID.Nil then
          tx ++ [.Where "h.hardware_uuid = ?" [.str (lib.uuidString hostHardwareID)]]
        else tx
      let tx :=
        if hostID ≠ UUID.Nil then
          tx ++ [.Where "host_id = ?" [.str (lib.uuidString hostID)]]
        else tx
      some (tx ++ [.Limit limit])

/-- The path that `Search` takes and the query it builds. -/
structure SearchPlan where
  /-- The criteria behind the pointer after the assignment to `criteria.Limit`. -/
  criteria : ReportFilterCriteria
  /-- Whether the branch of the report table is taken (line 179), rather than the branch
  of the audit log. -/
  latestReports : Bool
  /-- The query built (`none` is nil). -/
  tx : Option Query

/-- The first part of `ReportStore.Search` (report_store.go, lines 137-181 and 206): the
local variables, the assignment to `criteria.Limit`, and the call of the query builder
of the branch taken, with the arguments in the order of the source. `Db` is
`r.Store.Db`. -/
def ReportStore.Search.plan (lib : ReportLib) (Db : Option Query)
    (criteria : ReportFilterCriteria) : SearchPlan :=
  let reportID := if criteria.ID ≠ UUID.Nil then criteria.ID else UUID.Nil
  let hostID := if criteria.HostID ≠ UUID.Nil then criteria.HostID else UUID.Nil
  let hostHardwareUUID :=
    if criteria.HostHardwareID ≠ UUID.Nil then criteria.HostHardwareID else UUID.Nil
  let hostStatus := if criteria.HostStatus ≠ "" then criteria.HostStatus else ""
  let hostName := if criteria.HostName ≠ "" then criteria.HostName else ""
  let toDate : Time := if criteria.ToDate ≠ 0 then criteria.ToDate else 0
  let fromDate : Time := if criteria.FromDate ≠ 0 then criteria.FromDate else 0
  let criteria :=
    if criteria.Limit = 0 ∧ criteria.LatestPerHost = true then { criteria with Limit := 1 }
    else { criteria with Limit := 2000 }
  let latestPerHost := criteria.LatestPerHost
  let toDate := if criteria.NumberOfDays ≠ 0 then lib.Now else toDate
  let fromDate :=
    if criteria.NumberOfDays ≠ 0 then lib.AddDate toDate (-criteria.NumberOfDays)
    else fromDate
  if criteria.FromDate = 0 ∧ criteria.ToDate = 0 ∧ criteria.LatestPerHost = true then
    { criteria := criteria
      latestReports := true
      tx := buildLatestReportSearchQuery lib Db reportID hostID hostHardwareUUID hostName
        hostStatus criteria.Limit }
  else
    { criteria := criteria
      latestReports := false
      tx := buildReportSearchQuery lib Db hostID hostHardwareUUID hostName hostStatus
        fromDate toDate latestPerHost criteria.Limit }

/-- Modelled from the spec: the declaration of `models.AuditColumnData` is not among the
sources; it is modelled by a name and the field `Value` that the store reads, an
`interface{}` given by the text of its JSON form (`none` is nil). -/
structure AuditColumnData where
  Name : String
  Value : Option String
  deriving DecidableEq, Repr

/-- The zero value `models.AuditColumnData{}`. -/
def AuditColumnData.zero : AuditColumnData :=
  { Name := "", Value := none }

/-- Modelled from the spec: the declaration of `models.AuditTableData` is not among the
sources; the field is the one that the store reads. -/
structure AuditTableData where
  Columns : List AuditColumnData
  deriving DecidableEq, Repr

/-- The zero value `models.AuditTableData{}`. -/
def AuditTableData.zero : AuditTableData :=
  { Columns := [] }

/-- Modelled from the spec: the declaration of `models.AuditLogEntry` is not among the
sources; the fields are the ones that `Search` scans. -/
structure AuditLogEntry where
  ID : UUID
  EntityID : UUID
  EntityType : String
  CreatedAt : Time
  Action : String
  Data : AuditTableData
  deriving DecidableEq, Repr

/-- Modelled from the spec: the declaration of `models.HVSReport` is not among the
sources; the fields are the ones that the store reads and writes, the trust report given
by the text of its JSON form. -/
structure HVSReport where
  ID : UUID
  HostID : UUID
  TrustReport : String
  CreatedAt : Time
  Expiration : Time
  Saml : String
  deriving DecidableEq, Repr

/-- The zero value `models.HVSReport{}`. -/
def HVSReport.zero : HVSReport :=
  { ID := UUID.Nil, HostID := UUID.Nil, TrustReport := "", CreatedAt := 0, Expiration := 0,
    Saml := "" }

/-- The index expression `Columns[i]` of a slice: the element, or the run-time panic of
an index out of range. -/
def Outcome.index (Columns : List AuditColumnData) (i : Nat) : Outcome AuditColumnData :=
  match Columns[i]? with
  | some c => .ok c
  | none => .panic "runtime error: index out of range"

/-- Embedding of `auditlogEntryToReport` (report_store.go, lines 254-303). Each index
expression is evaluated where the source evaluates it. -/
def auditlogEntryToReport (lib : ReportLib) (auRecord : AuditLogEntry) : Outcome HVSReport := do
  let hvsReport := HVSReport.zero
  let hvsReport :=
    if auRecord.EntityID ≠ UUID.Nil then { hvsReport with ID := auRecord.EntityID }
    else hvsReport
  let c1 ← Outcome.index auRecord.Data.Columns 1
  let hvsReport ←
    if c1 ≠ AuditColumnData.zero ∧ c1.Value ≠ none then
      match lib.MustParse (lib.Sprint c1.Value) with
      | none => Outcome.panic "uuid: Parse: invalid UUID"
      | some id => Outcome.ok { hvsReport with HostID := id }
    else Outcome.ok hvsReport
  let c2 ← Outcome.index auRecord.Data.Columns 2
  let hvsReport ←
    match (if c2 ≠ AuditColumnData.zero then c2.Value else none) with
    | some value =>
      match lib.jsonMarshal value with
      | .error err =>
        Outcome.error (.wrap err
          "postgres/reports_store:auditlogEntryToReport() - marshalling failed")
      | .ok c =>
        match lib.jsonUnmarshal c with
        | .error err =>
          Outcome.error (.wrap err
            "postgres/reports_store:auditlogEntryToReport() - unmarshalling failed")
        | .ok trustReport => Outcome.ok { hvsReport with TrustReport := trustReport }
    | none => Outcome.ok hvsReport
  let c3 ← Outcome.index auRecord.Data.Columns 3
  let hvsReport ←
    if c3 ≠ AuditColumnData.zero ∧ c2.Value ≠ none then
      match lib.timeParse (lib.Sprint c3.Value) with
      | .error err =>
        Outcome.error (.wrap err
          "postgres/reports_store:auditlogEntryToReport() - error parsing time")
      | .ok t => Outcome.ok { hvsReport with CreatedAt := t }
    else Outcome.ok hvsReport
  let c4 ← Outcome.index auRecord.Data.Columns 4
  let hvsReport ←
    if c4 ≠ AuditColumnData.zero ∧ c4.Value ≠ none then
      match lib.timeParse (lib.Sprint c4.Value) with
      | .error err =>
        Outcome.error (.wrap err
          "postgres/reports_store:auditlogEntryToReport() - error parsing time")
      | .ok t => Outcome.ok { hvsReport with Expiration := t }
    else Outcome.ok hvsReport
  let c5 ← Outcome.index auRecord.Data.Columns 5
  let hvsReport :=
    if c5 ≠ AuditColumnData.zero ∧ c5.Value ≠ none then
      { hvsReport with Saml := lib.Sprint c5.Value }
    else hvsReport
  return hvsReport

/-- The loop of `Search` over the rows of the audit log (lines 218-234). A row is the
audit log entry scanned, or the error of `rows.Scan`; `reports` are the reports
collected so far. -/
def ReportStore.Search.auditRows (lib : ReportLib) :
    List (Except GoError AuditLogEntry) → List HVSReport → Outcome (List HVSReport)
  | [], reports => .ok reports
  | .error err :: _, _ =>
    .error (.wrap err "postgres/report_store:Search() failed to scan record")
  | .ok result :: rows, reports =>
    if result.Data = AuditTableData.zero ∨ result.Data.Columns.length = 0 then
      ReportStore.Search.auditRows lib rows reports
    else
      match auditlogEntryToReport lib result with
      | .panic msg => .panic msg
      | .error err =>
        .error (.wrap err "postgres/report_store:Search() convert auditloag entry into report")
      | .ok hvsReport => ReportStore.Search.auditRows lib rows (reports ++ [hvsReport])

/-- The loop of `Search` over the rows of the report table (lines 193-204). -/
def ReportStore.Search.reportRows :
    List (Except GoError HVSReport) → List HVSReport → Outcome (List HVSReport)
  | [], reports => .ok reports
  | .error err :: _, _ =>
    .error (.wrap err "postgres/report_store:Search() failed to scan record")
  | .ok result :: rows, reports => ReportStore.Search.reportRows rows (reports ++ [result])

/-- The database behind a `ReportStore`: the handle `r.Store.Db` (`none` is nil) and the
answer of `tx.Rows()` to a query on the report table and on the audit log, the rows
scanned one by one. -/
structure ReportDb where
  Db : Option Query
  reportRows : Query → Except GoError (List (Except GoError HVSReport))
  auditLogRows : Query → Except GoError (List (Except GoError AuditLogEntry))

/-- Embedding of `ReportStore.Search`: the criteria behind the pointer afterwards, and
how the call ends. -/
def ReportStore.Search (lib : ReportLib) (store : ReportDb) (criteria : ReportFilterCriteria) :
    ReportFilterCriteria × Outcome (List HVSReport) :=
  let plan := ReportStore.Search.plan lib store.Db criteria
  match plan.tx with
  | none =>
    (plan.criteria, .error (.new ("postgres/report_store:Search() Unexpected Error. Could not build"
      ++ " a gorm query object in HVSReport Search function.")))
  | some tx =>
    if plan.latestReports then
      match store.reportRows tx with
      | .error err =>
        (plan.criteria,
          .error (.wrap err "postgres/report_store:Search() failed to retrieve records from db"))
      | .ok rows => (plan.criteria, ReportStore.Search.reportRows rows [])
    else
      match store.auditLogRows tx with
      | .error err =>
        (plan.criteria,
          .error (.wrap err "postgres/report_store:Search() failed to retrieve records from db"))
      | .ok rows => (plan.criteria, ReportStore.Search.auditRows lib rows [])

/-- The value that `Search` assigns to `criteria.Limit`. -/
def newLimit (criteria : ReportFilterCriteria) : Int :=
  if criteria.Limit = 0 ∧ criteria.LatestPerHost = true then 1 else 2000

/-! ## `middleware.WriteDurationLog` -/

/-- The `http.ResponseWriter` that the middleware wraps, by what it has sent to the
client, following the contract of `net/http`: the status code of the response once the
header is written (`none` before), and the number of body bytes written. -/
structure ResponseWriter where
  status : Option Int
  written : Int
  deriving DecidableEq, Repr

/-- A response writer at the start of a request: nothing sent. -/
def ResponseWriter.fresh : ResponseWriter :=
  { status := none, written := 0 }

/-- The call `WriteHeader(code)` on the wrapped writer: the first call writes the header
with that status code; a call after the header is written changes nothing. -/
def ResponseWriter.WriteHeader (w : ResponseWriter) (code : Int) : ResponseWriter :=
  match w.status with
  | none => { w with status := some code }
  | some _ => w

/-- The call `Write(body)` on the wrapped writer, where `size` is the byte count that
the call returns: if the header is not written yet it is written first with
`http.StatusOK`. -/
def ResponseWriter.Write (w : ResponseWriter) (size : Int) : ResponseWriter :=
  { (w.WriteHeader 200) with written := w.written + size }

/-- The status code that the client receives when the handler has returned: the one of
the header written, or `http.StatusOK` when the handler wrote nothing. -/
def ResponseWriter.sentStatus (w : ResponseWriter) : Int :=
  w.status.getD 200

/-- The type `logResponseWriter` of the source. -/
structure logResponseWriter where
  ResponseWriter : ResponseWriter
  statusCode : Int
  size : Int
  deriving DecidableEq, Repr

/-- Embedding of `newLogResponseWriter`. -/
def newLogResponseWriter (w : ResponseWriter) : logResponseWriter :=
  { ResponseWriter := w, statusCode := 0, size := 0 }

/-- Embedding of `logResponseWriter.WriteHeader`. -/
def logResponseWriter.WriteHeader (w : logResponseWriter) (code : Int) : logResponseWriter :=
  let w := { w with statusCode := code }
  { w with ResponseWriter := w.ResponseWriter.WriteHeader code }

/-- Embedding of `logResponseWriter.Write`: the writer afterwards and the byte count
returned. `size` is the byte count that the wrapped writer returns for the body. -/
def logResponseWriter.Write (w : logResponseWriter) (_body : Bytes) (size : Int) :
    logResponseWriter × Int :=
  let w := { w with ResponseWriter := w.ResponseWriter.Write size }
  let w := { w with size := w.size + size }
  (w, size)

/-- A call that a handler makes on the response writer it is given. For `Write`, the
byte count is the one that the wrapped writer returns for the body. -/
inductive HandlerCall where
  | WriteHeader (code : Int)
  | Write (body : Bytes) (size : Int)
  deriving DecidableEq, Repr

/-- The run `next.ServeHTTP(logRespWriter, r)` of a handler, given by the calls it makes
on the writer, in order. -/
def ServeHTTP (next : List HandlerCall) (logRespWriter : logResponseWriter) :
    logResponseWriter :=
  next.foldl (fun w call =>
    match call with
    | .WriteHeader code => w.WriteHeader code
    | .Write body size => (w.Write body size).1) logRespWriter

/-- Embedding of the handler that `WriteDurationLog` returns, for the status code and
the size (lines 26, 27 and 39): the wrapped writer afterwards, and the part of the log
line that carries the two numbers. -/
def WriteDurationLog (next : List HandlerCall) (w : ResponseWriter) :
    ResponseWriter × String :=
  let logRespWriter := newLogResponseWriter w
  let logRespWriter := ServeHTTP next logRespWriter
  (logRespWriter.ResponseWriter,
    strconv.Itoa logRespWriter.statusCode ++ " " ++ strconv.Itoa logRespWriter.size ++ " \"")

/-- The sum of the byte counts that the wrapped writer returned over the calls of
`Write`. -/
def bytesReturned (next : List HandlerCall) : Int :=
  (next.map fun call =>
    match call with
    | .WriteHeader _ => 0
    | .Write _ size => size).sum

/-! ## Sample values -/

/-- A platform-trust policy with one required rule, on the attribute `TRUST_OVERALL`. -/
def samplePolicy : TransferPolicy :=
  { ID := ⟨0xee37c3607eae4250a6776ee12adce8e2⟩
    kind := .platformTrust
    rules := [{ name := "TRUST_OVERALL", expected := ["true"], required := true }] }

/-- The facts of a report whose trust attribute is false. -/
def untrustedFacts : AttestationFacts :=
  { attributes := [("TRUST_OVERALL", "false")]
    notBefore := 0
    notOnOrAfter := 100
    overallTrust := some false }

/-- The facts of a report that satisfies the rule of `samplePolicy` and carries no
overall-trust value. -/
def trustlessFacts : AttestationFacts :=
  { attributes := [("TRUST_OVERALL", "true")]
    notBefore := 0
    notOnOrAfter := 100
    overallTrust := none }


/-- First record of `NewFakeKeyStore`, created at instant 0. -/
def sampleAES : KeyAttributes :=
  { ID := ⟨0xee37c3607eae4250a6776ee12adce8e2⟩
    Algorithm := "AES"
    KeyLength := 256
    CurveType := ""
    KmipKeyID := "1"
    TransferPolicyId := ⟨0xee37c3607eae4250a6776ee12adce8e2⟩
    TransferLink :=
      "https://localhost:9443/kbs/v1/keys/ee37c360-7eae-4250-a677-6ee12adce8e2/transfer"
    CreatedAt := 0 }

/-- A record with the id of `sampleAES` and other attributes. -/
def sampleRSA : KeyAttributes :=
  { sampleAES with Algorithm := "RSA", KeyLength := 2048, KmipKeyID := "3" }

/-- The id that the controller tests use as a non-existent key id. -/
def absentId : UUID := ⟨0x73755fdac91046be821fe8ddeab189e9⟩

/-- The fake store of the tests with the `ThrowError` flag set. -/
def throwingStore : MockKeyStore := { NewFakeKeyStore 0 0 0 0 with ThrowError := true }

/-- A record with a short id, for the sample directory. -/
def smallAES : KeyAttributes := { sampleAES with ID := ⟨1⟩ }

/-- A second record with a short id, for the sample directory. -/
def smallEC : KeyAttributes :=
  { sampleAES with ID := ⟨2⟩, Algorithm := "EC", KeyLength := 0, CurveType := "prime256v1" }

/-- A mock store as no operation of the store leaves it: the record with id 2 is held
under its own id and, a second time, under the id 7. -/
def misKeyedStore : MockKeyStore :=
  { KeyStore :=
      ((∅ : AList (fun _ : UUID => KeyAttributes)).insert ⟨7⟩ smallEC).insert ⟨2⟩ smallEC
    ThrowError := false }

/-- A codec for the sample directory: it encodes the two sample records (as `[1]` and
`[2]`) and rejects everything else; an id is written as that many letters. -/
def sampleCodec : Codec where
  jsonMarshal key :=
    if key = smallAES then .ok [1] else if key = smallEC then .ok [2]
    else .error "unsupported value"
  jsonUnmarshal bytes :=
    if bytes = [1] then .ok smallAES else if bytes = [2] then .ok smallEC
    else .error "invalid character"
  uuidString id := String.mk (List.replicate id.val 'k')
  uuidParse name := .ok ⟨name.length⟩

/-- The sample directory: the files of the two sample records. -/
def sampleDir : Dir :=
  (KeyStore.Create sampleCodec (KeyStore.Create sampleCodec ∅ smallAES).1 smallEC).1

/-- A directory as no operation of the store leaves it: the record with id 2 is held by
the file of its own id and, a second time, by the file of the id 7. -/
def misNamedDir : Dir :=
  ((∅ : Dir).insert (sampleCodec.uuidString ⟨7⟩) [2]).insert (sampleCodec.uuidString ⟨2⟩) [2]

/-- Host details as `GetHosts` leaves them: only the id, the address and the name are
set. -/
def sampleHost : HostDetails :=
  { HostID := ⟨0x00b61da05adae811906e00163566263e⟩
    HostIP := "10.0.0.1"
    HostName := "worker-1"
    AssetTags := ∅
    Trust := ∅
    HardwareFeatures := ∅
    Trusted := false
    ValidTo := 0
    AgentType := ""
    EpcSize := ""
    FlcEnabled := false
    SgxEnabled := false
    SgxSupported := false
    TcbUpToDate := "" }

/-- A report with a trusted host, one asset tag, one hardware feature and one attribute
outside the three categories. -/
def sampleReport : SamlAssertion :=
  { Attribute :=
      [ { Name := "TRUST_OVERALL", AttributeValue := "true" },
        { Name := "TAG_Country", AttributeValue := "US" },
        { Name := "FEATURE_TPM", AttributeValue := "true" },
        { Name := "biosName", AttributeValue := "Intel" } ]
    NotOnOrAfter := 100 }

/-- A report that gives the same tag name twice, with different values. -/
def repeatedTagReport : SamlAssertion :=
  { Attribute :=
      [ { Name := "TAG_Country", AttributeValue := "US" },
        { Name := "TAG_Country", AttributeValue := "DE" } ]
    NotOnOrAfter := 100 }

/-- A report that gives the overall trust twice, first as false and then as true. -/
def falseThenTrueReport : SamlAssertion :=
  { Attribute :=
      [ { Name := "TRUST_OVERALL", AttributeValue := "false" },
        { Name := "TRUST_OVERALL", AttributeValue := "true" } ]
    NotOnOrAfter := 100 }

/-- A wrapping-key body without the PEM markers, as the test `Provide a public key
without PUBLIC KEY headers` builds it (shortened). -/
def headerlessBody : String := "MIIBIjANBgkqhkiG9w0BAQEFAAOCAQ8AMIIBCgKCAQEA\n"

/-- The wrapping-key body of the test `Provide a public key without DER data`. -/
def emptyPemBody : String := "-----BEGIN PUBLIC KEY-----\n -----END PUBLIC KEY-----"

/-- A wrapping-key body with markers and data. -/
def validPemBody : String :=
  "-----BEGIN PUBLIC KEY-----\nMIIBIjANBgkqhkiG9w0BAQEFAAOCAQ8A\n-----END PUBLIC KEY-----\n"

/-- A wrapper library for the examples: it decodes the body `validPemBody` only. -/
def sampleWrapLib : WrapLib where
  decodePublicKey body := if body = validPemBody then some [48, 130] else none
  supported _ := true
  encrypt publicKey raw := publicKey ++ raw
  sessionWrap key raw := key ++ raw

/-- An assertion with a signature block, valid until instant 100. -/
def sampleAssertion : Assertion :=
  { signature := some [9, 9]
    notBefore := 0
    notOnOrAfter := 100
    attributes := [("TRUST_OVERALL", "true")]
    overallTrust := some true }

/-- A verifier library for the examples: the bytes `[1]` parse to `sampleAssertion`,
whose signature only the certificate `[7]` validates. -/
def sampleVerifyLib : VerifyLib where
  parse bytes := if bytes = [1] then some sampleAssertion else none
  verifies certificate _ := decide (certificate = [7])

/-- The first case of `skcTransferCases`: both headers, after a session request that was
answered 400. -/
def unknownSessionCase : SkcTransferCase :=
  { request := { acceptChallenge := some "SGX"
                 sessionId := some "SGX:14cfced1-03ee-4a68-8b50-6d456423b078" }
    sessionEstablished := false
    expected := 500 }

/-- The third case of `skcTransferCases`: no header `Session-Id`. -/
def missingSessionCase : SkcTransferCase :=
  { request := { acceptChallenge := some "SGX", sessionId := none }
    sessionEstablished := false
    expected := 401 }

/-- The second case of `skcTransferCases`: no header `Accept-Challenge`. -/
def missingChallengeCase : SkcTransferCase :=
  { request := { acceptChallenge := none
                 sessionId := some "SGX:14cfced1-03ee-4a68-8b50-6d456423b078" }
    sessionEstablished := false
    expected := 400 }

/-- A session of type SGX established at instant 0 with a time-to-live of 10. -/
def sampleSession : Session :=
  { ID := "s1"
    challengeType := "SGX"
    nonce := [1]
    key := [2]
    facts := { attributes := [], notBefore := 0, notOnOrAfter := 100, overallTrust := none }
    createdAt := 0
    ttl := 10
    consumed := false }

/-- A session table that holds `sampleSession` only. -/
def sampleTable : SessionTable := (∅ : SessionTable).insert "s1" sampleSession

/-- Four calls of `Consume` for the session `s1`: at the instants 1 and 2, before its
time-to-live elapsed, and at 20 and 21, after. -/
def repeatedCalls : List ConsumeCall :=
  [ { now := 1, sessionID := "s1", challengeType := "SGX" },
    { now := 2, sessionID := "s1", challengeType := "SGX" },
    { now := 20, sessionID := "s1", challengeType := "SGX" },
    { now := 21, sessionID := "s1", challengeType := "SGX" } ]

/-- A sample of supported key specifications: AES with 128, 192 or 256 bits, RSA with
2048, 3072 or 4096 bits, EC with the curves prime256v1, secp384r1 and secp521r1. -/
def sampleSupport : KeySpecSupport where
  family algorithm :=
    if algorithm = "AES" then some .symmetric
    else if algorithm = "RSA" then some .rsa
    else if algorithm = "EC" then some .ec
    else none
  lengthSupported algorithm length :=
    if algorithm = "AES" then decide (length = 128 ∨ length = 192 ∨ length = 256)
    else decide (length = 2048 ∨ length = 3072 ∨ length = 4096)
  curveSupported curve :=
    decide (curve = "prime256v1" ∨ curve = "secp384r1" ∨ curve = "secp521r1")

/-- A policy store that holds `samplePolicy` only. -/
def samplePolicies : AList (fun _ : UUID => TransferPolicy) :=
  (∅ : AList (fun _ : UUID => TransferPolicy)).insert samplePolicy.ID samplePolicy

/-- The policy id of the test `Provide a Create request with invalid transfer policy id`,
`3ce27bbd-3c5f-4b15-8c0a-44310f0f83d9`. -/
def unknownPolicyId : UUID := ⟨0x3ce27bbd3c5f4b158c0a44310f0f83d9⟩

/-- The request of the test `Provide a Create request with invalid transfer policy id`:
AES with 256 bits and a policy id that the policy store does not hold. -/
def unknownPolicyRequest : KeyRequest :=
  { KeyInformation :=
      { Algorithm := "AES", KeyLength := 256, CurveType := "", KeyString := "", KmipKeyID := "" }
    TransferPolicyID := some unknownPolicyId }

/-- A request with the algorithm of the test `Provide a Create request that contains
invalid algorithm` and the policy id of `unknownPolicyRequest`. -/
def doublyInvalidRequest : KeyRequest :=
  { KeyInformation :=
      { Algorithm := "XYZ", KeyLength := 256, CurveType := "", KeyString := "", KmipKeyID := "" }
    TransferPolicyID := some unknownPolicyId }

/-- The request of the test `Provide a Create request that contains invalid algorithm`. -/
def invalidAlgorithmRequest : KeyRequest :=
  { KeyInformation :=
      { Algorithm := "XYZ", KeyLength := 256, CurveType := "", KeyString := "", KmipKeyID := "" }
    TransferPolicyID := none }

/-- The request of the test `Provide a Create request that contains invalid key
length`. -/
def invalidLengthRequest : KeyRequest :=
  { KeyInformation :=
      { Algorithm := "AES", KeyLength := 123, CurveType := "", KeyString := "", KmipKeyID := "" }
    TransferPolicyID := none }

/-- The request of the test `Provide a Create request that contains invalid curve
type`. -/
def invalidCurveRequest : KeyRequest :=
  { KeyInformation :=
      { Algorithm := "EC", KeyLength := 0, CurveType := "xyz123", KeyString := "",
        KmipKeyID := "" }
    TransferPolicyID := none }

/-- Validators for the examples: the integers 256 and 2048, the policy id of the fake
store, and strings of letters and digits. -/
def sampleValidators : QueryValidators where
  parseInt value :=
    if value = "256" then some 256 else if value = "2048" then some 2048 else none
  parseUUID value :=
    if value = "ee37c360-7eae-4250-a677-6ee12adce8e2" then
      some ⟨0xee37c3607eae4250a6776ee12adce8e2⟩
    else none
  allowedString value := value.data.all fun c => c.isAlphanum

/-- A stand-in for `uuid.Parse` on the sample nodes: the empty string is refused and
yields the zero UUID; any other string is read as the number of its characters. -/
def sampleUuidParse (s : String) : UUID × Option GoError :=
  if s = "" then (UUID.Nil, some (.lib "invalid UUID length: 0")) else (⟨s.length⟩, none)

/-- A master node at 10.0.0.1. -/
def masterNode : NodeItem :=
  { Taints := [{ Key := "node-role.kubernetes.io/master" }]
    SystemID := "4c4c4544-0000-0000-0000-000000000001"
    Addresses := [{ AddrType := "InternalIP", Address := "10.0.0.1" },
                  { AddrType := "Hostname", Address := "master-1" }] }

/-- A worker node at 10.0.0.2. -/
def workerA : NodeItem :=
  { Taints := [{ Key := "dedicated" }]
    SystemID := "4c4c4544-0000-0000-0000-00000000000a"
    Addresses := [{ AddrType := "InternalIP", Address := "10.0.0.2" },
                  { AddrType := "Hostname", Address := "worker-a" }] }

/-- A second worker node that reports the same InternalIP address, 10.0.0.2. -/
def workerB : NodeItem :=
  { Taints := []
    SystemID := "b"
    Addresses := [{ AddrType := "Hostname", Address := "worker-b" },
                  { AddrType := "ExternalIP", Address := "192.0.2.7" },
                  { AddrType := "InternalIP", Address := "10.0.0.2" }] }

/-- A node list: a worker, a master, and a second worker at the address of the first. -/
def sampleNodes : List NodeItem := [workerA, masterNode, workerB]

/-- A stand-in for `osRegexEpcSize.MatchString` on the samples (the constant
`constants.RegexEpcSize` is not among the sources): one size is well formed. -/
def sampleEpcSizeOk (s : String) : Bool :=
  decide (s = "93.5 MB")

/-- Services where both calls return data for every host: HVS returns the sample report,
SHVS returns platform data that unmarshals to one record whose EPC size is not well
formed. -/
def invalidEpcServices : VerificationServices :=
  { HVSBaseURL := "https://hvs.example/hvs/v2/"
    SHVSBaseURL := "https://shvs.example/sgx-hvs/v2/"
    GetHostReports := fun _ => .ok sampleReport
    GetHostPlatformDataSGX := fun _ => .ok [1]
    jsonUnmarshal := fun _ _ =>
      ([{ EpcSize := "lots", FlcEnabled := true, SgxEnabled := true,
          SgxSupported := true, TcbUpToDate := true, ValidTo := 200 }], none)
    osRegexEpcSize := sampleEpcSizeOk }

/-- Services where HVS has no report for any host and SHVS returns platform data that
does not unmarshal. -/
def badJsonServices : VerificationServices :=
  { HVSBaseURL := "https://hvs.example/hvs/v2/"
    SHVSBaseURL := "https://shvs.example/sgx-hvs/v2/"
    GetHostReports := fun _ => .error (.lib "no report")
    GetHostPlatformDataSGX := fun _ => .ok [0]
    jsonUnmarshal := fun _ sgxData => (sgxData, some (.lib "unexpected end of JSON input"))
    osRegexEpcSize := sampleEpcSizeOk }

/-- Services where both calls return well formed data for every host. -/
def bothServices : VerificationServices :=
  { HVSBaseURL := "https://hvs.example/hvs/v2/"
    SHVSBaseURL := "https://shvs.example/sgx-hvs/v2/"
    GetHostReports := fun _ => .ok sampleReport
    GetHostPlatformDataSGX := fun _ => .ok [1]
    jsonUnmarshal := fun _ _ =>
      ([{ EpcSize := "93.5 MB", FlcEnabled := true, SgxEnabled := true,
          SgxSupported := true, TcbUpToDate := true, ValidTo := 200 }], none)
    osRegexEpcSize := sampleEpcSizeOk }

/-- Values of the environment for the samples of the setup task. -/
def sampleViper : ViperValues :=
  { LogMaxLength := 1500
    LogEnableStdout := true
    LogLevel := "info"
    EndpointUrl := "https://kbs.example:9443/kbs/v1"
    KmipVersion := "2.0"
    KmipServerIP := "10.0.0.9"
    KmipServerPort := "5696"
    KmipHostname := "kmip.example"
    KmipUsername := ""
    KmipPassword := ""
    KmipClientKeyPath := "/etc/kbs/client_key.pem"
    KmipClientCertPath := "/etc/kbs/client_cert.pem"
    KmipRootCertPath := "/etc/kbs/root_cert.pem"
    KeyManager := "KMIP" }

/-- A task with a port below 1024 and an APS URL without the closing slash. -/
def sampleTask : UpdateServiceConfig :=
  { ServerConfig := { Port := 80, ReadTimeout := 30, ReadHeaderTimeout := 10,
                      WriteTimeout := 30, IdleTimeout := 10, MaxHeaderBytes := 1048576 }
    DefaultPort := 9443
    AASBaseUrl := "https://aas.example:8444/aas/v1/"
    APSBaseUrl := "https://aps.example:5443/aps/v1"
    CustomToken := "" }

/-- The same task without the AAS URL. -/
def taskWithoutAAS : UpdateServiceConfig :=
  { sampleTask with AASBaseUrl := "" }

/-- A configuration before the task has run. -/
def blankConfig : Configuration :=
  { Server := { Port := 0, ReadTimeout := 0, ReadHeaderTimeout := 0, WriteTimeout := 0,
                IdleTimeout := 0, MaxHeaderBytes := 0 }
    AASBaseUrl := ""
    APSBaseUrl := ""
    CustomToken := ""
    Log := { MaxLength := 0, EnableStdout := false, Level := "" }
    EndpointURL := ""
    Kmip := { Version := "", ServerIP := "", ServerPort := "", Hostname := "", Username := "",
              Password := "", ClientKeyFilePath := "", ClientCertificateFilePath := "",
              RootCertificateFilePath := "" }
    KeyManager := "" }

/-- Stand-ins for the constants and for `strings.ToLower` on the samples: log lengths
from 100 to 3000, and lower-casing of the letters A to Z. -/
def sampleValidateParams : ValidateParams :=
  { MinLogLengthLimit := 100
    MaxLogLengthLimit := 3000
    ToLower := fun s => ⟨s.data.map Char.toLower⟩ }

/-- Library calls for the samples of the report store: an id is written as that many
letters, upper-casing is that of the letters a to z, a value is printed as its text
(`<nil>` for nil), and a time is read from the number of characters of its text. -/
def sampleReportLib : ReportLib :=
  { uuidString := fun id => String.mk (List.replicate id.val 'k')
    ToUpper := fun s => ⟨s.data.map Char.toUpper⟩
    Now := 1000
    AddDate := fun t days => (t + days).toNat
    Sprint := fun v => v.getD "<nil>"
    MustParse := fun s => if s = "" then none else some ⟨s.length⟩
    jsonMarshal := fun v => .ok (v.data.map Char.toNat)
    jsonUnmarshal := fun b => .ok (String.mk (b.map Char.ofNat))
    timeParse := fun s => .ok s.length }

/-- Criteria that ask for the latest report with a given report id, with no limit
given. -/
def reportIdCriteria : ReportFilterCriteria :=
  { ReportFilterCriteria.zero with ID := ⟨7⟩, LatestPerHost := true }

/-- Criteria of the audit-log path that give a host id only. -/
def hostIdCriteria : ReportFilterCriteria :=
  { ReportFilterCriteria.zero with HostID := ⟨3⟩ }

/-- Criteria of the audit-log path that give a host hardware id only. -/
def hardwareIdCriteria : ReportFilterCriteria :=
  { ReportFilterCriteria.zero with HostHardwareID := ⟨5⟩ }

/-- An audit log entry of a report whose data holds a single column, the id of the
report. -/
def shortEntry : AuditLogEntry :=
  { ID := ⟨11⟩
    EntityID := ⟨12⟩
    EntityType := "Report"
    CreatedAt := 50
    Action := "create"
    Data := { Columns := [{ Name := "id", Value := some "12" }] } }

/-- A database whose audit log answers every query with the short entry. -/
def shortEntryDb : ReportDb :=
  { Db := some []
    reportRows := fun _ => .ok []
    auditLogRows := fun _ => .ok [.ok shortEntry] }

/-- An audit log entry of a report with its six columns. -/
def fullEntry : AuditLogEntry :=
  { ID := ⟨13⟩
    EntityID := ⟨12⟩
    EntityType := "Report"
    CreatedAt := 50
    Action := "create"
    Data := { Columns :=
      [ { Name := "id", Value := some "12" },
        { Name := "host_id", Value := some "abc" },
        { Name := "trust_report", Value := some "tr" },
        { Name := "created", Value := some "2020-01-01T00:00:00+0000" },
        { Name := "expiration", Value := some "2020-01-02T00:00:00+0000" },
        { Name := "saml", Value := some "<saml/>" } ] } }

/-- A handler that writes the two bytes of `ok` and never calls `WriteHeader`. -/
def bodyOnlyHandler : List HandlerCall :=
  [.Write [111, 107] 2]

/-- A handler that answers 404 with a body in two writes. -/
def notFoundHandler : List HandlerCall :=
  [.WriteHeader 404, .Write [110, 111, 116] 3, .Write [32, 102, 111, 117, 110, 100] 6]

/-! ## Properties of `filterKeys` -/

theorem filterLoop_eq_filter (test : KeyAttributes → Bool) (keys : List KeyAttributes) :
    filterLoop test keys = keys.filter test := by
  induction keys with
  | nil => rfl
  | cons key rest ih =>
    by_cases h : test key = true
    · simp [filterLoop, h, ih]
    · simp [filterLoop, h, ih]

/-- One guarded filter step keeps the keys that pass the test when the filter is set
and all keys when it is not. -/
theorem guarded_step (set : Prop) [Decidable set] (test : KeyAttributes → Bool)
    (keys : List KeyAttributes) :
    (if set then filterLoop test keys else keys)
      = keys.filter (fun key => !decide set || test key) := by
  by_cases h : set
  · simp [h, filterLoop_eq_filter]
  · simp [h]

theorem matchesCriteria_zero (key : KeyAttributes) :
    matchesCriteria KeyFilterCriteria.zero key = true := by
  simp [matchesCriteria, KeyFilterCriteria.zero]

/-- The filters of `filterKeys` select by `matchesCriteria`, whatever the criteria. -/
theorem filterKeys_eq_filter (keys : List KeyAttributes) (c : KeyFilterCriteria) :
    filterKeys keys (some c) = keys.filter (matchesCriteria c) := by
  unfold filterKeys
  by_cases hz : c = KeyFilterCriteria.zero
  · subst hz
    have hall : matchesCriteria KeyFilterCriteria.zero = fun _ => true :=
      funext matchesCriteria_zero
    simp [hall]
  · simp only [hz, if_false, guarded_step, List.filter_filter]
    congr 1
    funext key
    simp only [matchesCriteria, ne_eq, decide_not, Bool.not_not]
    cases decide (c.Algorithm = "") <;> cases decide (c.KeyLength = 0) <;>
      cases decide (c.CurveType = "") <;> cases decide (c.TransferPolicyId = UUID.Nil) <;>
      cases decide (key.Algorithm = c.Algorithm) <;>
      cases decide (key.KeyLength = c.KeyLength) <;>
      cases decide (key.CurveType = c.CurveType) <;>
      cases decide (key.TransferPolicyId = c.TransferPolicyId) <;> rfl

theorem filterKeys_none (keys : List KeyAttributes) : filterKeys keys none = keys := rfl

theorem filterKeys_zero (keys : List KeyAttributes) :
    filterKeys keys (some KeyFilterCriteria.zero) = keys := by
  simp [filterKeys]

/-- With no filter set, `filterKeys` hands back its input. -/
theorem filterKeys_unset (keys : List KeyAttributes) (criteria : Option KeyFilterCriteria)
    (hc : criteria = none ∨ criteria = some KeyFilterCriteria.zero) :
    filterKeys keys criteria = keys := by
  rcases hc with rfl | rfl
  · exact filterKeys_none keys
  · exact filterKeys_zero keys

/-- The filtering of `filterKeys` commutes with rearranging the input. -/
theorem filterKeys_perm {keys recs : List KeyAttributes} (h : keys.Perm recs)
    (criteria : Option KeyFilterCriteria) :
    (filterKeys keys criteria).Perm (filterKeys recs criteria) := by
  cases criteria with
  | none => simpa [filterKeys_none] using h
  | some c =>
    rw [filterKeys_eq_filter, filterKeys_eq_filter]
    exact h.filter _

/-- Every record that `filterKeys` returns is one of its input. -/
theorem mem_of_mem_filterKeys {keys : List KeyAttributes} {criteria : Option KeyFilterCriteria}
    {r : KeyAttributes} (h : r ∈ filterKeys keys criteria) : r ∈ keys := by
  cases criteria with
  | none => simpa [filterKeys_none] using h
  | some c =>
    rw [filterKeys_eq_filter] at h
    exact List.mem_of_mem_filter h

/-- C1: for every list of key records and every filter criteria, `filterKeys` returns
exactly the records, in their original order, whose Algorithm equals the criteria's when
that is non-empty, whose KeyLength equals the criteria's when that is non-zero, whose
CurveType equals the criteria's when that is non-empty and whose TransferPolicyId equals
the criteria's when that is not the nil UUID: the result is the input list filtered by
the conjunction of the four equality tests that are set. -/
theorem filterKeys_conjunction (keys : List KeyAttributes) (c : KeyFilterCriteria) :
    filterKeys keys (some c) = keys.filter (fun key => decide (
      (c.Algorithm ≠ "" → key.Algorithm = c.Algorithm) ∧
      (c.KeyLength ≠ 0 → key.KeyLength = c.KeyLength) ∧
      (c.CurveType ≠ "" → key.CurveType = c.CurveType) ∧
      (c.TransferPolicyId ≠ UUID.Nil → key.TransferPolicyId = c.TransferPolicyId))) := by
  rw [filterKeys_eq_filter]
  congr 1
  funext key
  simp only [matchesCriteria, ne_eq]
  by_cases h1 : c.Algorithm = "" <;> by_cases h2 : c.KeyLength = 0 <;>
    by_cases h3 : c.CurveType = "" <;> by_cases h4 : c.TransferPolicyId = UUID.Nil <;>
    simp [h1, h2, h3, h4, Bool.and_assoc]

/-! ## Properties of the mock store -/

/-- The body of the mock `Search` is the code of `filterKeys`. -/
theorem SearchFrom_eq_filterKeys (keys : List KeyAttributes)
    (criteria : Option KeyFilterCriteria) :
    MockKeyStore.SearchFrom keys criteria = .ok (filterKeys keys criteria) := by
  cases criteria with
  | none => rfl
  | some c =>
    unfold MockKeyStore.SearchFrom filterKeys
    by_cases hz : c = KeyFilterCriteria.zero
    · simp [hz]
    · simp [hz]

theorem mock_length_records (store : MockKeyStore) :
    store.records.length = store.KeyStore.entries.length := by
  simp [MockKeyStore.records]

/-- A record that the map holds under some id is among the records of the store. -/
theorem MockKeyStore.mem_records_of_lookup {store : MockKeyStore} {id : UUID}
    {k : KeyAttributes} (h : store.KeyStore.lookup id = some k) : k ∈ store.records := by
  have hmem : (⟨id, k⟩ : Sigma fun _ : UUID => KeyAttributes) ∈ store.KeyStore.entries :=
    AList.mem_lookup_iff.mp (by simpa using h)
  exact List.mem_map.mpr ⟨⟨id, k⟩, hmem, rfl⟩

/-- A record of the store is held by the map under some id. -/
theorem MockKeyStore.lookup_of_mem_records {store : MockKeyStore} {k : KeyAttributes}
    (h : k ∈ store.records) : ∃ id, store.KeyStore.lookup id = some k := by
  obtain ⟨⟨id, k'⟩, hmem, hk⟩ := List.mem_map.mp h
  simp only at hk
  subst hk
  exact ⟨id, by simpa using AList.mem_lookup_iff.mpr hmem⟩

theorem MockKeyStore.wellKeyed_iff (store : MockKeyStore) :
    store.wellKeyed = true ↔
      ∀ id k, store.KeyStore.lookup id = some k → k.ID = id := by
  simp only [MockKeyStore.wellKeyed, List.all_eq_true, decide_eq_true_eq]
  constructor
  · intro h id k hk
    have hmem : (⟨id, k⟩ : Sigma fun _ : UUID => KeyAttributes) ∈ store.KeyStore.entries :=
      AList.mem_lookup_iff.mp (by simpa using hk)
    exact h _ hmem
  · intro h entry hmem
    obtain ⟨id, k⟩ := entry
    exact h id k (by simpa using AList.mem_lookup_iff.mpr hmem)

/-- The empty mock store holds every record under its own id. -/
theorem MockKeyStore.wellKeyed_empty (ThrowError : Bool) :
    ({ KeyStore := ∅, ThrowError := ThrowError } : MockKeyStore).wellKeyed = true := rfl

/-- The mock `Create` keeps every record under its own id. -/
theorem MockKeyStore.wellKeyed_Create {store : MockKeyStore} (h : store.wellKeyed = true)
    (k : KeyAttributes) : (store.Create k).1.wellKeyed = true := by
  rw [MockKeyStore.wellKeyed_iff] at h ⊢
  intro id r hr
  change (store.KeyStore.insert k.ID k).lookup id = some r at hr
  by_cases hid : id = k.ID
  · subst hid
    rw [AList.lookup_insert] at hr
    cases hr
    rfl
  · rw [AList.lookup_insert_ne hid] at hr
    exact h id r hr

/-- The mock `Delete` keeps every record under its own id. -/
theorem MockKeyStore.wellKeyed_Delete {store : MockKeyStore} (h : store.wellKeyed = true)
    (id : UUID) : (store.Delete id).1.wellKeyed = true := by
  unfold MockKeyStore.Delete
  cases hl : store.KeyStore.lookup id with
  | none => exact h
  | some k =>
    rw [MockKeyStore.wellKeyed_iff] at h ⊢
    intro i r hr
    change (store.KeyStore.erase id).lookup i = some r at hr
    by_cases hid : i = id
    · subst hid
      rw [AList.lookup_erase] at hr
      cases hr
    · rw [AList.lookup_erase_ne hid] at hr
      exact h i r hr

/-- Every operation of the mock store keeps every record under its own id: the states
that the operations produce from the empty store are all of this kind. -/
theorem MockKeyStore.wellKeyed_after {store : MockKeyStore} (h : store.wellKeyed = true)
    (op : KeyStoreOp) : (store.after op).wellKeyed = true := by
  cases op with
  | create key => exact MockKeyStore.wellKeyed_Create h key
  | retrieve id => exact h
  | delete id => exact MockKeyStore.wellKeyed_Delete h id
  | search criteria => exact h

/-- The fake store of the tests holds every record under its own id. -/
theorem NewFakeKeyStore_wellKeyed (t1 t2 t3 t4 : Time) :
    (NewFakeKeyStore t1 t2 t3 t4).wellKeyed = true := by
  unfold NewFakeKeyStore
  exact MockKeyStore.wellKeyed_Create (MockKeyStore.wellKeyed_Create
    (MockKeyStore.wellKeyed_Create (MockKeyStore.wellKeyed_Create
      (MockKeyStore.wellKeyed_empty false) _) _) _) _

/-! ## Properties of the directory store -/

theorem sampleCodec_parse (u : UUID) :
    sampleCodec.uuidParse (sampleCodec.uuidString u) = .ok u := by
  obtain ⟨n⟩ := u
  show Except.ok (UUID.mk (List.replicate n 'k').length) = Except.ok (UUID.mk n)
  rw [List.length_replicate]

theorem sampleCodec_injective : Function.Injective sampleCodec.uuidString := by
  intro a b h
  have ha := sampleCodec_parse a
  rw [h, sampleCodec_parse b] at ha
  exact (Except.ok.inj ha).symm

theorem sampleCodec_roundtrip (key : KeyAttributes) (bytes : Bytes)
    (h : sampleCodec.jsonMarshal key = .ok bytes) :
    sampleCodec.jsonUnmarshal bytes = .ok key := by
  simp only [sampleCodec] at h ⊢
  by_cases h1 : key = smallAES
  · simp only [h1, if_true, Except.ok.injEq] at h
    subst h
    simp [h1]
  · by_cases h2 : key = smallEC
    · have hne : smallEC ≠ smallAES := by decide
      simp only [h2, hne, if_false, if_true, Except.ok.injEq] at h
      subst h
      simp [h2]
    · simp [h1, h2] at h

/-- A parser that reads back every written id makes the writing of ids injective. -/
theorem uuidString_injective {lib : Codec}
    (hparse : ∀ u, lib.uuidParse (lib.uuidString u) = .ok u) :
    Function.Injective lib.uuidString := by
  intro a b h
  have ha := hparse a
  rw [h, hparse b] at ha
  exact (Except.ok.inj ha).symm

theorem KeyStore.wellFormed_iff (lib : Codec) (dir : Dir) :
    KeyStore.wellFormed lib dir = true ↔
      ∀ name bytes, dir.lookup name = some bytes →
        ∃ key, lib.jsonUnmarshal bytes = .ok key ∧ lib.uuidString key.ID = name := by
  simp only [KeyStore.wellFormed, List.all_eq_true]
  constructor
  · intro h name bytes hl
    have hmem : (⟨name, bytes⟩ : Sigma fun _ : String => Bytes) ∈ dir.entries :=
      AList.mem_lookup_iff.mp (by simpa using hl)
    have hx := h _ hmem
    simp only at hx
    cases hu : lib.jsonUnmarshal bytes with
    | error e => simp [hu] at hx
    | ok key => exact ⟨key, rfl, by simpa [hu] using hx⟩
  · intro h entry hmem
    obtain ⟨name, bytes⟩ := entry
    obtain ⟨key, hu, hn⟩ := h name bytes (by simpa using AList.mem_lookup_iff.mpr hmem)
    simp [hu, hn]

/-- In a well-formed directory the file of a listed name decodes to a record that is
retrieved under its own id, and the name parses to that id. -/
theorem KeyStore.recordAt_of_wellFormed {lib : Codec} {dir : Dir}
    (hwf : KeyStore.wellFormed lib dir = true) {name : String} (hname : name ∈ dir.keys) :
    ∃ key, KeyStore.recordAt lib dir name = some key ∧ lib.uuidString key.ID = name ∧
      KeyStore.Retrieve lib dir key.ID = .ok key := by
  have hsome : (dir.lookup name).isSome := AList.lookup_isSome.mpr (AList.mem_keys.mpr hname)
  obtain ⟨bytes, hb⟩ := Option.isSome_iff_exists.mp hsome
  obtain ⟨key, hu, hn⟩ := (KeyStore.wellFormed_iff lib dir).mp hwf name bytes hb
  subst hn
  refine ⟨key, ?_, rfl, ?_⟩
  · simp [KeyStore.recordAt, hb, hu]
  · simp [KeyStore.Retrieve, hb, hu]

/-- In a well-formed directory the loop of `Search` reaches its end and appends the
record of every listed file. -/
theorem KeyStore.searchLoop_ok {lib : Codec} {dir : Dir}
    (hparse : ∀ u, lib.uuidParse (lib.uuidString u) = .ok u)
    (hwf : KeyStore.wellFormed lib dir = true) :
    ∀ (names : List String) (keys : List KeyAttributes), (∀ name ∈ names, name ∈ dir.keys) →
      KeyStore.searchLoop lib dir names keys
        = .ok (keys ++ names.filterMap (KeyStore.recordAt lib dir)) := by
  intro names
  induction names with
  | nil => intro keys _; simp [KeyStore.searchLoop]
  | cons name rest ih =>
    intro keys hsub
    obtain ⟨key, hrec, hn, hret⟩ :=
      KeyStore.recordAt_of_wellFormed hwf (hsub name (List.mem_cons_self _ _))
    have hp : lib.uuidParse name = .ok key.ID := by rw [← hn]; exact hparse key.ID
    simp only [KeyStore.searchLoop, hp, hret]
    rw [ih (keys ++ [key]) (fun n hn' => hsub n (List.mem_cons_of_mem _ hn'))]
    simp [List.filterMap_cons, hrec]

theorem KeyStore.readDir_perm (dir : Dir) : (KeyStore.readDir dir).Perm dir.keys :=
  List.perm_insertionSort _ _

theorem filterKeys_nil (criteria : Option KeyFilterCriteria) : filterKeys [] criteria = [] := by
  cases criteria with
  | none => rfl
  | some c => rw [filterKeys_eq_filter]; rfl

/-- In a well-formed directory `Search` succeeds, with the filtered records of the
listed files. -/
theorem KeyStore.Search_ok {lib : Codec} {dir : Dir}
    (hparse : ∀ u, lib.uuidParse (lib.uuidString u) = .ok u)
    (hwf : KeyStore.wellFormed lib dir = true) (criteria : Option KeyFilterCriteria) :
    KeyStore.Search lib dir criteria
      = .ok (filterKeys ((KeyStore.readDir dir).filterMap (KeyStore.recordAt lib dir))
          criteria) := by
  have hloop := KeyStore.searchLoop_ok hparse hwf (KeyStore.readDir dir) []
    (fun name hn => (KeyStore.readDir_perm dir).mem_iff.mp hn)
  simp only [KeyStore.Search, hloop, List.nil_append]
  by_cases hlen : ((KeyStore.readDir dir).filterMap (KeyStore.recordAt lib dir)).length > 0
  · simp [hlen]
  · have hnil : (KeyStore.readDir dir).filterMap (KeyStore.recordAt lib dir) = [] := by
      apply List.eq_nil_of_length_eq_zero
      omega
    simp [hnil, filterKeys_nil]

/-- The records of the directory are the records of its file names. -/
theorem KeyStore.records_eq (lib : Codec) (dir : Dir) :
    KeyStore.records lib dir = dir.keys.filterMap (KeyStore.recordAt lib dir) := by
  unfold KeyStore.records AList.keys List.keys
  rw [List.filterMap_map]
  apply List.filterMap_congr
  intro entry hmem
  obtain ⟨name, bytes⟩ := entry
  have hl : dir.lookup name = some bytes := by simpa using AList.mem_lookup_iff.mpr hmem
  simp [KeyStore.recordAt, hl]

theorem KeyStore.listed_perm_records (lib : Codec) (dir : Dir) :
    ((KeyStore.readDir dir).filterMap (KeyStore.recordAt lib dir)).Perm
      (KeyStore.records lib dir) := by
  rw [KeyStore.records_eq]
  exact (KeyStore.readDir_perm dir).filterMap _

/-- In a well-formed directory every file holds a record. -/
theorem dir_length_records {lib : Codec} {dir : Dir}
    (hwf : KeyStore.wellFormed lib dir = true) :
    (KeyStore.records lib dir).length = dir.entries.length := by
  simp only [KeyStore.wellFormed, List.all_eq_true] at hwf
  unfold KeyStore.records
  generalize dir.entries = entries at hwf
  induction entries with
  | nil => rfl
  | cons entry rest ih =>
    have he := hwf entry (List.mem_cons_self _ _)
    have hr := ih (fun e hm => hwf e (List.mem_cons_of_mem _ hm))
    cases hu : lib.jsonUnmarshal entry.2 with
    | error e => simp [hu] at he
    | ok key => simp [List.filterMap_cons, hu, hr]

/-- A record that `Retrieve` returns is one of the records of the directory. -/
theorem KeyStore.mem_records_of_Retrieve {lib : Codec} {dir : Dir} {id : UUID}
    {r : KeyAttributes} (h : KeyStore.Retrieve lib dir id = .ok r) :
    r ∈ KeyStore.records lib dir := by
  unfold KeyStore.Retrieve at h
  cases hl : dir.lookup (lib.uuidString id) with
  | none => simp [hl] at h
  | some bytes =>
    cases hu : lib.jsonUnmarshal bytes with
    | error e => simp [hl, hu] at h
    | ok key =>
      simp only [hl, hu, Except.ok.injEq] at h
      subst h
      have hmem : (⟨lib.uuidString id, bytes⟩ : Sigma fun _ : String => Bytes) ∈ dir.entries :=
        AList.mem_lookup_iff.mp (by simpa using hl)
      exact List.mem_filterMap.mpr ⟨_, hmem, by simp [hu]⟩

/-- In a well-formed directory every record is retrieved under its own id. -/
theorem KeyStore.Retrieve_of_mem_records {lib : Codec} {dir : Dir}
    (hwf : KeyStore.wellFormed lib dir = true) {r : KeyAttributes}
    (h : r ∈ KeyStore.records lib dir) : KeyStore.Retrieve lib dir r.ID = .ok r := by
  obtain ⟨⟨name, bytes⟩, hmem, hdec⟩ := List.mem_filterMap.mp h
  have hl : dir.lookup name = some bytes := by simpa using AList.mem_lookup_iff.mpr hmem
  obtain ⟨key, hu, hn⟩ := (KeyStore.wellFormed_iff lib dir).mp hwf name bytes hl
  simp only [hu, Option.some.injEq] at hdec
  subst hdec
  subst hn
  simp [KeyStore.Retrieve, hl, hu]

/-- Removing a file keeps a directory well-formed. -/
theorem KeyStore.wellFormed_erase {lib : Codec} {dir : Dir}
    (hwf : KeyStore.wellFormed lib dir = true) (name : String) :
    KeyStore.wellFormed lib (dir.erase name) = true := by
  rw [KeyStore.wellFormed_iff] at hwf ⊢
  intro n bytes hl
  by_cases hn : n = name
  · subst hn
    simp [AList.lookup_erase] at hl
  · rw [AList.lookup_erase_ne hn] at hl
    exact hwf n bytes hl

/-- Writing the file of a record keeps a directory well-formed, when the codec reads
back what it writes. -/
theorem KeyStore.wellFormed_Create {lib : Codec} {dir : Dir}
    (hrt : ∀ key bytes, lib.jsonMarshal key = .ok bytes → lib.jsonUnmarshal bytes = .ok key)
    (hwf : KeyStore.wellFormed lib dir = true) (key : KeyAttributes) :
    KeyStore.wellFormed lib (KeyStore.Create lib dir key).1 = true := by
  unfold KeyStore.Create
  cases hm : lib.jsonMarshal key with
  | error e => simpa [hm] using hwf
  | ok bytes =>
    simp only [hm]
    rw [KeyStore.wellFormed_iff] at hwf ⊢
    intro n b hl
    by_cases hn : n = lib.uuidString key.ID
    · subst hn
      rw [AList.lookup_insert] at hl
      simp only [Option.some.injEq] at hl
      subst hl
      exact ⟨key, hrt key _ hm, rfl⟩
    · rw [AList.lookup_insert_ne hn] at hl
      exact hwf n b hl

theorem KeyStore.wellFormed_empty (lib : Codec) : KeyStore.wellFormed lib ∅ = true := rfl

theorem sampleDir_wellFormed : KeyStore.wellFormed sampleCodec sampleDir = true :=
  KeyStore.wellFormed_Create sampleCodec_roundtrip
    (KeyStore.wellFormed_Create sampleCodec_roundtrip (KeyStore.wellFormed_empty _) _) _

/-- The directory `Delete` leaves a well-formed directory well-formed. -/
theorem KeyStore.wellFormed_Delete {lib : Codec} {dir : Dir}
    (hwf : KeyStore.wellFormed lib dir = true) (id : UUID) :
    KeyStore.wellFormed lib (KeyStore.Delete lib dir id).1 = true := by
  unfold KeyStore.Delete
  cases hl : dir.lookup (lib.uuidString id) with
  | none => simpa [hl] using hwf
  | some bytes => simpa [hl] using KeyStore.wellFormed_erase hwf (lib.uuidString id)

/-- Every operation of the directory store leaves a well-formed directory well-formed,
with a JSON codec that reads back what it writes. -/
theorem KeyStore.wellFormed_after {lib : Codec} {dir : Dir}
    (hrt : ∀ key bytes, lib.jsonMarshal key = .ok bytes → lib.jsonUnmarshal bytes = .ok key)
    (hwf : KeyStore.wellFormed lib dir = true) (op : KeyStoreOp) :
    KeyStore.wellFormed lib (KeyStore.after lib dir op) = true := by
  cases op with
  | create key => exact KeyStore.wellFormed_Create hrt hwf key
  | retrieve id => exact hwf
  | delete id => exact KeyStore.wellFormed_Delete hwf id
  | search criteria => exact hwf

/-! ## The store operations -/

theorem NewFakeKeyStore_length (t1 t2 t3 t4 : Time) :
    (NewFakeKeyStore t1 t2 t3 t4).records.length = 4 := by
  rfl

/-- The counts that the controller tests expect from the fake store: two keys for the
algorithm AES, two for the key length 256, one for the curve prime256v1 and three for
the transfer policy `ee37c360-7eae-4250-a677-6ee12adce8e2`. -/
theorem NewFakeKeyStore_filtered_lengths (t1 t2 t3 t4 : Time) :
    (filterKeys (NewFakeKeyStore t1 t2 t3 t4).records
      (some { KeyFilterCriteria.zero with Algorithm := "AES" })).length = 2 ∧
    (filterKeys (NewFakeKeyStore t1 t2 t3 t4).records
      (some { KeyFilterCriteria.zero with KeyLength := 256 })).length = 2 ∧
    (filterKeys (NewFakeKeyStore t1 t2 t3 t4).records
      (some { KeyFilterCriteria.zero with CurveType := "prime256v1" })).length = 1 ∧
    (filterKeys (NewFakeKeyStore t1 t2 t3 t4).records
      (some { KeyFilterCriteria.zero with
        TransferPolicyId := ⟨0xee37c3607eae4250a6776ee12adce8e2⟩ })).length = 3 := by
  refine ⟨?_, ?_, ?_, ?_⟩ <;> rfl

/-- C2: with a nil criteria or a criteria whose every field is the zero value, `Search`
returns all stored key records: in the mock store, whatever order the map is visited in,
and in a directory as the store leaves it, the result is a rearrangement of the stored
records, has one element per stored entry, and holds every record that `Retrieve` can
return; on the fake store of four keys it has length four. -/
theorem search_unfiltered_returns_all
    (criteria : Option KeyFilterCriteria)
    (hc : criteria = none ∨ criteria = some KeyFilterCriteria.zero)
    (store : MockKeyStore) (keys : List KeyAttributes) (hkeys : store.rangeOrder keys)
    (lib : Codec) (dir : Dir)
    (hparse : ∀ u, lib.uuidParse (lib.uuidString u) = .ok u)
    (hwf : KeyStore.wellFormed lib dir = true)
    (t1 t2 t3 t4 : Time) (fake : List KeyAttributes)
    (hfake : (NewFakeKeyStore t1 t2 t3 t4).rangeOrder fake) :
    (∃ res, MockKeyStore.SearchFrom keys criteria = .ok res ∧ res.Perm store.records ∧
      res.length = store.KeyStore.entries.length ∧
      ∀ id k, store.Retrieve id = .ok k → k ∈ res) ∧
    (∃ res, KeyStore.Search lib dir criteria = .ok res ∧
      res.Perm (KeyStore.records lib dir) ∧ res.length = dir.entries.length ∧
      ∀ id k, KeyStore.Retrieve lib dir id = .ok k → k ∈ res) ∧
    (∃ res, MockKeyStore.SearchFrom fake criteria = .ok res ∧ res.length = 4) := by
  refine ⟨⟨keys, ?_, hkeys, ?_, ?_⟩, ⟨_, KeyStore.Search_ok hparse hwf criteria, ?_, ?_, ?_⟩,
    ⟨fake, ?_, ?_⟩⟩
  · rw [SearchFrom_eq_filterKeys, filterKeys_unset keys criteria hc]
  · rw [hkeys.length_eq, mock_length_records]
  · intro id k hret
    unfold MockKeyStore.Retrieve at hret
    cases hl : store.KeyStore.lookup id with
    | none => cases hte : store.ThrowError <;> simp [hl, hte] at hret
    | some k' =>
      simp only [hl, Except.ok.injEq] at hret
      subst hret
      exact hkeys.mem_iff.mpr (MockKeyStore.mem_records_of_lookup hl)
  · rw [filterKeys_unset _ criteria hc]
    exact KeyStore.listed_perm_records lib dir
  · rw [filterKeys_unset _ criteria hc, (KeyStore.listed_perm_records lib dir).length_eq,
      dir_length_records hwf]
  · intro id k hret
    rw [filterKeys_unset _ criteria hc]
    exact (KeyStore.listed_perm_records lib dir).mem_iff.mpr
      (KeyStore.mem_records_of_Retrieve hret)
  · rw [SearchFrom_eq_filterKeys, filterKeys_unset fake criteria hc]
  · rw [hfake.length_eq, NewFakeKeyStore_length]

/-- Witness of `search_unfiltered_returns_all`: the nil criteria on the fake store and
on the sample directory. -/
theorem search_unfiltered_returns_all_witness :
    (∃ res, MockKeyStore.SearchFrom (NewFakeKeyStore 0 0 0 0).records none = .ok res ∧
      res.Perm (NewFakeKeyStore 0 0 0 0).records ∧
      res.length = (NewFakeKeyStore 0 0 0 0).KeyStore.entries.length ∧
      ∀ id k, (NewFakeKeyStore 0 0 0 0).Retrieve id = .ok k → k ∈ res) ∧
    (∃ res, KeyStore.Search sampleCodec sampleDir none = .ok res ∧
      res.Perm (KeyStore.records sampleCodec sampleDir) ∧
      res.length = sampleDir.entries.length ∧
      ∀ id k, KeyStore.Retrieve sampleCodec sampleDir id = .ok k → k ∈ res) ∧
    (∃ res, MockKeyStore.SearchFrom (NewFakeKeyStore 1 2 3 4).records none = .ok res ∧
      res.length = 4) :=
  search_unfiltered_returns_all none (Or.inl rfl) (NewFakeKeyStore 0 0 0 0) _
    (List.Perm.refl _) sampleCodec sampleDir sampleCodec_parse sampleDir_wellFormed
    1 2 3 4 _ (List.Perm.refl _)

/-- C3 (as amended): for every id that has no stored record, `Retrieve` returns no record
and an error. The directory store returns the record-not-found error; the mock store
returns the record-not-found error when its `ThrowError` flag is unset and the error
"Internal Server Error" when the flag is set. The REST layer reports the record-not-found
error as 404. -/
theorem retrieve_absent
    (store : MockKeyStore) (id : UUID) (hid : store.KeyStore.lookup id = none)
    (lib : Codec) (dir : Dir) (id' : UUID) (hid' : dir.lookup (lib.uuidString id') = none) :
    KeyStore.Retrieve lib dir id' = .error (.new commErr.RecordNotFound) ∧
    (store.ThrowError = false → store.Retrieve id = .error (.new commErr.RecordNotFound)) ∧
    (store.ThrowError = true → store.Retrieve id = .error (.new "Internal Server Error")) ∧
    notFoundStatus (.new commErr.RecordNotFound) = some 404 := by
  refine ⟨?_, ?_, ?_, ?_⟩
  · simp [KeyStore.Retrieve, hid']
  · intro hte
    simp [MockKeyStore.Retrieve, hid, hte]
  · intro hte
    simp [MockKeyStore.Retrieve, hid, hte]
  · simp [notFoundStatus]

/-- Witness of `retrieve_absent`: the id that the tests use as a non-existent key id, in
the fake store and in the sample directory. -/
theorem retrieve_absent_witness :
    (NewFakeKeyStore 0 0 0 0).KeyStore.lookup absentId = none ∧
    sampleDir.lookup (sampleCodec.uuidString ⟨3⟩) = none ∧
    (NewFakeKeyStore 0 0 0 0).Retrieve absentId = .error (.new commErr.RecordNotFound) ∧
    KeyStore.Retrieve sampleCodec sampleDir ⟨3⟩ = .error (.new commErr.RecordNotFound) :=
  have h1 : (NewFakeKeyStore 0 0 0 0).KeyStore.lookup absentId = none := by decide
  have h2 : sampleDir.lookup (sampleCodec.uuidString ⟨3⟩) = none := by decide
  have h := retrieve_absent (NewFakeKeyStore 0 0 0 0) absentId h1 sampleCodec sampleDir ⟨3⟩ h2
  ⟨h1, h2, h.2.1 rfl, h.1⟩

/-- Counterexample to C3 as stated: the mock store with `ThrowError` set has no record
under the id, and `Retrieve` returns "Internal Server Error", not record-not-found. -/
theorem retrieve_absent_not_always_notFound :
    throwingStore.KeyStore.lookup absentId = none ∧
    throwingStore.Retrieve absentId = .error (.new "Internal Server Error") ∧
    throwingStore.Retrieve absentId ≠ .error (.new commErr.RecordNotFound) := by
  have h1 : throwingStore.KeyStore.lookup absentId = none := by decide
  have h2 : throwingStore.Retrieve absentId = .error (.new "Internal Server Error") := by
    unfold MockKeyStore.Retrieve
    rw [h1]
    rfl
  refine ⟨h1, h2, ?_⟩
  rw [h2]
  intro h
  have hmsg : "Internal Server Error" = commErr.RecordNotFound :=
    GoError.new.inj (Except.error.inj h)
  exact absurd hmsg (by decide)

/-- C4: for every id that has no stored record, `Delete` returns the record-not-found
error and leaves the store exactly as it was, in the mock store and in the directory
store. -/
theorem delete_absent
    (store : MockKeyStore) (id : UUID) (hid : store.KeyStore.lookup id = none)
    (lib : Codec) (dir : Dir) (id' : UUID) (hid' : dir.lookup (lib.uuidString id') = none) :
    store.Delete id = (store, some (.new commErr.RecordNotFound)) ∧
    KeyStore.Delete lib dir id' = (dir, some (.new commErr.RecordNotFound)) := by
  constructor
  · simp [MockKeyStore.Delete, hid]
  · simp [KeyStore.Delete, hid']

/-- Witness of `delete_absent`: the id that the tests use as a non-existent key id, in
the fake store and in the sample directory. -/
theorem delete_absent_witness :
    (NewFakeKeyStore 0 0 0 0).KeyStore.lookup absentId = none ∧
    sampleDir.lookup (sampleCodec.uuidString ⟨3⟩) = none ∧
    (NewFakeKeyStore 0 0 0 0).Delete absentId
      = (NewFakeKeyStore 0 0 0 0, some (.new commErr.RecordNotFound)) ∧
    KeyStore.Delete sampleCodec sampleDir ⟨3⟩
      = (sampleDir, some (.new commErr.RecordNotFound)) :=
  have h1 : (NewFakeKeyStore 0 0 0 0).KeyStore.lookup absentId = none := by decide
  have h2 : sampleDir.lookup (sampleCodec.uuidString ⟨3⟩) = none := by decide
  have h := delete_absent (NewFakeKeyStore 0 0 0 0) absentId h1 sampleCodec sampleDir ⟨3⟩ h2
  ⟨h1, h2, h.1, h.2⟩

/-- The mock `Retrieve` is a function of the map entry and the flag. -/
theorem mock_Retrieve_congr {s₁ s₂ : MockKeyStore} {id : UUID}
    (hl : s₁.KeyStore.lookup id = s₂.KeyStore.lookup id) (ht : s₁.ThrowError = s₂.ThrowError) :
    s₁.Retrieve id = s₂.Retrieve id := by
  simp [MockKeyStore.Retrieve, hl, ht]

/-- The directory `Retrieve` is a function of the file of the id. -/
theorem dir_Retrieve_congr {lib : Codec} {d₁ d₂ : Dir} {id : UUID}
    (hl : d₁.lookup (lib.uuidString id) = d₂.lookup (lib.uuidString id)) :
    KeyStore.Retrieve lib d₁ id = KeyStore.Retrieve lib d₂ id := by
  simp [KeyStore.Retrieve, hl]

/-- C5 (as amended): for every id that has a stored record, `Delete` succeeds; after it
`Retrieve` of the id fails, with record-not-found in the directory store and in the mock
store whose `ThrowError` flag is unset (with "Internal Server Error" in the mock store
whose flag is set); and `Retrieve` of every other id gives what it gave before. In a
store as its own operations leave it (the mock store holds every record under its own
id, `wellKeyed`; every file of the directory decodes to a record and is named by the id
of that record, `wellFormed`), `Search` returns no record with that id afterwards. Both
conditions hold of the empty store and are kept by every operation
(`MockKeyStore.wellKeyed_after`, `KeyStore.wellFormed_after`). -/
theorem delete_present
    (store : MockKeyStore) (id : UUID) (k : KeyAttributes)
    (hk : store.KeyStore.lookup id = some k)
    (lib : Codec) (dir : Dir) (id' : UUID) (bytes : Bytes)
    (hb : dir.lookup (lib.uuidString id') = some bytes) :
    ((store.Delete id).2 = none ∧
      (store.Delete id).1.Retrieve id = .error (.new
        (if store.ThrowError then "Internal Server Error" else commErr.RecordNotFound)) ∧
      (store.wellKeyed = true → ∀ keys criteria, (store.Delete id).1.rangeOrder keys →
        ∃ res, MockKeyStore.SearchFrom keys criteria = .ok res ∧ ∀ r ∈ res, r.ID ≠ id) ∧
      (∀ other, other ≠ id → (store.Delete id).1.Retrieve other = store.Retrieve other)) ∧
    ((KeyStore.Delete lib dir id').2 = none ∧
      KeyStore.Retrieve lib (KeyStore.Delete lib dir id').1 id'
        = .error (.new commErr.RecordNotFound) ∧
      ((∀ u, lib.uuidParse (lib.uuidString u) = .ok u) → KeyStore.wellFormed lib dir = true →
        ∀ criteria, ∃ res,
          KeyStore.Search lib (KeyStore.Delete lib dir id').1 criteria = .ok res ∧
          ∀ r ∈ res, r.ID ≠ id') ∧
      (Function.Injective lib.uuidString → ∀ other, other ≠ id' →
        KeyStore.Retrieve lib (KeyStore.Delete lib dir id').1 other
          = KeyStore.Retrieve lib dir other)) := by
  have hdel : store.Delete id = ({ store with KeyStore := store.KeyStore.erase id }, none) := by
    simp [MockKeyStore.Delete, hk]
  have hdel' : KeyStore.Delete lib dir id' = (dir.erase (lib.uuidString id'), none) := by
    simp [KeyStore.Delete, hb]
  have hgone : (store.KeyStore.erase id).lookup id = none := AList.lookup_erase id _
  have hgone' : (dir.erase (lib.uuidString id')).lookup (lib.uuidString id') = none :=
    AList.lookup_erase _ _
  rw [hdel, hdel']
  refine ⟨⟨rfl, ?_, ?_, ?_⟩, ⟨rfl, ?_, ?_, ?_⟩⟩
  · cases hte : store.ThrowError <;> simp [MockKeyStore.Retrieve, hgone, hte]
  · intro hkeyed keys criteria hord
    refine ⟨_, SearchFrom_eq_filterKeys keys criteria, ?_⟩
    intro r hr hrid
    have hmem : r ∈ MockKeyStore.records { store with KeyStore := store.KeyStore.erase id } :=
      hord.mem_iff.mp (mem_of_mem_filterKeys hr)
    obtain ⟨i, hi⟩ := MockKeyStore.lookup_of_mem_records hmem
    simp only at hi
    have hne : i ≠ id := by
      intro hii
      rw [hii, hgone] at hi
      exact Option.noConfusion hi
    rw [AList.lookup_erase_ne hne] at hi
    have hown : r.ID = i := (MockKeyStore.wellKeyed_iff store).mp hkeyed i r hi
    exact hne (hown.symm.trans hrid)
  · intro other hne
    exact mock_Retrieve_congr (AList.lookup_erase_ne hne) rfl
  · simp [KeyStore.Retrieve, hgone']
  · intro hparse hwf criteria
    have hwf' := KeyStore.wellFormed_erase hwf (lib.uuidString id')
    refine ⟨_, KeyStore.Search_ok hparse hwf' criteria, ?_⟩
    intro r hr hrid
    have hmem : r ∈ KeyStore.records lib (dir.erase (lib.uuidString id')) :=
      (KeyStore.listed_perm_records lib _).mem_iff.mp (mem_of_mem_filterKeys hr)
    have hret := KeyStore.Retrieve_of_mem_records hwf' hmem
    rw [hrid] at hret
    simp [KeyStore.Retrieve, hgone'] at hret
  · intro hinj other hne
    apply dir_Retrieve_congr
    exact AList.lookup_erase_ne (fun h => hne (hinj h))

/-- Witness of `delete_present`: the first key of the fake store and the first file of
the sample directory. -/
theorem delete_present_witness :
    (NewFakeKeyStore 0 0 0 0).KeyStore.lookup sampleAES.ID = some sampleAES ∧
    sampleDir.lookup (sampleCodec.uuidString ⟨1⟩) = some [1] ∧
    ((NewFakeKeyStore 0 0 0 0).Delete sampleAES.ID).2 = none ∧
    ((NewFakeKeyStore 0 0 0 0).Delete sampleAES.ID).1.Retrieve sampleAES.ID
      = .error (.new commErr.RecordNotFound) ∧
    (∃ res, MockKeyStore.SearchFrom ((NewFakeKeyStore 0 0 0 0).Delete sampleAES.ID).1.records
        none = .ok res ∧ ∀ r ∈ res, r.ID ≠ sampleAES.ID) ∧
    (KeyStore.Delete sampleCodec sampleDir ⟨1⟩).2 = none ∧
    KeyStore.Retrieve sampleCodec (KeyStore.Delete sampleCodec sampleDir ⟨1⟩).1 ⟨1⟩
      = .error (.new commErr.RecordNotFound) ∧
    (∃ res, KeyStore.Search sampleCodec (KeyStore.Delete sampleCodec sampleDir ⟨1⟩).1 none
        = .ok res ∧ ∀ r ∈ res, r.ID ≠ ⟨1⟩) ∧
    KeyStore.Retrieve sampleCodec (KeyStore.Delete sampleCodec sampleDir ⟨1⟩).1 ⟨2⟩
      = KeyStore.Retrieve sampleCodec sampleDir ⟨2⟩ :=
  have h1 : (NewFakeKeyStore 0 0 0 0).KeyStore.lookup sampleAES.ID = some sampleAES := by
    decide
  have h2 : (NewFakeKeyStore 0 0 0 0).wellKeyed = true := by decide
  have h3 : sampleDir.lookup (sampleCodec.uuidString ⟨1⟩) = some [1] := by decide
  have h := delete_present (NewFakeKeyStore 0 0 0 0) sampleAES.ID sampleAES h1
    sampleCodec sampleDir ⟨1⟩ [1] h3
  ⟨h1, h3, h.1.1, h.1.2.1, h.1.2.2.1 h2 _ none (List.Perm.refl _), h.2.1, h.2.2.1,
    h.2.2.2.1 sampleCodec_parse sampleDir_wellFormed none,
    h.2.2.2.2 sampleCodec_injective ⟨2⟩ (by decide)⟩

/-- Counterexample to C5 as stated, at three states. In the mock store with `ThrowError`
set, after the successful `Delete` of a stored key, `Retrieve` of its id fails with
"Internal Server Error", not with record-not-found. In a mock store that holds the record
with id 2 under its own id and also under the id 7, and in a directory that holds it in
the file of its own id and also in the file of the id 7 (states that no operation of the
stores produces), `Delete` of the id 2 succeeds and `Search` still returns that record. -/
theorem retrieve_after_delete_not_always_notFound :
    (throwingStore.KeyStore.lookup sampleAES.ID = some sampleAES ∧
      (throwingStore.Delete sampleAES.ID).2 = none ∧
      (throwingStore.Delete sampleAES.ID).1.Retrieve sampleAES.ID
        = .error (.new "Internal Server Error") ∧
      (throwingStore.Delete sampleAES.ID).1.Retrieve sampleAES.ID
        ≠ .error (.new commErr.RecordNotFound)) ∧
    (misKeyedStore.KeyStore.lookup ⟨2⟩ = some smallEC ∧
      smallEC.ID = ⟨2⟩ ∧
      (misKeyedStore.Delete ⟨2⟩).2 = none ∧
      MockKeyStore.Search (misKeyedStore.Delete ⟨2⟩).1 none = .ok [smallEC]) ∧
    (misNamedDir.lookup (sampleCodec.uuidString ⟨2⟩) = some [2] ∧
      (KeyStore.Delete sampleCodec misNamedDir ⟨2⟩).2 = none ∧
      KeyStore.Search sampleCodec (KeyStore.Delete sampleCodec misNamedDir ⟨2⟩).1 none
        = .ok [smallEC]) := by
  have h1 : throwingStore.KeyStore.lookup sampleAES.ID = some sampleAES := by decide
  have h2 : (throwingStore.Delete sampleAES.ID).2 = none := by
    simp [MockKeyStore.Delete, h1]
  have h3 : (throwingStore.Delete sampleAES.ID).1.Retrieve sampleAES.ID
      = .error (.new "Internal Server Error") := by
    have hgone : (throwingStore.Delete sampleAES.ID).1.KeyStore.lookup sampleAES.ID = none := by
      simp [MockKeyStore.Delete, h1, AList.lookup_erase]
    have hflag : (throwingStore.Delete sampleAES.ID).1.ThrowError = true := by
      unfold MockKeyStore.Delete
      rw [h1]
      rfl
    simp [MockKeyStore.Retrieve, hgone, hflag]
  have h4 : (misKeyedStore.Delete ⟨2⟩).1.records = [smallEC] := by decide
  refine ⟨⟨h1, h2, h3, ?_⟩, ⟨by decide, rfl, by decide, ?_⟩, by decide, by decide, rfl⟩
  · rw [h3]
    intro h
    have hmsg : "Internal Server Error" = commErr.RecordNotFound :=
      GoError.new.inj (Except.error.inj h)
    exact absurd hmsg (by decide)
  · unfold MockKeyStore.Search
    rw [h4]
    rfl

/-- C6: round trip. `Create` of the mock store returns the record and `Retrieve` of its
id then returns a record equal to it; in the directory store, with a JSON codec that
reads back what it writes, a `Create` that succeeds returns the record and `Retrieve` of
its id then returns a record equal to it (equal in every field: ID, Algorithm, KeyLength,
CurveType, KmipKeyID, TransferPolicyId, TransferLink, CreatedAt). -/
theorem create_retrieve_roundtrip
    (store : MockKeyStore) (k : KeyAttributes) (lib : Codec) (dir : Dir)
    (hrt : ∀ key bytes, lib.jsonMarshal key = .ok bytes → lib.jsonUnmarshal bytes = .ok key)
    (hok : ∃ r, (KeyStore.Create lib dir k).2 = .ok r) :
    ((store.Create k).2 = .ok k ∧ (store.Create k).1.Retrieve k.ID = .ok k) ∧
    ((KeyStore.Create lib dir k).2 = .ok k ∧
      KeyStore.Retrieve lib (KeyStore.Create lib dir k).1 k.ID = .ok k) := by
  refine ⟨⟨rfl, ?_⟩, ?_⟩
  · simp [MockKeyStore.Create, MockKeyStore.Retrieve, AList.lookup_insert]
  · obtain ⟨r, hr⟩ := hok
    unfold KeyStore.Create at hr ⊢
    cases hm : lib.jsonMarshal k with
    | error e => simp [hm] at hr
    | ok bytes =>
      simp [KeyStore.Retrieve, AList.lookup_insert, hrt k bytes hm]

/-- Witness of `create_retrieve_roundtrip`: a record created in the fake store and in the
sample directory. -/
theorem create_retrieve_roundtrip_witness :
    (∃ r, (KeyStore.Create sampleCodec ∅ smallEC).2 = .ok r) ∧
    ((NewFakeKeyStore 0 0 0 0).Create smallEC).1.Retrieve smallEC.ID = .ok smallEC ∧
    KeyStore.Retrieve sampleCodec (KeyStore.Create sampleCodec ∅ smallEC).1 smallEC.ID
      = .ok smallEC :=
  have h1 : ∃ r, (KeyStore.Create sampleCodec ∅ smallEC).2 = .ok r := ⟨smallEC, rfl⟩
  have h := create_retrieve_roundtrip (NewFakeKeyStore 0 0 0 0) smallEC sampleCodec ∅
    sampleCodec_roundtrip h1
  ⟨h1, h.1.2, h.2.2⟩

/-- C7 (as amended): `Retrieve`, `Delete` and `Search`, and `Create` of a record with
another id, do not alter a stored record: a record stored under an id before the
operation and still stored under that id after it is unchanged (in the directory store,
the file of the id has the same contents and `Retrieve` gives the same result). `Create`
of a record whose ID is already stored replaces the stored record by the new one. -/
theorem stored_record_unchanged_unless_recreated
    (op : KeyStoreOp)
    (store : MockKeyStore) (id : UUID) (r r' : KeyAttributes)
    (hbefore : store.KeyStore.lookup id = some r)
    (hafter : (store.after op).KeyStore.lookup id = some r')
    (lib : Codec) (dir : Dir) (id' : UUID) (q q' : Bytes)
    (hinj : Function.Injective lib.uuidString)
    (hq : dir.lookup (lib.uuidString id') = some q)
    (hq' : (KeyStore.after lib dir op).lookup (lib.uuidString id') = some q') :
    ((∀ key, op = .create key → key.ID ≠ id) → r' = r) ∧
    (∀ key, op = .create key → key.ID = id → r' = key) ∧
    ((∀ key, op = .create key → key.ID ≠ id') →
      q' = q ∧ KeyStore.Retrieve lib (KeyStore.after lib dir op) id'
        = KeyStore.Retrieve lib dir id') ∧
    (∀ key, op = .create key → key.ID = id' → (KeyStore.Create lib dir key).2 = .ok key →
      lib.jsonMarshal key = .ok q') := by
  have hdirsame : q' = q → KeyStore.Retrieve lib (KeyStore.after lib dir op) id'
      = KeyStore.Retrieve lib dir id' := by
    intro hqq
    apply dir_Retrieve_congr
    rw [hq, hq', hqq]
  cases op with
  | create key =>
    simp only [MockKeyStore.after, MockKeyStore.Create, KeyStore.after] at hafter hq'
    refine ⟨?_, ?_, ?_, ?_⟩
    · intro hne
      have hne' : id ≠ key.ID := fun h => hne key rfl h.symm
      rw [AList.lookup_insert_ne hne', hbefore] at hafter
      exact (Option.some.inj hafter).symm
    · intro key' hop hid
      cases hop
      rw [← hid, AList.lookup_insert] at hafter
      exact (Option.some.inj hafter).symm
    · intro hne
      have hqq : q' = q := by
        unfold KeyStore.Create at hq'
        cases hm : lib.jsonMarshal key with
        | error e =>
          simp only [hm] at hq'
          rw [hq] at hq'
          exact (Option.some.inj hq').symm
        | ok bytes =>
          simp only [hm] at hq'
          have hne' : lib.uuidString id' ≠ lib.uuidString key.ID :=
            fun h => hne key rfl (hinj h).symm
          rw [AList.lookup_insert_ne hne', hq] at hq'
          exact (Option.some.inj hq').symm
      exact ⟨hqq, hdirsame hqq⟩
    · intro key' hop hid hcreated
      cases hop
      unfold KeyStore.Create at hq' hcreated
      cases hm : lib.jsonMarshal key with
      | error e => simp [hm] at hcreated
      | ok bytes =>
        simp only [hm] at hq'
        rw [← hid, AList.lookup_insert] at hq'
        rw [← Option.some.inj hq']
  | retrieve i =>
    simp only [MockKeyStore.after, KeyStore.after] at hafter hq'
    rw [hbefore] at hafter
    rw [hq] at hq'
    have hqq : q' = q := (Option.some.inj hq').symm
    exact ⟨fun _ => (Option.some.inj hafter).symm, fun _ h => (by cases h),
      fun _ => ⟨hqq, hdirsame hqq⟩, fun _ h => (by cases h)⟩
  | search c =>
    simp only [MockKeyStore.after, KeyStore.after] at hafter hq'
    rw [hbefore] at hafter
    rw [hq] at hq'
    have hqq : q' = q := (Option.some.inj hq').symm
    exact ⟨fun _ => (Option.some.inj hafter).symm, fun _ h => (by cases h),
      fun _ => ⟨hqq, hdirsame hqq⟩, fun _ h => (by cases h)⟩
  | delete i =>
    simp only [MockKeyStore.after, KeyStore.after] at hafter hq'
    have hrr : r' = r := by
      unfold MockKeyStore.Delete at hafter
      cases hl : store.KeyStore.lookup i with
      | none =>
        simp only [hl] at hafter
        rw [hbefore] at hafter
        exact (Option.some.inj hafter).symm
      | some k =>
        simp only [hl] at hafter
        by_cases hi : id = i
        · rw [hi, AList.lookup_erase] at hafter
          exact Option.noConfusion hafter
        · rw [AList.lookup_erase_ne hi, hbefore] at hafter
          exact (Option.some.inj hafter).symm
    have hqq : q' = q := by
      unfold KeyStore.Delete at hq'
      cases hl : dir.lookup (lib.uuidString i) with
      | none =>
        simp only [hl] at hq'
        rw [hq] at hq'
        exact (Option.some.inj hq').symm
      | some b =>
        simp only [hl] at hq'
        by_cases hi : lib.uuidString id' = lib.uuidString i
        · rw [hi, AList.lookup_erase] at hq'
          exact Option.noConfusion hq'
        · rw [AList.lookup_erase_ne hi, hq] at hq'
          exact (Option.some.inj hq').symm
    exact ⟨fun _ => hrr, fun _ h => (by cases h), fun _ => ⟨hqq, hdirsame hqq⟩,
      fun _ h => (by cases h)⟩

/-- Witness of `stored_record_unchanged_unless_recreated`: deleting the key with id 2
leaves the first key of the fake store and the first file of the sample directory as
they were. -/
theorem stored_record_unchanged_unless_recreated_witness :
    (NewFakeKeyStore 0 0 0 0).KeyStore.lookup sampleAES.ID = some sampleAES ∧
    ((NewFakeKeyStore 0 0 0 0).after (.delete ⟨2⟩)).KeyStore.lookup sampleAES.ID
      = some sampleAES ∧
    sampleDir.lookup (sampleCodec.uuidString ⟨1⟩) = some [1] ∧
    (KeyStore.after sampleCodec sampleDir (.delete ⟨2⟩)).lookup (sampleCodec.uuidString ⟨1⟩)
      = some [1] ∧
    KeyStore.Retrieve sampleCodec (KeyStore.after sampleCodec sampleDir (.delete ⟨2⟩)) ⟨1⟩
      = KeyStore.Retrieve sampleCodec sampleDir ⟨1⟩ :=
  have h1 : (NewFakeKeyStore 0 0 0 0).KeyStore.lookup sampleAES.ID = some sampleAES := by
    decide
  have h2 : ((NewFakeKeyStore 0 0 0 0).after (.delete ⟨2⟩)).KeyStore.lookup sampleAES.ID
      = some sampleAES := by decide
  have h3 : sampleDir.lookup (sampleCodec.uuidString ⟨1⟩) = some [1] := by decide
  have h4 : (KeyStore.after sampleCodec sampleDir (.delete ⟨2⟩)).lookup
      (sampleCodec.uuidString ⟨1⟩) = some [1] := by decide
  have h := stored_record_unchanged_unless_recreated (.delete ⟨2⟩) (NewFakeKeyStore 0 0 0 0)
    sampleAES.ID sampleAES sampleAES h1 h2 sampleCodec sampleDir ⟨1⟩ [1] [1]
    sampleCodec_injective h3 h4
  ⟨h1, h2, h3, h4, (h.2.2.1 (fun _ hop => by cases hop)).2⟩

/-- Counterexample to C7 as stated: `Create` of a record whose ID is already stored in
the fake store replaces the stored record by a different one. -/
theorem create_replaces_stored_record :
    sampleRSA.ID = sampleAES.ID ∧ sampleRSA ≠ sampleAES ∧
    (NewFakeKeyStore 0 0 0 0).KeyStore.lookup sampleAES.ID = some sampleAES ∧
    ((NewFakeKeyStore 0 0 0 0).after (.create sampleRSA)).KeyStore.lookup sampleAES.ID
      = some sampleRSA := by
  decide

/-- C8: the mock store implements the `Search` of the directory store. Whatever order
the map of the mock store is visited in, `MockKeyStore.Search` succeeds and its result
is, as a multiset, the result of `filterKeys` applied to the records of the store (in
any arrangement) and the same criteria. -/
theorem mock_search_refines_filterKeys
    (store : MockKeyStore) (keys recs : List KeyAttributes)
    (criteria : Option KeyFilterCriteria)
    (hkeys : store.rangeOrder keys) (hrecs : recs.Perm store.records) :
    ∃ res, MockKeyStore.SearchFrom keys criteria = .ok res ∧
      (res : Multiset KeyAttributes) = (filterKeys recs criteria : Multiset KeyAttributes) := by
  refine ⟨_, SearchFrom_eq_filterKeys keys criteria, ?_⟩
  exact Multiset.coe_eq_coe.mpr (filterKeys_perm (hkeys.trans hrecs.symm) criteria)

/-- Witness of `mock_search_refines_filterKeys`: the fake store, visited in the order of
its entries and filtered in the reverse order, with the algorithm filter of the tests. -/
theorem mock_search_refines_filterKeys_witness :
    (NewFakeKeyStore 0 0 0 0).rangeOrder (NewFakeKeyStore 0 0 0 0).records ∧
    (NewFakeKeyStore 0 0 0 0).records.reverse.Perm (NewFakeKeyStore 0 0 0 0).records ∧
    ∃ res, MockKeyStore.SearchFrom (NewFakeKeyStore 0 0 0 0).records
        (some { KeyFilterCriteria.zero with Algorithm := "AES" }) = .ok res ∧
      (res : Multiset KeyAttributes)
        = (filterKeys (NewFakeKeyStore 0 0 0 0).records.reverse
            (some { KeyFilterCriteria.zero with Algorithm := "AES" }) :
            Multiset KeyAttributes) :=
  ⟨List.Perm.refl _, List.reverse_perm _,
    mock_search_refines_filterKeys (NewFakeKeyStore 0 0 0 0) _ _ _ (List.Perm.refl _)
      (List.reverse_perm _)⟩

/-! ## Policy evaluation -/

/-- A rule whose attribute is absent from the facts, or present with a value outside the
expected values, is not satisfied when it is required. -/
theorem ruleSatisfied_eq_false {facts : AttestationFacts} {rule : PolicyRule}
    (hreq : rule.required = true)
    (hfail : facts.value rule.name = none ∨
      ∃ v, facts.value rule.name = some v ∧ v ∉ rule.expected) :
    ruleSatisfied facts rule = false := by
  unfold ruleSatisfied
  rcases hfail with habs | ⟨v, hv, hnot⟩
  · simp [habs, hreq]
  · simp [hv, hnot]

/-- When some rule is not satisfied, `Evaluate` denies. -/
theorem Evaluate_deny_of_failing_rule {policy : TransferPolicy} {facts : AttestationFacts}
    {rule : PolicyRule} (hmem : rule ∈ policy.rules) (hfail : ruleSatisfied facts rule = false) :
    (Evaluate policy facts).1 = false := by
  unfold Evaluate
  cases hfind : policy.rules.find? (fun rule => !ruleSatisfied facts rule) with
  | some r => rfl
  | none =>
    have hall := List.find?_eq_none.mp hfind rule hmem
    simp [hfail] at hall

/-- A platform-trust policy is denied unless the overall trust is explicitly true. -/
theorem Evaluate_deny_of_untrusted {policy : TransferPolicy} {facts : AttestationFacts}
    (hkind : policy.kind = .platformTrust) (htrust : facts.overallTrust ≠ some true) :
    (Evaluate policy facts).1 = false := by
  unfold Evaluate
  cases hfind : policy.rules.find? (fun rule => !ruleSatisfied facts rule) with
  | some r => rfl
  | none => simp [hkind, htrust]

/-- C9: policy evaluation fails closed. For every transfer policy and every attestation
facts, if some required rule of the policy has its attribute absent from the facts, or
present with a value that is not among the expected values, then `Evaluate` returns
`allow = false`. -/
theorem evaluate_fails_closed (policy : TransferPolicy) (facts : AttestationFacts)
    (h : ∃ rule ∈ policy.rules, rule.required = true ∧
      (facts.value rule.name = none ∨
        ∃ v, facts.value rule.name = some v ∧ v ∉ rule.expected)) :
    (Evaluate policy facts).1 = false := by
  obtain ⟨rule, hmem, hreq, hfail⟩ := h
  exact Evaluate_deny_of_failing_rule hmem (ruleSatisfied_eq_false hreq hfail)

/-- Witness of `evaluate_fails_closed`: the sample policy on a report whose trust
attribute is false. -/
theorem evaluate_fails_closed_witness :
    (∃ rule ∈ samplePolicy.rules, rule.required = true ∧
      (untrustedFacts.value rule.name = none ∨
        ∃ v, untrustedFacts.value rule.name = some v ∧ v ∉ rule.expected)) ∧
    (Evaluate samplePolicy untrustedFacts).1 = false :=
  have h : ∃ rule ∈ samplePolicy.rules, rule.required = true ∧
      (untrustedFacts.value rule.name = none ∨
        ∃ v, untrustedFacts.value rule.name = some v ∧ v ∉ rule.expected) :=
    ⟨{ name := "TRUST_OVERALL", expected := ["true"], required := true },
      by decide, rfl, Or.inr ⟨"false", by decide, by decide⟩⟩
  ⟨h, evaluate_fails_closed samplePolicy untrustedFacts h⟩

/-- C10: for every key bound to a transfer policy of the platform-trust kind and every
assertion that the verifier accepts and whose overall trust is false or absent, the
evaluator denies, and the assertion-based transfer answers 401 and releases no key
material, whatever the facts otherwise say and whatever fetching and wrapping the key
would give. -/
theorem untrusted_assertion_denied (policy : TransferPolicy) (facts : AttestationFacts)
    (release : Except Nat Bytes) (hkind : policy.kind = .platformTrust)
    (htrust : facts.overallTrust = some false ∨ facts.overallTrust = none) :
    (Evaluate policy facts).1 = false ∧
    TransferWithAssertion (some policy.ID) (some policy) (.ok facts) release = (401, none) := by
  have hne : facts.overallTrust ≠ some true := by
    rcases htrust with h | h <;> simp [h]
  have hdeny := Evaluate_deny_of_untrusted hkind hne
  refine ⟨hdeny, ?_⟩
  simp [TransferWithAssertion, EvaluateFor, hdeny]

/-- Witness of `untrusted_assertion_denied`: a report that satisfies the rule of the
sample policy and carries no overall-trust value, for a key that could be released. -/
theorem untrusted_assertion_denied_witness :
    samplePolicy.kind = .platformTrust ∧
    (trustlessFacts.overallTrust = some false ∨ trustlessFacts.overallTrust = none) ∧
    (Evaluate samplePolicy trustlessFacts).1 = false ∧
    TransferWithAssertion (some samplePolicy.ID) (some samplePolicy) (.ok trustlessFacts)
      (.ok [1, 2, 3]) = (401, none) :=
  have h := untrusted_assertion_denied samplePolicy trustlessFacts (.ok [1, 2, 3]) rfl
    (Or.inr rfl)
  ⟨rfl, Or.inr rfl, h.1, h.2⟩

/-! ## Properties of `FilterHostReports` -/

theorem lastValue_nil (name : String) : lastValue [] name = none := rfl

/-- The last value of a name in a list that starts with one more attribute. -/
theorem lastValue_cons (a : SamlAttribute) (rest : List SamlAttribute) (name : String) :
    lastValue (a :: rest) name
      = (lastValue rest name).or (if a.Name = name then some a.AttributeValue else none) := by
  unfold lastValue
  rw [List.reverse_cons, List.find?_append]
  cases hrest : rest.reverse.find? (fun a => decide (a.Name = name)) with
  | some b => simp
  | none =>
    by_cases ha : a.Name = name
    · simp [List.find?_cons, ha]
    · simp [List.find?_cons, ha]

/-- A last value comes from an attribute of the list. -/
theorem lastValue_mem {attrs : List SamlAttribute} {name v : String}
    (h : lastValue attrs name = some v) :
    ∃ a ∈ attrs, a.Name = name ∧ a.AttributeValue = v := by
  unfold lastValue at h
  cases hfind : attrs.reverse.find? (fun a => decide (a.Name = name)) with
  | none => simp [hfind] at h
  | some a =>
    simp only [hfind, Option.map_some', Option.some.injEq] at h
    have hmem : a ∈ attrs := List.mem_reverse.mp (List.mem_of_find?_eq_some hfind)
    have hname : a.Name = name := by simpa using List.find?_some hfind
    exact ⟨a, hmem, hname, h⟩

/-- Every attribute of the list gives its name a last value. -/
theorem lastValue_isSome {attrs : List SamlAttribute} {a : SamlAttribute} (h : a ∈ attrs) :
    ∃ v, lastValue attrs a.Name = some v := by
  have hsome : (attrs.reverse.find? (fun b => decide (b.Name = a.Name))).isSome := by
    rw [List.find?_isSome]
    exact ⟨a, List.mem_reverse.mpr h, by simp⟩
  obtain ⟨b, hb⟩ := Option.isSome_iff_exists.mp hsome
  exact ⟨b.AttributeValue, by simp [lastValue, hb]⟩

/-- The loop of `FilterHostReports` fills each of its three maps on its own. -/
theorem foldl_visit_eq (attrs : List SamlAttribute) (maps : ReportMaps) :
    attrs.foldl FilterHostReports.visit maps =
      { trustMap := collectPrefixed "TRUST" attrs maps.trustMap
        hardwareFeaturesMap := collectPrefixed "FEATURE" attrs maps.hardwareFeaturesMap
        assetTagsMap := collectPrefixed "TAG" attrs maps.assetTagsMap } := by
  induction attrs generalizing maps with
  | nil => rfl
  | cons a rest ih =>
    rw [List.foldl_cons, ih]
    unfold collectPrefixed FilterHostReports.visit
    simp only [List.foldl_cons]
    by_cases h1 : HasPrefix a.Name "TAG" = true <;>
      by_cases h2 : HasPrefix a.Name "TRUST" = true <;>
      by_cases h3 : HasPrefix a.Name "FEATURE" = true <;>
      simp [h1, h2, h3]

/-- What one map of the loop holds under a name afterwards: for a name with the prefix,
the value of the last attribute bearing it, or else what the map held before. -/
theorem lookup_collectPrefixed (pre : String) (attrs : List SamlAttribute) (m : StringMap)
    (name : String) :
    (collectPrefixed pre attrs m).lookup name =
      if HasPrefix name pre then (lastValue attrs name).or (m.lookup name)
      else m.lookup name := by
  induction attrs generalizing m with
  | nil => simp [collectPrefixed, lastValue_nil]
  | cons a rest ih =>
    have hstep : collectPrefixed pre (a :: rest) m
        = collectPrefixed pre rest
            (if HasPrefix a.Name pre then m.insert a.Name a.AttributeValue else m) := rfl
    rw [hstep, ih, lastValue_cons]
    by_cases hname : a.Name = name
    · subst hname
      by_cases hp : HasPrefix a.Name pre = true
      · simp only [hp, if_true, AList.lookup_insert]
        cases lastValue rest a.Name <;> simp
      · simp [hp]
    · have hne : name ≠ a.Name := fun h => hname h.symm
      by_cases hp : HasPrefix a.Name pre = true
      · simp only [hp, if_true, AList.lookup_insert_ne hne, hname, if_false]
        cases lastValue rest name <;> simp
      · simp only [hp, hname, if_false]
        cases lastValue rest name <;> simp

/-- The three maps that `FilterHostReports` stores in the host details. -/
theorem FilterHostReports_maps (report : SamlAssertion) (hostDetails : HostDetails) :
    (FilterHostReports (.ok report) hostDetails).1.AssetTags
      = collectPrefixed "TAG" report.Attribute ∅ ∧
    (FilterHostReports (.ok report) hostDetails).1.Trust
      = collectPrefixed "TRUST" report.Attribute ∅ ∧
    (FilterHostReports (.ok report) hostDetails).1.HardwareFeatures
      = collectPrefixed "FEATURE" report.Attribute ∅ := by
  simp [FilterHostReports, foldl_visit_eq]

/-- The lookup of a name in a map filled from the empty map. -/
theorem lookup_collectPrefixed_empty (pre : String) (attrs : List SamlAttribute)
    (name : String) :
    (collectPrefixed pre attrs ∅).lookup name =
      if HasPrefix name pre then lastValue attrs name else none := by
  rw [lookup_collectPrefixed]
  by_cases hp : HasPrefix name pre = true
  · simp only [hp, if_true, AList.lookup_empty]
    cases lastValue attrs name <;> rfl
  · simp [hp]

/-- C19 (as amended): for every SAML report, after `FilterHostReports` the map AssetTags
holds exactly the attribute names that start with "TAG", the map Trust exactly those
that start with "TRUST" and the map HardwareFeatures exactly those that start with
"FEATURE", each name unchanged and with the value of the last attribute of the report
that bears the name (the value of the attribute itself when no other attribute of the
report bears its name with another value); a name without the prefix of a map is not a
key of that map, and every key of a map is the name of an attribute of the report. -/
theorem filterHostReports_maps_by_prefix (report : SamlAssertion) (hostDetails : HostDetails) :
    (∀ name,
      (FilterHostReports (.ok report) hostDetails).1.AssetTags.lookup name
        = (if HasPrefix name "TAG" then lastValue report.Attribute name else none) ∧
      (FilterHostReports (.ok report) hostDetails).1.Trust.lookup name
        = (if HasPrefix name "TRUST" then lastValue report.Attribute name else none) ∧
      (FilterHostReports (.ok report) hostDetails).1.HardwareFeatures.lookup name
        = (if HasPrefix name "FEATURE" then lastValue report.Attribute name else none)) ∧
    (∀ name v, lastValue report.Attribute name = some v →
      ∃ a ∈ report.Attribute, a.Name = name ∧ a.AttributeValue = v) ∧
    (∀ a ∈ report.Attribute, ∃ v, lastValue report.Attribute a.Name = some v) ∧
    (∀ a ∈ report.Attribute,
      (∀ b ∈ report.Attribute, b.Name = a.Name → b.AttributeValue = a.AttributeValue) →
      lastValue report.Attribute a.Name = some a.AttributeValue) := by
  obtain ⟨htag, htrust, hfeature⟩ := FilterHostReports_maps report hostDetails
  refine ⟨fun name => ⟨?_, ?_, ?_⟩, fun name v h => lastValue_mem h,
    fun a ha => lastValue_isSome ha, ?_⟩
  · rw [htag, lookup_collectPrefixed_empty]
  · rw [htrust, lookup_collectPrefixed_empty]
  · rw [hfeature, lookup_collectPrefixed_empty]
  · intro a ha hsame
    obtain ⟨v, hv⟩ := lastValue_isSome ha
    obtain ⟨b, hb, hname, hval⟩ := lastValue_mem hv
    rw [hv, ← hval, hsame b hb hname]

/-- Counterexample to C19 as stated: in a report that gives the name `TAG_Country` twice,
the first attribute starts with "TAG" but is not copied with its value: AssetTags holds
the value of the second. -/
theorem filterHostReports_repeated_name_overwritten :
    (⟨"TAG_Country", "US"⟩ : SamlAttribute) ∈ repeatedTagReport.Attribute ∧
    HasPrefix "TAG_Country" "TAG" = true ∧
    (FilterHostReports (.ok repeatedTagReport) sampleHost).1.AssetTags.lookup "TAG_Country"
      = some "DE" ∧
    (FilterHostReports (.ok repeatedTagReport) sampleHost).1.AssetTags.lookup "TAG_Country"
      ≠ some "US" := by
  decide

/-- The sample report: each attribute lands in the map of its prefix, and the attribute
`biosName` in none. -/
theorem filterHostReports_sample :
    (FilterHostReports (.ok sampleReport) sampleHost).1.AssetTags.entries
      = [⟨"TAG_Country", "US"⟩] ∧
    (FilterHostReports (.ok sampleReport) sampleHost).1.Trust.entries
      = [⟨"TRUST_OVERALL", "true"⟩] ∧
    (FilterHostReports (.ok sampleReport) sampleHost).1.HardwareFeatures.entries
      = [⟨"FEATURE_TPM", "true"⟩] ∧
    (FilterHostReports (.ok sampleReport) sampleHost).1.Trusted = true ∧
    (FilterHostReports (.ok sampleReport) sampleHost).1.ValidTo = 100 := by
  decide

/-- The strings that `ParseBool` reads as true. -/
theorem ParseBool_eq_true_iff (str : String) :
    ParseBool str = .ok true ↔
      str = "1" ∨ str = "t" ∨ str = "T" ∨ str = "true" ∨ str = "TRUE" ∨ str = "True" := by
  unfold ParseBool
  by_cases h1 : str = "1" ∨ str = "t" ∨ str = "T" ∨ str = "true" ∨ str = "TRUE" ∨ str = "True"
  · simp [h1]
  · by_cases h2 : str = "0" ∨ str = "f" ∨ str = "F" ∨ str = "false" ∨ str = "FALSE"
        ∨ str = "False"
    · simp [h1, h2]
    · simp [h1, h2]

/-- The flag `Trusted` that `FilterHostReports` stores: what the value of the last
attribute `TRUST_OVERALL` parses to, and false when it does not parse or there is no such
attribute. -/
theorem FilterHostReports_Trusted (report : SamlAssertion) (hostDetails : HostDetails) :
    (FilterHostReports (.ok report) hostDetails).1.Trusted =
      match lastValue report.Attribute "TRUST_OVERALL" with
      | some v =>
        (match ParseBool v with
          | .ok b => b
          | .error _ => false)
      | none => false := by
  have hlook : (collectPrefixed "TRUST" report.Attribute ∅).lookup "TRUST_OVERALL"
      = lastValue report.Attribute "TRUST_OVERALL" := by
    rw [lookup_collectPrefixed_empty]
    have hp : HasPrefix "TRUST_OVERALL" "TRUST" = true := by decide
    simp [hp]
  simp only [FilterHostReports, foldl_visit_eq, StringMap.index, hlook]
  cases hlast : lastValue report.Attribute "TRUST_OVERALL" with
  | none => rfl
  | some v => rfl

/-- C20 (as amended): overall trust is fail-closed in `FilterHostReports`. For every SAML
report, the flag `Trusted` of the host details is true only if the report has an
attribute `TRUST_OVERALL` whose value parses as boolean true; it is true exactly when the
value of the last attribute `TRUST_OVERALL` of the report parses as boolean true. If the
report has no such attribute, or if the value of the last one is false or is not a
parsable boolean, `Trusted` is false. -/
theorem filterHostReports_trusted_fail_closed (report : SamlAssertion)
    (hostDetails : HostDetails) :
    ((FilterHostReports (.ok report) hostDetails).1.Trusted = true →
      ∃ a ∈ report.Attribute, a.Name = "TRUST_OVERALL" ∧
        ParseBool a.AttributeValue = .ok true) ∧
    ((FilterHostReports (.ok report) hostDetails).1.Trusted = true ↔
      ∃ v, lastValue report.Attribute "TRUST_OVERALL" = some v ∧ ParseBool v = .ok true) ∧
    ((∀ a ∈ report.Attribute, a.Name ≠ "TRUST_OVERALL") →
      (FilterHostReports (.ok report) hostDetails).1.Trusted = false) ∧
    (∀ v, lastValue report.Attribute "TRUST_OVERALL" = some v → ParseBool v ≠ .ok true →
      (FilterHostReports (.ok report) hostDetails).1.Trusted = false) := by
  have hiff : (FilterHostReports (.ok report) hostDetails).1.Trusted = true ↔
      ∃ v, lastValue report.Attribute "TRUST_OVERALL" = some v ∧ ParseBool v = .ok true := by
    rw [FilterHostReports_Trusted]
    cases hlast : lastValue report.Attribute "TRUST_OVERALL" with
    | none => simp
    | some v =>
      cases hparse : ParseBool v with
      | error e => simp [hparse]
      | ok b => cases b <;> simp [hparse]
  have honly : (FilterHostReports (.ok report) hostDetails).1.Trusted = true →
      ∃ a ∈ report.Attribute, a.Name = "TRUST_OVERALL" ∧
        ParseBool a.AttributeValue = .ok true := by
    intro htrue
    obtain ⟨v, hlast, hparse⟩ := hiff.1 htrue
    obtain ⟨a, ha, hname, hval⟩ := lastValue_mem hlast
    exact ⟨a, ha, hname, by rw [hval]; exact hparse⟩
  refine ⟨honly, hiff, ?_, ?_⟩
  · intro habsent
    cases htr : (FilterHostReports (.ok report) hostDetails).1.Trusted with
    | false => rfl
    | true =>
      obtain ⟨a, ha, hname, _⟩ := honly htr
      exact absurd hname (habsent a ha)
  · intro v hlast hnot
    cases htr : (FilterHostReports (.ok report) hostDetails).1.Trusted with
    | false => rfl
    | true =>
      obtain ⟨w, hw, hparse⟩ := hiff.1 htr
      rw [hlast] at hw
      cases hw
      exact absurd hparse hnot

/-- Counterexample to C20 as stated: the report gives the attribute `TRUST_OVERALL` twice,
first with the value false and then with the value true. The report has an attribute
`TRUST_OVERALL` that is false, and `Trusted` is true: the later assignment to the map
replaces the earlier one. -/
theorem filterHostReports_trusted_after_false_attribute :
    (∃ a ∈ falseThenTrueReport.Attribute, a.Name = "TRUST_OVERALL" ∧
      ParseBool a.AttributeValue = .ok false) ∧
    (FilterHostReports (.ok falseThenTrueReport) sampleHost).1.Trusted = true :=
  ⟨⟨⟨"TRUST_OVERALL", "false"⟩, by decide, rfl, rfl⟩, by decide⟩

/-! ## Envelope wrapping -/

/-- The body of the test without headers has no PEM markers, and the body of the test
without DER data has them. -/
theorem test_bodies_markers :
    hasPublicKeyMarkers headerlessBody = false ∧ hasPublicKeyMarkers emptyPemBody = true ∧
    hasPublicKeyMarkers validPemBody = true := by
  decide

/-- A body without the markers, or without DER data that decodes to a public key, is a
malformed wrapping key. -/
theorem parseWrappingKey_malformed {lib : WrapLib} {body : String}
    (h : hasPublicKeyMarkers body = false ∨ lib.decodePublicKey body = none) :
    parseWrappingKey lib body = .error .MalformedWrappingKey := by
  unfold parseWrappingKey
  rcases h with h | h
  · simp [h]
  · by_cases hm : hasPublicKeyMarkers body = true
    · simp [hm, h]
    · simp [hm]

/-- C11: for every existing key and every wrapping-key body presented to the public-key
transfer, if the body lacks the PEM BEGIN/END PUBLIC KEY markers, or has the markers but
no DER data that decodes to a public key, `Wrap` fails with `MalformedWrappingKey` and the
transfer answers 400 and returns no wrapped key. -/
theorem malformed_wrapping_key_rejected (lib : WrapLib) (k : KeyAttributes)
    (material : Except Nat Bytes) (rawKeyBytes : Bytes) (body : String)
    (h : hasPublicKeyMarkers body = false ∨ lib.decodePublicKey body = none) :
    Wrap lib rawKeyBytes (.publicKeyPem body) = .error .MalformedWrappingKey ∧
    TransferWithPublicKey lib (some k) material body = (400, none) := by
  have hparse := parseWrappingKey_malformed h
  constructor
  · simp [Wrap, hparse]
  · simp [TransferWithPublicKey, hparse]

/-- Witness of `malformed_wrapping_key_rejected`: the body of the test without DER data,
for the first key of the fake store. -/
theorem malformed_wrapping_key_rejected_witness :
    (hasPublicKeyMarkers emptyPemBody = false ∨
      sampleWrapLib.decodePublicKey emptyPemBody = none) ∧
    Wrap sampleWrapLib [1, 2, 3] (.publicKeyPem emptyPemBody) = .error .MalformedWrappingKey ∧
    TransferWithPublicKey sampleWrapLib (some sampleAES) (.ok [1, 2, 3]) emptyPemBody
      = (400, none) :=
  have h : hasPublicKeyMarkers emptyPemBody = false ∨
      sampleWrapLib.decodePublicKey emptyPemBody = none := Or.inr (by decide)
  have hc := malformed_wrapping_key_rejected sampleWrapLib sampleAES (.ok [1, 2, 3])
    [1, 2, 3] emptyPemBody h
  ⟨h, hc.1, hc.2⟩

/-- A well-formed wrapping key releases the wrapped key of an existing key. -/
theorem valid_wrapping_key_transfers :
    TransferWithPublicKey sampleWrapLib (some sampleAES) (.ok [1, 2, 3]) validPemBody
      = (200, some [48, 130, 1, 2, 3]) ∧
    TransferWithPublicKey sampleWrapLib none (.ok [1, 2, 3]) validPemBody = (404, none) := by
  decide

/-! ## Assertion verification -/

/-- C12: for every signed assertion and every set of trusted issuer certificates, if no
certificate of the set verifies the signature of the assertion, `Verify` fails with
`UntrustedSigner` and the assertion-based transfer is denied with 401 and no key
material, whatever attributes the assertion carries, whatever the policy and whatever
fetching and wrapping the key would give. -/
theorem untrusted_signer_rejected (lib : VerifyLib) (now : Time) (assertionBytes : Bytes)
    (trusted : List Bytes) (assertion : Assertion) (signature : Bytes)
    (policyRef : Option UUID) (policy : Option TransferPolicy) (release : Except Nat Bytes)
    (hparse : lib.parse assertionBytes = some assertion)
    (hsigned : assertion.signature = some signature)
    (hnone : ∀ certificate ∈ trusted, lib.verifies certificate assertion = false) :
    Verify lib now assertionBytes trusted = .error .UntrustedSigner ∧
    TransferWithAssertion policyRef policy (Verify lib now assertionBytes trusted) release
      = (401, none) := by
  have hany : trusted.any (fun certificate => lib.verifies certificate assertion) = false := by
    rw [List.any_eq_false]
    intro c hc
    simp [hnone c hc]
  have hverify : Verify lib now assertionBytes trusted = .error .UntrustedSigner := by
    simp [Verify, hparse, hsigned, hany]
  exact ⟨hverify, by rw [hverify]; rfl⟩

/-- Witness of `untrusted_signer_rejected`: the sample assertion against a trusted set
that lacks the certificate of its signer, for a key without policy that could be
released. -/
theorem untrusted_signer_rejected_witness :
    sampleVerifyLib.parse [1] = some sampleAssertion ∧
    sampleAssertion.signature = some [9, 9] ∧
    (∀ certificate ∈ [[5], [6]], sampleVerifyLib.verifies certificate sampleAssertion = false) ∧
    Verify sampleVerifyLib 50 [1] [[5], [6]] = .error .UntrustedSigner ∧
    TransferWithAssertion none none (Verify sampleVerifyLib 50 [1] [[5], [6]]) (.ok [1, 2, 3])
      = (401, none) :=
  have h3 : ∀ certificate ∈ [[5], [6]],
      sampleVerifyLib.verifies certificate sampleAssertion = false := by decide
  have h := untrusted_signer_rejected sampleVerifyLib 50 [1] [[5], [6]] sampleAssertion [9, 9]
    none none (.ok [1, 2, 3]) rfl rfl h3
  ⟨rfl, rfl, h3, h.1, h.2⟩

/-- With the certificate of the signer in the trusted set, the sample assertion is
verified and the key without policy is released. -/
theorem trusted_signer_accepted :
    TransferWithAssertion none none (Verify sampleVerifyLib 50 [1] [[5], [7]]) (.ok [1, 2, 3])
      = (200, some [1, 2, 3]) ∧
    Verify sampleVerifyLib 100 [1] [[5], [7]] = .error .Expired := by
  constructor <;> rfl

/-! ## The session-based transfer -/

/-- The model of `TransferApplicationKey` answers the cases of `skc_controller_test.go`
that lack a header with the status that the test expects. For the remaining case, the
request with both headers after a session request that was answered 400 (lines 75-108),
the test expects 500, while the spec (section 6, and scenario E of section 8) and the
model give 401. -/
theorem TransferApplicationKey_agrees_with_tests
    (sessionPath : String → String → Nat × Option Bytes) :
    (∀ c ∈ skcTransferCases,
      c.request.acceptChallenge = none ∨ c.request.sessionId = none →
      (TransferApplicationKey (fun _ => c.sessionEstablished) sessionPath c.request).1
        = c.expected) ∧
    unknownSessionCase ∈ skcTransferCases ∧
    unknownSessionCase.expected = 500 ∧
    (TransferApplicationKey (fun _ => unknownSessionCase.sessionEstablished) sessionPath
      unknownSessionCase.request).1 = 401 := by
  refine ⟨?_, by decide, rfl, rfl⟩
  intro c hc hmiss
  simp only [skcTransferCases, List.mem_cons, List.mem_singleton, List.not_mem_nil,
    or_false] at hc
  rcases hc with rfl | rfl | rfl
  · simp at hmiss
  · rfl
  · rfl

/-- C13: for every request to `GET /keys/{id}/dhsm2-transfer` that carries no
`Accept-Challenge` header, the response is 400, whether or not a `Session-Id` header is
present and whatever it contains. -/
theorem missing_accept_challenge_rejected (established : String → Bool)
    (sessionPath : String → String → Nat × Option Bytes) (req : Dhsm2Request)
    (h : req.acceptChallenge = none) :
    TransferApplicationKey established sessionPath req = (400, none) := by
  simp [TransferApplicationKey, h]

/-- Witness of `missing_accept_challenge_rejected`: the request of the test without
`Accept-Challenge`, which carries a `Session-Id`. -/
theorem missing_accept_challenge_rejected_witness :
    missingChallengeCase.request.acceptChallenge = none ∧
    missingChallengeCase ∈ skcTransferCases ∧
    TransferApplicationKey (fun _ => true) (fun _ _ => (200, some [1]))
      missingChallengeCase.request = (400, none) :=
  ⟨rfl, by decide,
    missing_accept_challenge_rejected (fun _ => true) (fun _ _ => (200, some [1]))
      missingChallengeCase.request rfl⟩

/-- C14: for every request to `GET /keys/{id}/dhsm2-transfer` that carries an
`Accept-Challenge` header, if the `Session-Id` header is missing, or names a session that
was never established, the response is 401 and carries no key. -/
theorem session_header_checked (established : String → Bool)
    (sessionPath : String → String → Nat × Option Bytes) (req : Dhsm2Request)
    (challengeType : String) (h : req.acceptChallenge = some challengeType)
    (hs : req.sessionId = none ∨
      ∃ sessionID, req.sessionId = some sessionID ∧ established sessionID = false) :
    TransferApplicationKey established sessionPath req = (401, none) := by
  rcases hs with hs | ⟨sessionID, hs, he⟩
  · simp [TransferApplicationKey, h, hs]
  · simp [TransferApplicationKey, h, hs, he]

/-- Witness of `session_header_checked`: the request of the test without `Session-Id`,
and a request whose `Session-Id` names a session that was never established, with a
session path that would answer 200 for an established session. -/
theorem session_header_checked_witness :
    (missingSessionCase.request.acceptChallenge = some "SGX" ∧
      missingSessionCase ∈ skcTransferCases ∧
      TransferApplicationKey (fun _ => false) (fun _ _ => (200, some [1]))
        missingSessionCase.request = (401, none)) ∧
    (unknownSessionCase.request.sessionId = some "SGX:14cfced1-03ee-4a68-8b50-6d456423b078" ∧
      TransferApplicationKey (fun id => decide (id = "SGX:established"))
        (fun _ _ => (200, some [1])) unknownSessionCase.request = (401, none)) :=
  ⟨⟨rfl, by decide,
      session_header_checked (fun _ => false) (fun _ _ => (200, some [1]))
        missingSessionCase.request "SGX" rfl (Or.inl rfl)⟩,
    ⟨rfl,
      session_header_checked (fun id => decide (id = "SGX:established"))
        (fun _ _ => (200, some [1])) unknownSessionCase.request "SGX" rfl
        (Or.inr ⟨_, rfl, by decide⟩)⟩⟩

/-! ## The session manager -/

/-- The four outcomes of `Consume` on a session that the table holds. -/
theorem Consume_of_lookup {table : SessionTable} {sessionID : String} {s : Session}
    (hl : table.lookup sessionID = some s) (now : Time) (challengeType : String) :
    (s.expired now = true ∧ Consume table now sessionID challengeType
      = (table, .error .SessionExpired)) ∨
    (s.consumed = true ∧ Consume table now sessionID challengeType
      = (table, .error .SessionExpired)) ∨
    (Consume table now sessionID challengeType
      = (table, .error .ChallengeTypeMismatch)) ∨
    (s.expired now = false ∧ s.consumed = false ∧ s.challengeType = challengeType ∧
      Consume table now sessionID challengeType
        = (table.insert sessionID { s with consumed := true }, .ok (s.facts, s.key))) := by
  cases he : s.expired now with
  | true => exact Or.inl ⟨rfl, by simp [Consume, hl, he]⟩
  | false =>
    cases hc : s.consumed with
    | true => exact Or.inr (Or.inl ⟨rfl, by simp [Consume, hl, he, hc]⟩)
    | false =>
      by_cases hm : s.challengeType = challengeType
      · exact Or.inr (Or.inr (Or.inr ⟨rfl, rfl, hm, by simp [Consume, hl, he, hc, hm]⟩))
      · exact Or.inr (Or.inr (Or.inl (by simp [Consume, hl, he, hc, hm])))

/-- A `Consume` of a session that is held and marked consumed fails with
`SessionExpired`, whatever the time and the challenge type, and leaves the table as it
is. -/
theorem Consume_of_spent {table : SessionTable} {id : String} (hspent : spent table id)
    (now : Time) (challengeType : String) :
    Consume table now id challengeType = (table, .error .SessionExpired) := by
  obtain ⟨s, hl, hc⟩ := hspent
  rcases Consume_of_lookup hl now challengeType with
    ⟨_, hcons⟩ | ⟨_, hcons⟩ | hcons | ⟨_, hc', _, _⟩
  · exact hcons
  · exact hcons
  · unfold Consume at hcons ⊢
    by_cases he : s.expired now = true
    · simp [hl, he]
    · simp [hl, he, hc]
  · rw [hc] at hc'
    cases hc'

/-- A session that is held and marked consumed stays so through any call of `Consume`. -/
theorem Consume_keeps_spent {table : SessionTable} {id : String} (hspent : spent table id)
    (now : Time) (sessionID challengeType : String) :
    spent (Consume table now sessionID challengeType).1 id := by
  cases hl : table.lookup sessionID with
  | none =>
    have hcons : Consume table now sessionID challengeType
        = (table, .error .SessionNotFound) := by simp [Consume, hl]
    rw [hcons]
    exact hspent
  | some s =>
    rcases Consume_of_lookup hl now challengeType with
      ⟨_, hcons⟩ | ⟨_, hcons⟩ | hcons | ⟨_, _, _, hcons⟩
    · rw [hcons]; exact hspent
    · rw [hcons]; exact hspent
    · rw [hcons]; exact hspent
    · rw [hcons]
      by_cases hid : id = sessionID
      · exact ⟨{ s with consumed := true }, by rw [hid, AList.lookup_insert], rfl⟩
      · obtain ⟨s', hs', hc'⟩ := hspent
        exact ⟨s', by rw [AList.lookup_insert_ne hid]; exact hs', hc'⟩

/-- A successful `Consume` leaves the session held and marked consumed. -/
theorem Consume_ok_spends {table : SessionTable} {id : String} {now : Time}
    {challengeType : String} {x : AttestationFacts × Bytes}
    (hok : (Consume table now id challengeType).2 = .ok x) :
    spent (Consume table now id challengeType).1 id := by
  cases hl : table.lookup id with
  | none =>
    have hcons : Consume table now id challengeType
        = (table, .error .SessionNotFound) := by simp [Consume, hl]
    rw [hcons] at hok
    exact absurd hok (by simp)
  | some s =>
    rcases Consume_of_lookup hl now challengeType with
      ⟨_, hcons⟩ | ⟨_, hcons⟩ | hcons | ⟨_, _, _, hcons⟩
    · rw [hcons] at hok
      exact absurd hok (by simp)
    · rw [hcons] at hok
      exact absurd hok (by simp)
    · rw [hcons] at hok
      exact absurd hok (by simp)
    · rw [hcons]
      exact ⟨{ s with consumed := true }, by rw [AList.lookup_insert], rfl⟩

/-- From a table in which the session is held and marked consumed, every call of a
sequence for that session id fails with `SessionExpired`. -/
theorem ConsumeAll_fails_of_spent (id : String) :
    ∀ (calls : List ConsumeCall) (table : SessionTable), spent table id →
      ∀ entry ∈ calls.zip (ConsumeAll table calls).2, entry.1.sessionID = id →
        entry.2 = .error .SessionExpired := by
  intro calls
  induction calls with
  | nil => intro table _ entry hmem; simp [ConsumeAll] at hmem
  | cons call rest ih =>
    intro table hspent entry hmem hid
    simp only [ConsumeAll, List.zip_cons_cons, List.mem_cons] at hmem
    rcases hmem with rfl | hmem
    · simp only at hid ⊢
      rw [hid, Consume_of_spent hspent]
    · exact ih _ (Consume_keeps_spent hspent _ _ _) entry hmem hid

/-- No call for a session that is held and marked consumed counts as a success. -/
theorem filter_consumedOk_of_spent (id : String) (calls : List ConsumeCall)
    (table : SessionTable) (hspent : spent table id) :
    (calls.zip (ConsumeAll table calls).2).filter (consumedOk id) = [] := by
  rw [List.filter_eq_nil_iff]
  intro entry hmem hok
  unfold consumedOk at hok
  simp only [Bool.and_eq_true, decide_eq_true_eq] at hok
  rw [ConsumeAll_fails_of_spent id calls table hspent entry hmem hok.1] at hok
  simp at hok

/-- In every sequence of `Consume` calls at most one call for a given session id
succeeds. -/
theorem ConsumeAll_successes_le_one (id : String) :
    ∀ (calls : List ConsumeCall) (table : SessionTable),
      ((calls.zip (ConsumeAll table calls).2).filter (consumedOk id)).length ≤ 1 := by
  intro calls
  induction calls with
  | nil => intro table; simp [ConsumeAll]
  | cons call rest ih =>
    intro table
    simp only [ConsumeAll, List.zip_cons_cons]
    by_cases hhead : consumedOk id
        (call, (Consume table call.now call.sessionID call.challengeType).2) = true
    · rw [List.filter_cons_of_pos hhead]
      have hparts := hhead
      unfold consumedOk at hparts
      simp only [Bool.and_eq_true, decide_eq_true_eq] at hparts
      obtain ⟨hid, hres⟩ := hparts
      cases hr : (Consume table call.now call.sessionID call.challengeType).2 with
      | error e => simp [hr] at hres
      | ok x =>
        rw [hid] at hr
        have hspent := Consume_ok_spends hr
        rw [hid, filter_consumedOk_of_spent id rest _ hspent]
        simp
    · rw [List.filter_cons_of_neg hhead]
      exact ih _

/-- C15: a session is usable at most once. For every session table, every sequence of
`Consume` calls and every session id, at most one `Consume` of that id succeeds; and
after a successful `Consume` of the id, every `Consume` of the id in any sequence of
calls that follows fails, with the same failure on every repeat, `SessionExpired`,
whatever the time and the challenge type of the repeat. -/
theorem session_consumed_at_most_once (table : SessionTable) (calls : List ConsumeCall)
    (id : String) :
    ((calls.zip (ConsumeAll table calls).2).filter (consumedOk id)).length ≤ 1 ∧
    (∀ (now : Time) (challengeType : String) (x : AttestationFacts × Bytes),
      (Consume table now id challengeType).2 = .ok x →
      ∀ entry ∈ calls.zip (ConsumeAll (Consume table now id challengeType).1 calls).2,
        entry.1.sessionID = id → entry.2 = .error .SessionExpired) := by
  refine ⟨ConsumeAll_successes_le_one id calls table, ?_⟩
  intro now challengeType x hok
  exact ConsumeAll_fails_of_spent id calls _ (Consume_ok_spends hok)

/-- The theorem at the sample table: the session `s1` is consumed at the instant 1, and
the repeats at the instants 2, 20 and 21, the last two after its TTL has elapsed, fail
with `SessionExpired` each. -/
theorem session_consumed_at_most_once_witness :
    ((ConsumeAll sampleTable repeatedCalls).2.map fun result =>
      match result with
      | .ok _ => none
      | .error e => some e)
      = [none, some .SessionExpired, some .SessionExpired, some .SessionExpired] ∧
    ((repeatedCalls.zip (ConsumeAll sampleTable repeatedCalls).2).filter
      (consumedOk "s1")).length ≤ 1 :=
  ⟨by decide, (session_consumed_at_most_once sampleTable repeatedCalls "s1").1⟩

/-! ## Key creation and registration -/

/-- A request with an unsupported key specification is rejected before anything else. -/
theorem CreateOrRegister_invalid {sup : KeySpecSupport}
    {policies : AList (fun _ : UUID => TransferPolicy)} {backend : Except CreateError String}
    {newId : UUID} {now : Time} {link : String} {store : MockKeyStore} {req : KeyRequest}
    (h : invalidKeySpec sup req.KeyInformation = true) :
    CreateOrRegister sup policies backend newId now link store req
      = (store, .error .InvalidKeySpec) := by
  simp [CreateOrRegister, h]

/-- A request with a supported key specification whose transfer policy id does not
resolve is rejected with `PolicyNotFound`, and the key store is left as it was. The spec
does not say which failure a request gets that has both an unsupported key specification
and a policy id that does not resolve; `CreateOrRegister` checks the key specification
first, so such a request gets `InvalidKeySpec`. -/
theorem CreateOrRegister_unresolved_policy (sup : KeySpecSupport)
    (policies : AList (fun _ : UUID => TransferPolicy)) (backend : Except CreateError String)
    (newId : UUID) (now : Time) (link : String) (store : MockKeyStore) (req : KeyRequest)
    (policyId : UUID) (href : req.TransferPolicyID = some policyId)
    (hnone : policies.lookup policyId = none)
    (hv : invalidKeySpec sup req.KeyInformation = false) :
    CreateOrRegister sup policies backend newId now link store req
      = (store, .error .PolicyNotFound) := by
  simp [CreateOrRegister, hv, href, hnone]

/-- The request of the test with a policy id that the policy store does not hold, on the
fake key store: rejected with `PolicyNotFound`. -/
theorem CreateOrRegister_unknownPolicyRequest :
    unknownPolicyRequest.TransferPolicyID = some unknownPolicyId ∧
    samplePolicies.lookup unknownPolicyId = none ∧
    CreateOrRegister sampleSupport samplePolicies (.ok "1") ⟨5⟩ 0 "" (NewFakeKeyStore 0 0 0 0)
      unknownPolicyRequest = (NewFakeKeyStore 0 0 0 0, .error .PolicyNotFound) :=
  have h2 : samplePolicies.lookup unknownPolicyId = none := by decide
  ⟨rfl, h2,
    CreateOrRegister_unresolved_policy sampleSupport samplePolicies (.ok "1") ⟨5⟩ 0 ""
      (NewFakeKeyStore 0 0 0 0) unknownPolicyRequest unknownPolicyId rfl h2 (by decide)⟩

/-- A request with both defects, the unsupported algorithm of one test and the policy id
of the other that the policy store does not hold, gets `InvalidKeySpec`. -/
theorem CreateOrRegister_doublyInvalidRequest :
    doublyInvalidRequest.TransferPolicyID = some unknownPolicyId ∧
    samplePolicies.lookup unknownPolicyId = none ∧
    CreateOrRegister sampleSupport samplePolicies (.ok "1") ⟨5⟩ 0 "" (NewFakeKeyStore 0 0 0 0)
      doublyInvalidRequest = (NewFakeKeyStore 0 0 0 0, .error .InvalidKeySpec) :=
  ⟨rfl, by decide, CreateOrRegister_invalid (by decide)⟩

/-- C17: for every create request whose key_information has a missing or unsupported
algorithm, or (for a symmetric or RSA algorithm) a missing or unsupported key length, or
(for EC) a missing or unsupported curve type, the request fails with `InvalidKeySpec`,
which is reported as 400, and no key record is added to the key store. -/
theorem invalid_key_spec_rejected (sup : KeySpecSupport)
    (policies : AList (fun _ : UUID => TransferPolicy)) (backend : Except CreateError String)
    (newId : UUID) (now : Time) (link : String) (store : MockKeyStore) (req : KeyRequest)
    (h : req.KeyInformation.Algorithm = "" ∨
      sup.family req.KeyInformation.Algorithm = none ∨
      ((sup.family req.KeyInformation.Algorithm = some .symmetric ∨
          sup.family req.KeyInformation.Algorithm = some .rsa) ∧
        (req.KeyInformation.KeyLength = 0 ∨
          sup.lengthSupported req.KeyInformation.Algorithm req.KeyInformation.KeyLength
            = false)) ∨
      (sup.family req.KeyInformation.Algorithm = some .ec ∧
        (req.KeyInformation.CurveType = "" ∨
          sup.curveSupported req.KeyInformation.CurveType = false))) :
    CreateOrRegister sup policies backend newId now link store req
      = (store, .error .InvalidKeySpec) ∧
    createErrorStatus .InvalidKeySpec = some 400 := by
  refine ⟨CreateOrRegister_invalid ?_, rfl⟩
  unfold invalidKeySpec
  rcases h with h | h | ⟨hf, hl⟩ | ⟨hf, hc⟩
  · simp [h]
  · simp [h]
  · rcases hf with hf | hf <;> rcases hl with hl | hl <;> simp [hf, hl]
  · rcases hc with hc | hc <;> simp [hf, hc]

/-- Witness of `invalid_key_spec_rejected`: the request of the test with the algorithm
XYZ, on the fake key store. -/
theorem invalid_key_spec_rejected_witness :
    (invalidAlgorithmRequest.KeyInformation.Algorithm = "" ∨
      sampleSupport.family invalidAlgorithmRequest.KeyInformation.Algorithm = none ∨
      ((sampleSupport.family invalidAlgorithmRequest.KeyInformation.Algorithm
            = some .symmetric ∨
          sampleSupport.family invalidAlgorithmRequest.KeyInformation.Algorithm
            = some .rsa) ∧
        (invalidAlgorithmRequest.KeyInformation.KeyLength = 0 ∨
          sampleSupport.lengthSupported invalidAlgorithmRequest.KeyInformation.Algorithm
            invalidAlgorithmRequest.KeyInformation.KeyLength = false)) ∨
      (sampleSupport.family invalidAlgorithmRequest.KeyInformation.Algorithm = some .ec ∧
        (invalidAlgorithmRequest.KeyInformation.CurveType = "" ∨
          sampleSupport.curveSupported invalidAlgorithmRequest.KeyInformation.CurveType
            = false))) ∧
    CreateOrRegister sampleSupport samplePolicies (.ok "1") ⟨5⟩ 0 "" (NewFakeKeyStore 0 0 0 0)
      invalidAlgorithmRequest = (NewFakeKeyStore 0 0 0 0, .error .InvalidKeySpec) :=
  have h : sampleSupport.family invalidAlgorithmRequest.KeyInformation.Algorithm = none := by
    decide
  ⟨Or.inr (Or.inl h),
    (invalid_key_spec_rejected sampleSupport samplePolicies (.ok "1") ⟨5⟩ 0 ""
      (NewFakeKeyStore 0 0 0 0) invalidAlgorithmRequest (Or.inr (Or.inl h))).1⟩

/-- The requests of the three tests on invalid key information have an unsupported key
specification in the sample of supported specifications, and the request of the valid
test (AES with 256 bits) has a supported one and adds its record to the store. -/
theorem tested_key_specs :
    invalidKeySpec sampleSupport invalidAlgorithmRequest.KeyInformation = true ∧
    invalidKeySpec sampleSupport invalidLengthRequest.KeyInformation = true ∧
    invalidKeySpec sampleSupport invalidCurveRequest.KeyInformation = true ∧
    invalidKeySpec sampleSupport
      { Algorithm := "AES", KeyLength := 256, CurveType := "", KeyString := "",
        KmipKeyID := "" } = false ∧
    (CreateOrRegister sampleSupport samplePolicies (.ok "1") ⟨5⟩ 0 "" (NewFakeKeyStore 0 0 0 0)
      { KeyInformation :=
          { Algorithm := "AES", KeyLength := 256, CurveType := "", KeyString := "",
            KmipKeyID := "" }
        TransferPolicyID := none }).1.records.length = 5 := by
  decide

/-! ## The key search request -/

/-- A query parameter with an unknown name or a malformed value is an error, whatever the
criteria built so far. -/
theorem applyQueryParam_error {v : QueryValidators} {name value : String}
    (h : (name ≠ "algorithm" ∧ name ≠ "keyLength" ∧ name ≠ "curveType" ∧
        name ≠ "transferPolicyId") ∨
      (name = "keyLength" ∧ v.parseInt value = none) ∨
      (name = "transferPolicyId" ∧ v.parseUUID value = none) ∨
      ((name = "algorithm" ∨ name = "curveType") ∧ v.allowedString value = false))
    (criteria : KeyFilterCriteria) :
    ∃ e, applyQueryParam v criteria name value = .error e := by
  unfold applyQueryParam
  rcases h with ⟨h1, h2, h3, h4⟩ | ⟨hn, hp⟩ | ⟨hn, hp⟩ | ⟨hn, hp⟩
  · exact ⟨"Invalid query parameter provided", by simp [h1, h2, h3, h4]⟩
  · subst hn
    exact ⟨"Invalid keyLength query param value, must be Integer", by simp [hp]⟩
  · subst hn
    exact ⟨"Invalid transferPolicyId query param value, must be UUID", by simp [hp]⟩
  · rcases hn with hn | hn
    · subst hn
      exact ⟨"Valid contents for algorithm must be specified", by simp [hp]⟩
    · subst hn
      exact ⟨"Valid contents for curveType must be specified", by simp [hp]⟩

/-- A query with a parameter that is an error from every criteria is an error. -/
theorem getKeyFilterCriteria_error {v : QueryValidators} {name value : String}
    (hbad : ∀ criteria, ∃ e, applyQueryParam v criteria name value = .error e) :
    ∀ (params : List (String × String)) (criteria : KeyFilterCriteria),
      (name, value) ∈ params → ∃ e, getKeyFilterCriteria v params criteria = .error e := by
  intro params
  induction params with
  | nil => intro criteria hmem; simp at hmem
  | cons p rest ih =>
    intro criteria hmem
    obtain ⟨n, val⟩ := p
    cases hhead : applyQueryParam v criteria n val with
    | error e => exact ⟨e, by simp [getKeyFilterCriteria, hhead]⟩
    | ok next =>
      rcases List.mem_cons.mp hmem with heq | htail
      · obtain ⟨e, he⟩ := hbad criteria
        have hn : name = n := (Prod.mk.inj heq).1
        have hv : value = val := (Prod.mk.inj heq).2
        rw [hn, hv, hhead] at he
        exact absurd he (by simp)
      · obtain ⟨e, he⟩ := ih next htail
        exact ⟨e, by simp [getKeyFilterCriteria, hhead, he]⟩

/-- C18: for every key search request, a query parameter whose name is not one of
algorithm, keyLength, curveType, transferPolicyId, or a known parameter whose value is
malformed (a keyLength that is not an integer, a transferPolicyId that is not a UUID, an
algorithm or a curveType with disallowed characters), makes the search fail with 400 and
return no list. -/
theorem malformed_query_rejected (v : QueryValidators) (records : List KeyAttributes)
    (params : List (String × String))
    (h : ∃ p ∈ params,
      (p.1 ≠ "algorithm" ∧ p.1 ≠ "keyLength" ∧ p.1 ≠ "curveType" ∧
        p.1 ≠ "transferPolicyId") ∨
      (p.1 = "keyLength" ∧ v.parseInt p.2 = none) ∨
      (p.1 = "transferPolicyId" ∧ v.parseUUID p.2 = none) ∨
      ((p.1 = "algorithm" ∨ p.1 = "curveType") ∧ v.allowedString p.2 = false)) :
    SearchKeys v records params = (400, none) := by
  obtain ⟨⟨name, value⟩, hmem, hbad⟩ := h
  obtain ⟨e, he⟩ := getKeyFilterCriteria_error (fun c => applyQueryParam_error hbad c)
    params KeyFilterCriteria.zero hmem
  simp [SearchKeys, he]

/-- Witness of `malformed_query_rejected`: the query `badparam=value` of the test with an
unknown query parameter, after a valid filter. -/
theorem malformed_query_rejected_witness :
    (∃ p ∈ [("algorithm", "AES"), ("badparam", "value")],
      (p.1 ≠ "algorithm" ∧ p.1 ≠ "keyLength" ∧ p.1 ≠ "curveType" ∧
        p.1 ≠ "transferPolicyId") ∨
      (p.1 = "keyLength" ∧ sampleValidators.parseInt p.2 = none) ∨
      (p.1 = "transferPolicyId" ∧ sampleValidators.parseUUID p.2 = none) ∨
      ((p.1 = "algorithm" ∨ p.1 = "curveType") ∧ sampleValidators.allowedString p.2 = false)) ∧
    SearchKeys sampleValidators (NewFakeKeyStore 0 0 0 0).records
      [("algorithm", "AES"), ("badparam", "value")] = (400, none) :=
  have h : ∃ p ∈ [("algorithm", "AES"), ("badparam", "value")],
      (p.1 ≠ "algorithm" ∧ p.1 ≠ "keyLength" ∧ p.1 ≠ "curveType" ∧
        p.1 ≠ "transferPolicyId") ∨
      (p.1 = "keyLength" ∧ sampleValidators.parseInt p.2 = none) ∨
      (p.1 = "transferPolicyId" ∧ sampleValidators.parseUUID p.2 = none) ∨
      ((p.1 = "algorithm" ∨ p.1 = "curveType") ∧ sampleValidators.allowedString p.2 = false) :=
    ⟨("badparam", "value"), by decide, Or.inl (by decide)⟩
  ⟨h, malformed_query_rejected sampleValidators (NewFakeKeyStore 0 0 0 0).records _ h⟩

/-- The queries of the search tests on the fake store: the malformed values are answered
400 without a list, the valid filters 200 with two, two, one and three keys. -/
theorem tested_queries :
    SearchKeys sampleValidators (NewFakeKeyStore 0 0 0 0).records [("algorithm", "AE$")]
      = (400, none) ∧
    SearchKeys sampleValidators (NewFakeKeyStore 0 0 0 0).records [("keyLength", "abc")]
      = (400, none) ∧
    SearchKeys sampleValidators (NewFakeKeyStore 0 0 0 0).records [("curveType", "primev!")]
      = (400, none) ∧
    SearchKeys sampleValidators (NewFakeKeyStore 0 0 0 0).records
      [("transferPolicyId", "e57e5ea0-d465-461e-882d-")] = (400, none) ∧
    ((SearchKeys sampleValidators (NewFakeKeyStore 0 0 0 0).records
      [("algorithm", "AES")]).2.map List.length) = some 2 ∧
    ((SearchKeys sampleValidators (NewFakeKeyStore 0 0 0 0).records
      [("keyLength", "256")]).2.map List.length) = some 2 ∧
    ((SearchKeys sampleValidators (NewFakeKeyStore 0 0 0 0).records
      [("curveType", "prime256v1")]).2.map List.length) = some 1 ∧
    ((SearchKeys sampleValidators (NewFakeKeyStore 0 0 0 0).records
      [("transferPolicyId", "ee37c360-7eae-4250-a677-6ee12adce8e2")]).2.map List.length)
      = some 3 ∧
    ((SearchKeys sampleValidators (NewFakeKeyStore 0 0 0 0).records []).2.map List.length)
      = some 4 := by
  decide

/-! ## `GetHosts` -/

theorem isMaster_iff (n : NodeItem) : GetHosts.isMaster n.Taints = true ↔ n.hasMasterTaint := by
  unfold NodeItem.hasMasterTaint
  induction n.Taints with
  | nil => simp [GetHosts.isMaster]
  | cons t ts ih =>
    by_cases h : t.Key = "node-role.kubernetes.io/master"
    · simp [GetHosts.isMaster, h]
    · simp [GetHosts.isMaster, h, ih]

theorem visitAddress_foldl_HostIP (addrs : List NodeAddress) (hd : HostDetails) :
    (addrs.foldl GetHosts.visitAddress hd).HostIP =
      (((addrs.filter fun a => decide (a.AddrType = "InternalIP")).getLast?).map
        fun a => a.Address).getD hd.HostIP := by
  induction addrs using List.reverseRecOn with
  | nil => rfl
  | append_singleton as a ih =>
    rw [List.foldl_append, List.filter_append]
    by_cases h : a.AddrType = "InternalIP"
    · by_cases h2 : a.AddrType = "Hostname" <;>
      simp [GetHosts.visitAddress, h, h2, List.filter_cons, List.getLast?_append]
    · by_cases h2 : a.AddrType = "Hostname" <;>
      simp [GetHosts.visitAddress, h, h2, List.filter_cons, ih]

theorem visitAddress_foldl_HostName (addrs : List NodeAddress) (hd : HostDetails) :
    (addrs.foldl GetHosts.visitAddress hd).HostName =
      (((addrs.filter fun a => decide (a.AddrType = "Hostname")).getLast?).map
        fun a => a.Address).getD hd.HostName := by
  induction addrs using List.reverseRecOn with
  | nil => rfl
  | append_singleton as a ih =>
    rw [List.foldl_append, List.filter_append]
    by_cases h : a.AddrType = "InternalIP"
    · by_cases h2 : a.AddrType = "Hostname" <;>
      simp [GetHosts.visitAddress, h, h2, List.filter_cons, List.getLast?_append, ih]
    · by_cases h2 : a.AddrType = "Hostname" <;>
      simp [GetHosts.visitAddress, h, h2, List.filter_cons, List.getLast?_append, ih]

theorem visitAddress_foldl_HostID (addrs : List NodeAddress) (hd : HostDetails) :
    (addrs.foldl GetHosts.visitAddress hd).HostID = hd.HostID := by
  induction addrs generalizing hd with
  | nil => rfl
  | cons a as ih =>
    rw [List.foldl_cons, ih]
    unfold GetHosts.visitAddress
    by_cases h : a.AddrType = "InternalIP" <;> by_cases h2 : a.AddrType = "Hostname" <;>
      simp [h, h2]

theorem hostDetails_HostIP (uuidParse : String → UUID × Option GoError) (n : NodeItem) :
    (GetHosts.hostDetails uuidParse n).HostIP = n.InternalIP := by
  unfold GetHosts.hostDetails NodeItem.InternalIP
  rw [visitAddress_foldl_HostIP]; rfl

theorem hostDetails_HostName (uuidParse : String → UUID × Option GoError) (n : NodeItem) :
    (GetHosts.hostDetails uuidParse n).HostName = n.Hostname := by
  unfold GetHosts.hostDetails NodeItem.Hostname
  rw [visitAddress_foldl_HostName]; rfl

theorem hostDetails_HostID (uuidParse : String → UUID × Option GoError) (n : NodeItem) :
    (GetHosts.hostDetails uuidParse n).HostID = (uuidParse n.SystemID).1 := by
  unfold GetHosts.hostDetails
  rw [visitAddress_foldl_HostID]

theorem lastWorkerAt_eq (items : List NodeItem) (ip : String) :
    lastWorkerAt items ip =
      (items.filter fun n =>
        !GetHosts.isMaster n.Taints && decide (n.InternalIP = ip)).getLast? := by
  unfold lastWorkerAt
  congr 2
  funext n
  congr 1
  cases h : GetHosts.isMaster n.Taints with
  | true => simpa using (isMaster_iff n).1 h
  | false =>
    have : ¬ n.hasMasterTaint := fun hm => by
      rw [← isMaster_iff, h] at hm
      cases hm
    simpa using this

/-- The map after the loop of `GetHosts`: under each address, the details of the last
node that is not a master and has that InternalIP address. -/
theorem visitItem_foldl_lookup (uuidParse : String → UUID × Option GoError)
    (items : List NodeItem) (ip : String) :
    (items.foldl (GetHosts.visitItem uuidParse) ∅).lookup ip =
      (lastWorkerAt items ip).map (GetHosts.hostDetails uuidParse) := by
  induction items using List.reverseRecOn with
  | nil => rfl
  | append_singleton ns n ih =>
    rw [lastWorkerAt_eq] at ih ⊢
    rw [List.foldl_append, List.filter_append]
    cases hm : GetHosts.isMaster n.Taints with
    | true => simp [GetHosts.visitItem, hm, List.filter_cons, ih]
    | false =>
      by_cases hip : n.InternalIP = ip
      · simp [GetHosts.visitItem, hm, List.filter_cons, hip, hostDetails_HostIP,
          List.getLast?_append]
      · have hne : ip ≠ (GetHosts.hostDetails uuidParse n).HostIP := by
          rw [hostDetails_HostIP]; exact fun h => hip h.symm
        simp [GetHosts.visitItem, hm, List.filter_cons, hip, AList.lookup_insert_ne hne, ih]

/-- C22: for every node list, the map built by `GetHosts` holds no entry but those of
nodes without the master taint, each under the InternalIP address of its node; and for
every node without the master taint the map has an entry under that node's InternalIP
address (the empty string when it has none), which carries the host name and the parsed
system id of the last such node of the list with that InternalIP address. -/
theorem GetHosts_skips_masters_last_worker_wins (uuidParse : String → UUID × Option GoError)
    (items : List NodeItem) (HostDetailsMap0 : HostDetailsMap) :
    (GetHosts uuidParse (.ok items) HostDetailsMap0).2 = none ∧
    (∀ ip hd, (GetHosts uuidParse (.ok items) HostDetailsMap0).1.lookup ip = some hd →
      ∃ n ∈ items, ¬ n.hasMasterTaint ∧ n.InternalIP = ip ∧
        hd = GetHosts.hostDetails uuidParse n) ∧
    (∀ n ∈ items, ¬ n.hasMasterTaint →
      ∃ m hd, lastWorkerAt items n.InternalIP = some m ∧
        m ∈ items ∧ ¬ m.hasMasterTaint ∧ m.InternalIP = n.InternalIP ∧
        (GetHosts uuidParse (.ok items) HostDetailsMap0).1.lookup n.InternalIP = some hd ∧
        hd.HostIP = n.InternalIP ∧ hd.HostName = m.Hostname ∧
        hd.HostID = (uuidParse m.SystemID).1) := by
  have hmem : ∀ ip m, lastWorkerAt items ip = some m →
      m ∈ items ∧ ¬ m.hasMasterTaint ∧ m.InternalIP = ip := by
    intro ip m hm
    rw [lastWorkerAt_eq] at hm
    have h := List.mem_of_getLast?_eq_some hm
    rw [List.mem_filter] at h
    obtain ⟨h1, h2⟩ := h
    simp only [Bool.and_eq_true, Bool.not_eq_true', decide_eq_true_eq] at h2
    refine ⟨h1, ?_, h2.2⟩
    rw [← isMaster_iff, h2.1]; simp
  refine ⟨rfl, ?_, ?_⟩
  · intro ip hd h
    change (items.foldl (GetHosts.visitItem uuidParse) ∅).lookup ip = some hd at h
    rw [visitItem_foldl_lookup] at h
    cases hl : lastWorkerAt items ip with
    | none => rw [hl] at h; cases h
    | some m =>
      rw [hl] at h
      obtain ⟨h1, h2, h3⟩ := hmem ip m hl
      exact ⟨m, h1, h2, h3, (Option.some.inj h).symm⟩
  · intro n hn hnm
    have hne : (items.filter fun k =>
        !GetHosts.isMaster k.Taints && decide (k.InternalIP = n.InternalIP)) ≠ [] := by
      intro hnil
      have : n ∈ items.filter fun k =>
          !GetHosts.isMaster k.Taints && decide (k.InternalIP = n.InternalIP) := by
        rw [List.mem_filter]
        refine ⟨hn, ?_⟩
        have : GetHosts.isMaster n.Taints = false := by
          cases h : GetHosts.isMaster n.Taints with
          | false => rfl
          | true => exact absurd ((isMaster_iff n).1 h) hnm
        simp [this]
      rw [hnil] at this
      cases this
    cases hl : lastWorkerAt items n.InternalIP with
    | none =>
      rw [lastWorkerAt_eq, List.getLast?_eq_none_iff] at hl
      exact absurd hl hne
    | some m =>
      obtain ⟨h1, h2, h3⟩ := hmem _ m hl
      refine ⟨m, GetHosts.hostDetails uuidParse m, rfl, h1, h2, h3, ?_, ?_,
        hostDetails_HostName uuidParse m, hostDetails_HostID uuidParse m⟩
      · change (items.foldl (GetHosts.visitItem uuidParse) ∅).lookup n.InternalIP = _
        rw [visitItem_foldl_lookup, hl]; rfl
      · rw [hostDetails_HostIP, h3]

/-- The theorem at the sample node list: the entry under 10.0.0.2, the address of the
first worker, is that of the second worker, the last one at that address. -/
theorem GetHosts_skips_masters_last_worker_wins_witness :
    ∃ m hd, lastWorkerAt sampleNodes workerA.InternalIP = some m ∧
      m ∈ sampleNodes ∧ ¬ m.hasMasterTaint ∧ m.InternalIP = workerA.InternalIP ∧
      (GetHosts sampleUuidParse (.ok sampleNodes) ∅).1.lookup workerA.InternalIP = some hd ∧
      hd.HostIP = workerA.InternalIP ∧ hd.HostName = m.Hostname ∧
      hd.HostID = (sampleUuidParse m.SystemID).1 :=
  (GetHosts_skips_masters_last_worker_wins sampleUuidParse sampleNodes ∅).2.2 workerA
    (by decide) (by rw [← isMaster_iff]; decide)

/-- The sample node list evaluated: the map has exactly the entry of the second worker
under 10.0.0.2, and nothing under the address of the master. -/
theorem GetHosts_sampleNodes :
    ((GetHosts sampleUuidParse (.ok sampleNodes) ∅).1.lookup "10.0.0.2").map
        (fun hd => (hd.HostName, hd.HostID)) = some ("worker-b", ⟨1⟩) ∧
      ((GetHosts sampleUuidParse (.ok sampleNodes) ∅).1.lookup "10.0.0.1").isNone = true ∧
      (GetHosts sampleUuidParse (.ok sampleNodes) ∅).1.keys = ["10.0.0.2"] := by
  refine ⟨by decide, by decide, by decide⟩

/-! ## `SendDataToEndPoint` -/

/-- Whatever HVS answered, a host whose SHVS platform data does not unmarshal, or
unmarshals to a record with an EPC size that is not well formed, ends its iteration at a
`continue`: its map entry is neither written back nor removed. -/
theorem visitHost_skipped (vs : VerificationServices) (hostDetails : HostDetails)
    (sgxData : List PlatformDataSGX) (platformData : Bytes) (hs : vs.SHVSBaseURL ≠ "")
    (hget : vs.GetHostPlatformDataSGX (SendDataToEndPoint.askHVS vs hostDetails).1.HostName =
      .ok platformData)
    (hbad : (∃ err, (vs.jsonUnmarshal platformData sgxData).2 = some err) ∨
      ∃ sgxData0 rest, vs.jsonUnmarshal platformData sgxData = (sgxData0 :: rest, none) ∧
        vs.osRegexEpcSize sgxData0.EpcSize = false) :
    (SendDataToEndPoint.visitHost vs hostDetails sgxData).1 = .skipped := by
  unfold SendDataToEndPoint.visitHost
  rcases hpair : SendDataToEndPoint.askHVS vs hostDetails with ⟨hd, hvsFail⟩
  rw [hpair] at hget
  simp only [hs, ne_eq, not_false_eq_true, if_true]
  rw [hget]
  rcases hbad with ⟨err, he⟩ | ⟨d, rest, he, hr⟩
  · rcases hu : vs.jsonUnmarshal platformData sgxData with ⟨after, e⟩
    rw [hu] at he
    simp only at he
    subst he
    simp only [hu]
  · simp only [he, hr, Bool.not_false, if_true]

/-- The lemma at the sample host and the services that return an EPC size that is not
well formed. -/
theorem visitHost_skipped_sample :
    (SendDataToEndPoint.visitHost invalidEpcServices
      (GetHosts.hostDetails sampleUuidParse workerA) []).1 = .skipped :=
  visitHost_skipped invalidEpcServices _ [] [1] (by decide) rfl
    (Or.inr ⟨_, _, rfl, rfl⟩)

/-- Where both services return well formed data, the host is stored with the agent type
`both`. -/
theorem SendDataToEndPoint_bothServices :
    ∃ m, SendDataToEndPoint sampleUuidParse bothServices (.ok [workerA]) = .ok (some m) ∧
      (m.lookup "10.0.0.2").map (fun hd => (hd.AgentType, hd.EpcSize, hd.Trusted)) =
        some ("both", "93.5 MB", true) :=
  ⟨_, rfl, by decide⟩

/-- C21 at two hosts the code can receive. Host `workerA`, for which HVS returns a
report and SHVS returns platform data whose EPC size is not well formed, and the same
host when HVS has no report and the SHVS platform data does not unmarshal: in both runs
the iteration ends at its `continue`, so the host stays in the map with the details that
`GetHosts` gave it, the agent type empty (not `both`, and not `sgx`) and no trust data
of the report. -/
theorem SendDataToEndPoint_skipped_host_keeps_empty_AgentType :
    (∃ m, SendDataToEndPoint sampleUuidParse invalidEpcServices (.ok [workerA]) =
        .ok (some m) ∧
      (m.lookup "10.0.0.2").map (fun hd => (hd.AgentType, hd.Trusted, hd.ValidTo)) =
        some ("", false, 0)) ∧
    (∃ m, SendDataToEndPoint sampleUuidParse badJsonServices (.ok [workerA]) =
        .ok (some m) ∧
      (m.lookup "10.0.0.2").map (fun hd => hd.AgentType) = some "") :=
  ⟨⟨_, rfl, by decide⟩, ⟨_, rfl, by decide⟩⟩

/-! ## The `update-service-config` setup task -/

theorem HasSuffix_append_self (s suffix : String) : HasSuffix (s ++ suffix) suffix = true := by
  unfold HasSuffix
  rw [String.data_append, List.isSuffixOf_iff_suffix]
  exact List.suffix_append _ _

theorem Run_of_AAS (viper : ViperValues) (uc : UpdateServiceConfig) (AppConfig : Configuration)
    (h : uc.AASBaseUrl ≠ "") :
    (UpdateServiceConfig.Run viper uc AppConfig).2 = none ∧
      (UpdateServiceConfig.Run viper uc AppConfig).1.Server.Port =
        (if uc.ServerConfig.Port < 1024 ∨ uc.ServerConfig.Port > 65535 then uc.DefaultPort
          else uc.ServerConfig.Port) ∧
      (UpdateServiceConfig.Run viper uc AppConfig).1.APSBaseUrl =
        (if HasSuffix uc.APSBaseUrl "/" then uc.APSBaseUrl else uc.APSBaseUrl ++ "/") := by
  unfold UpdateServiceConfig.Run
  rw [if_neg h]
  refine ⟨rfl, ?_, ?_⟩
  · by_cases hp : uc.ServerConfig.Port < 1024 ∨ uc.ServerConfig.Port > 65535
    · simp only [hp, if_true]
    · simp only [hp, if_false]
  · by_cases hp : uc.ServerConfig.Port < 1024 ∨ uc.ServerConfig.Port > 65535 <;>
    cases hs : HasSuffix uc.APSBaseUrl "/" <;> simp [hp, hs]

/-- C23: with a non-empty `AASBaseUrl`, `Run` succeeds and the configuration afterwards
has the port of the task when it lies in 1024..65535 and `DefaultPort` otherwise, and
an `APSBaseUrl` that ends with a slash: the given value when it ends with one already,
the given value with one slash appended otherwise. With an empty `AASBaseUrl`, `Run`
fails and hands back the configuration as it was. -/
theorem Run_stores_port_and_APSBaseUrl (viper : ViperValues) (uc : UpdateServiceConfig)
    (AppConfig : Configuration) :
    (uc.AASBaseUrl ≠ "" →
      (UpdateServiceConfig.Run viper uc AppConfig).2 = none ∧
      (UpdateServiceConfig.Run viper uc AppConfig).1.Server.Port =
        (if 1024 ≤ uc.ServerConfig.Port ∧ uc.ServerConfig.Port ≤ 65535
          then uc.ServerConfig.Port else uc.DefaultPort) ∧
      HasSuffix (UpdateServiceConfig.Run viper uc AppConfig).1.APSBaseUrl "/" = true ∧
      (UpdateServiceConfig.Run viper uc AppConfig).1.APSBaseUrl =
        (if HasSuffix uc.APSBaseUrl "/" then uc.APSBaseUrl else uc.APSBaseUrl ++ "/")) ∧
    (uc.AASBaseUrl = "" →
      (UpdateServiceConfig.Run viper uc AppConfig).2 =
        some (.new "KBS configuration not provided: AAS_BASE_URL is not set") ∧
      (UpdateServiceConfig.Run viper uc AppConfig).1 = AppConfig) := by
  constructor
  · intro h
    obtain ⟨h1, h2, h3⟩ := Run_of_AAS viper uc AppConfig h
    refine ⟨h1, ?_, ?_, h3⟩
    · rw [h2]
      by_cases hp : uc.ServerConfig.Port < 1024 ∨ uc.ServerConfig.Port > 65535
      · have : ¬ (1024 ≤ uc.ServerConfig.Port ∧ uc.ServerConfig.Port ≤ 65535) := by omega
        rw [if_pos hp, if_neg this]
      · have : 1024 ≤ uc.ServerConfig.Port ∧ uc.ServerConfig.Port ≤ 65535 := by omega
        rw [if_neg hp, if_pos this]
    · rw [h3]
      cases hs : HasSuffix uc.APSBaseUrl "/" with
      | true => simpa using hs
      | false => simpa using HasSuffix_append_self uc.APSBaseUrl "/"
  · intro h
    unfold UpdateServiceConfig.Run
    rw [if_pos h]
    exact ⟨rfl, rfl⟩

/-- The theorem at the sample task, whose port 80 is replaced by the default port and
whose APS URL gets its slash, and at the task without an AAS URL. -/
theorem Run_stores_port_and_APSBaseUrl_witness :
    ((UpdateServiceConfig.Run sampleViper sampleTask blankConfig).2 = none ∧
      (UpdateServiceConfig.Run sampleViper sampleTask blankConfig).1.Server.Port =
        (if 1024 ≤ sampleTask.ServerConfig.Port ∧ sampleTask.ServerConfig.Port ≤ 65535
          then sampleTask.ServerConfig.Port else sampleTask.DefaultPort) ∧
      HasSuffix (UpdateServiceConfig.Run sampleViper sampleTask blankConfig).1.APSBaseUrl "/"
        = true ∧
      (UpdateServiceConfig.Run sampleViper sampleTask blankConfig).1.APSBaseUrl =
        (if HasSuffix sampleTask.APSBaseUrl "/" then sampleTask.APSBaseUrl
          else sampleTask.APSBaseUrl ++ "/")) ∧
    ((UpdateServiceConfig.Run sampleViper taskWithoutAAS blankConfig).2 =
        some (.new "KBS configuration not provided: AAS_BASE_URL is not set") ∧
      (UpdateServiceConfig.Run sampleViper taskWithoutAAS blankConfig).1 = blankConfig) :=
  ⟨(Run_stores_port_and_APSBaseUrl sampleViper sampleTask blankConfig).1 (by decide),
   (Run_stores_port_and_APSBaseUrl sampleViper taskWithoutAAS blankConfig).2 (by decide)⟩

/-- The sample task evaluated. -/
theorem Run_sampleTask :
    (UpdateServiceConfig.Run sampleViper sampleTask blankConfig).1.Server.Port = 9443 ∧
      (UpdateServiceConfig.Run sampleViper sampleTask blankConfig).1.APSBaseUrl =
        "https://aps.example:5443/aps/v1/" ∧
      (UpdateServiceConfig.Run sampleViper sampleTask blankConfig).1.KeyManager = "KMIP" := by
  decide

theorem allowedKeyManagers_lookup (s : String) :
    allowedKeyManagers.lookup s = none ↔ s ≠ "kmip" := by
  unfold allowedKeyManagers
  by_cases h : s = "kmip"
  · subst h
    rw [AList.lookup_insert]
    simp
  · rw [AList.lookup_insert_ne h, AList.lookup_empty]
    simp [h]

/-- C24: `Validate` returns an error exactly when `AASBaseUrl` is empty, or the
configured port is outside 1024..65535, or the configured log length is outside
`MinLogLengthLimit`..`MaxLogLengthLimit`, or the configured key manager in lower case is
not `kmip`; and the configuration afterwards is the configuration before. -/
theorem Validate_error_iff (constants : ValidateParams) (uc : UpdateServiceConfig)
    (AppConfig : Configuration) :
    ((∃ err, (UpdateServiceConfig.Validate constants uc AppConfig).2 = some err) ↔
      (uc.AASBaseUrl = "" ∨
        ¬ (1024 ≤ AppConfig.Server.Port ∧ AppConfig.Server.Port ≤ 65535) ∨
        ¬ (constants.MinLogLengthLimit ≤ AppConfig.Log.MaxLength ∧
            AppConfig.Log.MaxLength ≤ constants.MaxLogLengthLimit) ∨
        constants.ToLower AppConfig.KeyManager ≠ "kmip")) ∧
    (UpdateServiceConfig.Validate constants uc AppConfig).1 = AppConfig := by
  unfold UpdateServiceConfig.Validate
  by_cases h1 : uc.AASBaseUrl = ""
  · simp [h1]
  · rw [if_neg h1]
    by_cases h2 : AppConfig.Server.Port < 1024 ∨ AppConfig.Server.Port > 65535
    · rw [if_pos h2]
      refine ⟨⟨fun _ => Or.inr (Or.inl (by omega)), fun _ => ⟨_, rfl⟩⟩, rfl⟩
    · rw [if_neg h2]
      by_cases h3 : AppConfig.Log.MaxLength < constants.MinLogLengthLimit ∨
          AppConfig.Log.MaxLength > constants.MaxLogLengthLimit
      · rw [if_pos h3]
        refine ⟨⟨fun _ => Or.inr (Or.inr (Or.inl (by omega))), fun _ => ⟨_, rfl⟩⟩, rfl⟩
      · rw [if_neg h3]
        cases hl : allowedKeyManagers.lookup (constants.ToLower AppConfig.KeyManager) with
        | none =>
          refine ⟨⟨fun _ => Or.inr (Or.inr (Or.inr ((allowedKeyManagers_lookup _).1 hl))),
            fun _ => ⟨_, rfl⟩⟩, rfl⟩
        | some b =>
          refine ⟨⟨fun h => ?_, fun h => ?_⟩, rfl⟩
          · obtain ⟨e, he⟩ := h
            cases he
          · exfalso
            rcases h with h | h | h | h
            · exact h1 h
            · omega
            · omega
            · rw [(allowedKeyManagers_lookup _).2 h] at hl
              cases hl

/-- The validation evaluated on the configuration that the sample task leaves (accepted:
the key manager `KMIP` is lower-cased) and on the blank configuration (refused for its
port). -/
theorem Validate_samples :
    (UpdateServiceConfig.Validate sampleValidateParams sampleTask
        (UpdateServiceConfig.Run sampleViper sampleTask blankConfig).1).2 = none ∧
      (UpdateServiceConfig.Validate sampleValidateParams sampleTask blankConfig).2 =
        some (.new "Configured port is not valid") := by
  decide

/-! ## The report search -/

theorem appliedLimit_append_Limit (tx : Query) (limit : Int) :
    Query.appliedLimit (tx ++ [.Limit limit]) = some limit := by
  simp [Query.appliedLimit, List.foldl_append]

theorem appliedLimit_byId (tx : Query) (table query : String) (args : List SqlArg) :
    Query.appliedLimit ((tx ++ [.Model table]) ++ [.Where query args]) =
      Query.appliedLimit tx := by
  simp [Query.appliedLimit, List.foldl_append]

/-- The criteria that `Search` leaves behind the pointer are those of its plan. -/
theorem Search_criteria (lib : ReportLib) (store : ReportDb) (criteria : ReportFilterCriteria) :
    (ReportStore.Search lib store criteria).1 =
      (ReportStore.Search.plan lib store.Db criteria).criteria := by
  unfold ReportStore.Search
  dsimp only
  split
  · rfl
  · split
    · split <;> rfl
    · split <;> rfl

theorem plan_criteria_Limit (lib : ReportLib) (Db : Option Query)
    (criteria : ReportFilterCriteria) :
    (ReportStore.Search.plan lib Db criteria).criteria.Limit = newLimit criteria := by
  unfold ReportStore.Search.plan newLimit
  dsimp only
  split <;> split <;> simp_all

theorem plan_eq (lib : ReportLib) (Db : Option Query) (criteria : ReportFilterCriteria) :
    ReportStore.Search.plan lib Db criteria =
      if criteria.FromDate = 0 ∧ criteria.ToDate = 0 ∧ criteria.LatestPerHost = true then
        { criteria := { criteria with Limit := newLimit criteria }
          latestReports := true
          tx := buildLatestReportSearchQuery lib Db criteria.ID criteria.HostID
            criteria.HostHardwareID criteria.HostName criteria.HostStatus (newLimit criteria) }
      else
        { criteria := { criteria with Limit := newLimit criteria }
          latestReports := false
          tx := buildReportSearchQuery lib Db criteria.HostID criteria.HostHardwareID
            criteria.HostName criteria.HostStatus
            (if criteria.NumberOfDays ≠ 0 then lib.AddDate lib.Now (-criteria.NumberOfDays)
              else criteria.FromDate)
            (if criteria.NumberOfDays ≠ 0 then lib.Now else criteria.ToDate)
            criteria.LatestPerHost (newLimit criteria) } := by
  have e1 : (if criteria.ID ≠ UUID.Nil then criteria.ID else UUID.Nil) = criteria.ID := by
    split <;> simp_all
  have e2 : (if criteria.HostID ≠ UUID.Nil then criteria.HostID else UUID.Nil)
      = criteria.HostID := by split <;> simp_all
  have e3 : (if criteria.HostHardwareID ≠ UUID.Nil then criteria.HostHardwareID else UUID.Nil)
      = criteria.HostHardwareID := by split <;> simp_all
  have e4 : (if criteria.HostStatus ≠ "" then criteria.HostStatus else "")
      = criteria.HostStatus := by split <;> simp_all
  have e5 : (if criteria.HostName ≠ "" then criteria.HostName else "")
      = criteria.HostName := by split <;> simp_all
  have e6 : (if criteria.ToDate ≠ 0 then criteria.ToDate else (0 : Time))
      = criteria.ToDate := by split <;> simp_all
  have e7 : (if criteria.FromDate ≠ 0 then criteria.FromDate else (0 : Time))
      = criteria.FromDate := by split <;> simp_all
  unfold ReportStore.Search.plan newLimit
  simp only [e1, e2, e3, e4, e5, e6, e7]
  by_cases h : criteria.Limit = 0 ∧ criteria.LatestPerHost = true
  · simp only [h, and_self, if_true]
    by_cases hn : criteria.NumberOfDays = 0 <;> simp [hn]
  · simp only [h, if_false]
    by_cases hn : criteria.NumberOfDays = 0 <;> simp [hn]

theorem buildLatest_byId (lib : ReportLib) (tx0 : Query) (reportID hostID hostHardwareID : UUID)
    (hostName hostState : String) (limit : Int) (h : reportID ≠ UUID.Nil) :
    buildLatestReportSearchQuery lib (some tx0) reportID hostID hostHardwareID hostName
        hostState limit =
      some ((tx0 ++ [.Model "report"]) ++ [.Where "id = '%s'" [.str (lib.uuidString reportID)]]) := by
  unfold buildLatestReportSearchQuery
  simp only [h, ne_eq, not_false_eq_true, if_true]

theorem buildLatest_limit (lib : ReportLib) (tx0 : Query) (reportID hostID hostHardwareID : UUID)
    (hostName hostState : String) (limit : Int) (h : reportID = UUID.Nil) :
    ∃ tx, buildLatestReportSearchQuery lib (some tx0) reportID hostID hostHardwareID hostName
        hostState limit = some tx ∧ Query.appliedLimit tx = some limit := by
  unfold buildLatestReportSearchQuery
  simp only [h, ne_eq, not_true_eq_false, if_false]
  exact ⟨_, rfl, appliedLimit_append_Limit _ _⟩

theorem buildReportSearchQuery_limit (lib : ReportLib) (tx0 : Query)
    (hostHardwareID hostID : UUID) (hostName hostState : String) (fromDate toDate : Time)
    (latestPerHost : Bool) (limit : Int) :
    ∃ tx, buildReportSearchQuery lib (some tx0) hostHardwareID hostID hostName hostState
        fromDate toDate latestPerHost limit = some tx ∧ Query.appliedLimit tx = some limit := by
  unfold buildReportSearchQuery
  exact ⟨_, rfl, appliedLimit_append_Limit _ _⟩

/-- C25, amended: `Search` overwrites the limit of the criteria before it queries, with 1
when the limit given is 0 and `LatestPerHost` is set and with 2000 in every other case,
whatever limit other than 0 the caller gave; the query built carries that value as its
limit, except in the branch of the report table (no dates, `LatestPerHost` set) with a
report id given, where the query selects by id and `Limit` is not called on it. -/
theorem Search_overwrites_limit (lib : ReportLib) (store : ReportDb) (tx0 : Query)
    (criteria : ReportFilterCriteria) :
    (ReportStore.Search lib store criteria).1 =
      { criteria with Limit := newLimit criteria } ∧
    (newLimit criteria = if criteria.Limit = 0 ∧ criteria.LatestPerHost = true then 1
      else 2000) ∧
    ∃ tx, (ReportStore.Search.plan lib (some tx0) criteria).tx = some tx ∧
      Query.appliedLimit tx =
        if criteria.FromDate = 0 ∧ criteria.ToDate = 0 ∧ criteria.LatestPerHost = true ∧
            criteria.ID ≠ UUID.Nil then Query.appliedLimit tx0
        else some (newLimit criteria) := by
  refine ⟨?_, rfl, ?_⟩
  · rw [Search_criteria, plan_eq]
    split <;> rfl
  · rw [plan_eq]
    by_cases hl : criteria.FromDate = 0 ∧ criteria.ToDate = 0 ∧ criteria.LatestPerHost = true
    · rw [if_pos hl]
      by_cases hid : criteria.ID = UUID.Nil
      · have hc : ¬ (criteria.FromDate = 0 ∧ criteria.ToDate = 0 ∧
            criteria.LatestPerHost = true ∧ criteria.ID ≠ UUID.Nil) := fun h => h.2.2.2 hid
        rw [if_neg hc]
        exact buildLatest_limit lib tx0 _ _ _ _ _ _ hid
      · have hc : criteria.FromDate = 0 ∧ criteria.ToDate = 0 ∧
            criteria.LatestPerHost = true ∧ criteria.ID ≠ UUID.Nil :=
          ⟨hl.1, hl.2.1, hl.2.2, hid⟩
        rw [if_pos hc]
        exact ⟨_, buildLatest_byId lib tx0 _ _ _ _ _ _ hid, appliedLimit_byId _ _ _ _⟩
    · rw [if_neg hl]
      have hc : ¬ (criteria.FromDate = 0 ∧ criteria.ToDate = 0 ∧
          criteria.LatestPerHost = true ∧ criteria.ID ≠ UUID.Nil) :=
        fun h => hl ⟨h.1, h.2.1, h.2.2.1⟩
      rw [if_neg hc]
      exact buildReportSearchQuery_limit lib tx0 _ _ _ _ _ _ _ _

/-- C25 as stated fails for criteria that ask for the latest report by report id with no
limit given: the limit given is 0 and `LatestPerHost` is set, yet the query that
`Search` builds has no limit, neither 1 nor 2000. -/
theorem Search_by_report_id_applies_no_limit :
    reportIdCriteria.Limit = 0 ∧ reportIdCriteria.LatestPerHost = true ∧
    (ReportStore.Search.plan sampleReportLib (some []) reportIdCriteria).tx =
      some [.Model "report", .Where "id = '%s'" [.str "kkkkkkk"]] ∧
    Query.appliedLimit [.Model "report", .Where "id = '%s'" [.str "kkkkkkk"]] = none ∧
    ¬ ∃ tx, (ReportStore.Search.plan sampleReportLib (some []) reportIdCriteria).tx = some tx ∧
      (Query.appliedLimit tx = some 1 ∨ Query.appliedLimit tx = some 2000) := by
  have h : (ReportStore.Search.plan sampleReportLib (some []) reportIdCriteria).tx =
      some [.Model "report", .Where "id = '%s'" [.str "kkkkkkk"]] := rfl
  refine ⟨rfl, rfl, h, rfl, ?_⟩
  rintro ⟨tx, htx, hlim⟩
  rw [h] at htx
  cases htx
  have hn : Query.appliedLimit [.Model "report", .Where "id = '%s'" [.str "kkkkkkk"]] = none :=
    rfl
  rw [hn] at hlim
  rcases hlim with h1 | h1 <;> cases h1

/-- The limit at criteria of the audit-log path that ask for 50 rows: 2000. -/
theorem Search_limit_of_fifty :
    (ReportStore.Search sampleReportLib shortEntryDb
        { hostIdCriteria with Limit := 50 }).1.Limit = 2000 ∧
      ((ReportStore.Search.plan sampleReportLib (some []) { hostIdCriteria with Limit := 50 }).tx.bind
        Query.appliedLimit) = some 2000 := by
  constructor
  · rw [Search_criteria, plan_criteria_Limit]; rfl
  · rfl

/-- On the audit-log path, `Search` hands the host id of the criteria to the parameter
`hostHardwareID` of `buildReportSearchQuery`, and the host hardware id of the criteria to
its parameter `hostID`. -/
theorem plan_audit_tx (lib : ReportLib) (Db : Option Query) (criteria : ReportFilterCriteria)
    (h : ¬ (criteria.FromDate = 0 ∧ criteria.ToDate = 0 ∧ criteria.LatestPerHost = true)) :
    (ReportStore.Search.plan lib Db criteria).tx =
      buildReportSearchQuery lib Db criteria.HostID criteria.HostHardwareID
        criteria.HostName criteria.HostStatus
        (if criteria.NumberOfDays ≠ 0 then lib.AddDate lib.Now (-criteria.NumberOfDays)
          else criteria.FromDate)
        (if criteria.NumberOfDays ≠ 0 then lib.Now else criteria.ToDate)
        criteria.LatestPerHost (newLimit criteria) := by
  rw [plan_eq, if_neg h]

/-- The clause on `h.hardware_uuid` is bound to the parameter `hostHardwareID`, and the
clause on the host-id column of the entry to the parameter `hostID`. -/
theorem withCriteria_clauses (lib : ReportLib) (tx : Query) (hostHardwareID hostID : UUID)
    (entity hostName hostState : String) (fromDate toDate : Time) :
    (hostHardwareID ≠ UUID.Nil →
      QueryOp.Where "h.hardware_uuid = ?" [.str (lib.uuidString hostHardwareID)] ∈
        buildReportSearchQueryWithCriteria lib tx hostHardwareID hostID entity hostName
          hostState fromDate toDate) ∧
    (hostID ≠ UUID.Nil →
      QueryOp.Where (entity ++ ".data -> 'columns' -> 1 ->> 'value' = ?")
          [.str (lib.uuidString hostID)] ∈
        buildReportSearchQueryWithCriteria lib tx hostHardwareID hostID entity hostName
          hostState fromDate toDate) := by
  constructor
  · intro h
    by_cases h1 : hostState = "" <;> by_cases h2 : hostName = "" <;>
      by_cases h3 : hostID = UUID.Nil <;> by_cases h4 : fromDate = 0 <;>
      by_cases h5 : toDate = 0 <;>
      simp [buildReportSearchQueryWithCriteria, h, h1, h2, h3, h4, h5]
  · intro h
    by_cases h1 : hostState = "" <;> by_cases h2 : hostName = "" <;>
      by_cases h3 : hostHardwareID = UUID.Nil <;> by_cases h4 : fromDate = 0 <;>
      by_cases h5 : toDate = 0 <;>
      simp [buildReportSearchQueryWithCriteria, h, h1, h2, h3, h4, h5]

/-- C26 at two criteria of the audit-log path. With a host id only, the query that
`Search` builds joins the host table and constrains `h.hardware_uuid` by that host id,
and has no clause on the host-id column of the entry; with a host hardware id only, the
query constrains the host-id column of the entry by that hardware id, and has no clause
on `h.hardware_uuid`: the two ids are exchanged, because `Search` passes `hostID,
hostHardwareUUID` where `buildReportSearchQuery` declares `hostHardwareID, hostID`. -/
theorem Search_audit_path_exchanges_host_ids :
    (ReportStore.Search.plan sampleReportLib (some []) hostIdCriteria).tx =
      some [ .Table "audit_log_entry au", .Select "au.*",
        .Joins "INNER JOIN host h on CAST(h.id AS VARCHAR) = au.data -> 'columns' -> 1 ->> 'value'" [],
        .Where "au.entity_type = 'Report'" [],
        .Where "h.hardware_uuid = ?" [.str (sampleReportLib.uuidString hostIdCriteria.HostID)],
        .Limit 2000 ] ∧
    (ReportStore.Search.plan sampleReportLib (some []) hardwareIdCriteria).tx =
      some [ .Table "audit_log_entry au", .Select "au.*",
        .Where "au.entity_type = 'Report'" [],
        .Where "au.data -> 'columns' -> 1 ->> 'value' = ?"
          [.str (sampleReportLib.uuidString hardwareIdCriteria.HostHardwareID)],
        .Limit 2000 ] :=
  ⟨rfl, rfl⟩

/-- An entry with its six columns is converted. -/
theorem auditlogEntryToReport_fullEntry :
    auditlogEntryToReport sampleReportLib fullEntry =
      .ok { ID := ⟨12⟩, HostID := ⟨3⟩, TrustReport := "tr", CreatedAt := 24, Expiration := 24,
            Saml := "<saml/>" } := by
  rfl

/-- C27 at an entry the code can receive. For every audit log entry whose data holds
exactly one column, the guard of `Search` lets the entry through (its columns are not
empty) and `auditlogEntryToReport` panics at `Columns[1]`, and so does the loop of
`Search` over the rows; at the sample database, whose audit log holds the short entry,
`Search` ends in that panic. -/
theorem auditlogEntryToReport_panics_on_single_column :
    (∀ (lib : ReportLib) (auRecord : AuditLogEntry) (c : AuditColumnData),
      ¬ (({ Columns := [c] } : AuditTableData) = AuditTableData.zero ∨
          ({ Columns := [c] } : AuditTableData).Columns.length = 0) ∧
      auditlogEntryToReport lib { auRecord with Data := { Columns := [c] } } =
        .panic "runtime error: index out of range" ∧
      ReportStore.Search.auditRows lib [.ok { auRecord with Data := { Columns := [c] } }] [] =
        .panic "runtime error: index out of range") ∧
    shortEntry.Data.Columns ≠ [] ∧
    (ReportStore.Search sampleReportLib shortEntryDb ReportFilterCriteria.zero).2 =
      .panic "runtime error: index out of range" := by
  refine ⟨fun lib auRecord c => ⟨?_, rfl, ?_⟩, by decide, rfl⟩
  · simp [AuditTableData.zero]
  · unfold ReportStore.Search.auditRows
    simp [AuditTableData.zero]
    rfl

/-! ## `WriteDurationLog` -/

theorem ServeHTTP_size (next : List HandlerCall) (w : logResponseWriter) :
    (ServeHTTP next w).size = w.size + bytesReturned next ∧
      (ServeHTTP next w).ResponseWriter.written = w.ResponseWriter.written + bytesReturned next := by
  induction next generalizing w with
  | nil => simp [ServeHTTP, bytesReturned]
  | cons call rest ih =>
    cases call with
    | WriteHeader code =>
      have h := ih (w.WriteHeader code)
      have e : ServeHTTP (HandlerCall.WriteHeader code :: rest) w =
          ServeHTTP rest (w.WriteHeader code) := rfl
      have hw : (w.WriteHeader code).ResponseWriter.written = w.ResponseWriter.written := by
        obtain ⟨⟨status, written⟩, statusCode, size⟩ := w
        cases status <;> rfl
      rw [e, h.1, h.2, hw]
      simp [bytesReturned, logResponseWriter.WriteHeader]
    | Write body size =>
      have h := ih (w.Write body size).1
      have e : ServeHTTP (HandlerCall.Write body size :: rest) w =
          ServeHTTP rest (w.Write body size).1 := rfl
      rw [e, h.1, h.2]
      simp [bytesReturned, logResponseWriter.Write, ResponseWriter.Write,
        ResponseWriter.WriteHeader]
      constructor <;> ring

/-- The size that the log line carries is the sum of the byte counts that the wrapped
writer returned, the number of bytes sent. -/
theorem WriteDurationLog_size (next : List HandlerCall) :
    (ServeHTTP next (newLogResponseWriter ResponseWriter.fresh)).size = bytesReturned next ∧
      (WriteDurationLog next ResponseWriter.fresh).1.written = bytesReturned next := by
  have h := ServeHTTP_size next (newLogResponseWriter ResponseWriter.fresh)
  refine ⟨?_, ?_⟩
  · rw [h.1]; simp [newLogResponseWriter]
  · unfold WriteDurationLog
    rw [h.2]; simp [newLogResponseWriter, ResponseWriter.fresh]

/-- A handler that calls `WriteHeader` before it writes: the log line carries the status
sent. -/
theorem WriteDurationLog_notFoundHandler :
    WriteDurationLog notFoundHandler ResponseWriter.fresh =
      ({ status := some 404, written := 9 }, "404 9 \"") := by
  decide

/-- C28 at a handler that writes a body and never calls `WriteHeader`: the client
receives the status 200 and two bytes, and the log line carries the size 2 with the
status 0, the value that `statusCode` has from `newLogResponseWriter` on. -/
theorem WriteDurationLog_logs_zero_for_implicit_200 :
    (WriteDurationLog bodyOnlyHandler ResponseWriter.fresh).1.sentStatus = 200 ∧
    (WriteDurationLog bodyOnlyHandler ResponseWriter.fresh).1.written = 2 ∧
    (ServeHTTP bodyOnlyHandler (newLogResponseWriter ResponseWriter.fresh)).statusCode = 0 ∧
    (ServeHTTP bodyOnlyHandler (newLogResponseWriter ResponseWriter.fresh)).size = 2 ∧
    (WriteDurationLog bodyOnlyHandler ResponseWriter.fresh).2 = "0 2 \"" := by
  decide

end KBS
